import Mathlib

/-!
# LibreLinkUp input plugin: session-authenticated API client

A shallow embedding of `plugins/inputs/librelinkup/librelinkup.go`.

* The collector `LibreLinkUp` is a record; every function that receives the
  pointer `l` takes the record and returns the updated one.
* The network is a deterministic backend: `Env.roundTrip` maps the exchanges
  made so far and the request being sent to the answer of `l.client.Do`.
  Every request that is sent is appended, with its answer, to a `Trace`.
* Errors are their messages (`Option String`, `none` for `nil`).
* `login` and `callApi` call one another; the nesting depth of `login` is
  bounded by a fuel argument and `none` is returned when it runs out.
* `encoding/json`, `net/http` and the accumulator are outside the
  repository: `json.Unmarshal`, `http.NewRequest` and `client.Do` are fields
  of `Env`, `json.Marshal` of a string map is represented by the map itself,
  and the accumulator is the list of records added to it.
* A `float32` is a sign, a significand and an exponent over the integers, and
  every operation rounds exactly as IEEE 754 binary32 does: to nearest, ties
  to even (`roundBinary_nearest`, `isRoundedTo_unique`).
* The standard library's `time` package is outside the repository as well:
  `time.Unix(sec, 0).UTC().String()` is modelled from the spec
  (`unixUTCString`) and proved against the calendar (`unixToCivil_spec`).
-/

set_option linter.unusedVariables false

namespace librelinkup

/-! ## Payload types -/

/-- A Go `float64` payload field, kept as its IEEE bit pattern. -/
structure Float64 where
  bits : Nat := 0
  deriving DecidableEq, Repr

/-- A Go `interface{}` payload field: `none` is nil, otherwise the raw JSON value. -/
abbrev AnyJson := Option String

/-- The type `DateString`: an embedded `time.Time`, kept as seconds since the
Unix epoch (the zero `time.Time` is 0001-01-01 00:00:00 UTC). -/
structure DateString where
  Time : Int := -62135596800
  deriving DecidableEq, Repr

structure Sensor where
  DeviceID : String := ""
  Sn : String := ""
  A : Int := 0
  W : Int := 0
  Pt : Int := 0
  S : Bool := false
  Lj : Bool := false
  deriving DecidableEq, Repr

structure AlarmRulesH where
  Th : Int := 0
  Thmm : Float64 := {}
  D : Int := 0
  F : Float64 := {}
  deriving DecidableEq, Repr

structure AlarmRulesF where
  Th : Int := 0
  Thmm : Int := 0
  D : Int := 0
  Tl : Int := 0
  Tlmm : Float64 := {}
  deriving DecidableEq, Repr

structure AlarmRulesL where
  Th : Int := 0
  Thmm : Float64 := {}
  D : Int := 0
  Tl : Int := 0
  Tlmm : Float64 := {}
  deriving DecidableEq, Repr

structure AlarmRulesNd where
  I : Int := 0
  R : Int := 0
  L : Int := 0
  deriving DecidableEq, Repr

structure AlarmRules where
  C : Bool := false
  H : AlarmRulesH := {}
  F : AlarmRulesF := {}
  L : AlarmRulesL := {}
  Nd : AlarmRulesNd := {}
  P : Int := 0
  R : Int := 0
  deriving DecidableEq, Repr

/-- The shape shared by `GlucoseMeasurement` and `GlucoseItem` (the Go field
`Type` is `Type_` here). -/
structure GlucoseItem where
  FactoryTimestamp : DateString := {}
  Timestamp : DateString := {}
  Type_ : Int := 0
  ValueInMgPerDl : Int := 0
  TrendArrow : Int := 0
  TrendMessage : AnyJson := none
  MeasurementColor : Int := 0
  GlucoseUnits : Int := 0
  Value : Int := 0
  IsHigh : Bool := false
  IsLow : Bool := false
  deriving DecidableEq, Repr

structure FixedLowAlarmValues where
  Mgdl : Int := 0
  Mmoll : Float64 := {}
  deriving DecidableEq, Repr

structure PatientDevice where
  Did : String := ""
  Dtid : Int := 0
  V : String := ""
  Ll : Int := 0
  Hl : Int := 0
  U : Int := 0
  FixedLowAlarmValues : FixedLowAlarmValues := {}
  Alarms : Bool := false
  FixedLowThreshold : Int := 0
  deriving DecidableEq, Repr

/-- One patient connection: the element type of `Connection.Data` and the type
of `Measurements.Data.Connection`. -/
structure PatientConnection where
  ID : String := ""
  PatientID : String := ""
  Country : String := ""
  Status : Int := 0
  FirstName : String := ""
  LastName : String := ""
  TargetLow : Int := 0
  TargetHigh : Int := 0
  Uom : Int := 0
  Sensor : Sensor := {}
  AlarmRules : AlarmRules := {}
  GlucoseMeasurement : GlucoseItem := {}
  GlucoseItem : GlucoseItem := {}
  GlucoseAlarm : AnyJson := none
  PatientDevice : PatientDevice := {}
  Created : Int := 0
  deriving DecidableEq, Repr

structure Ticket where
  Token : String := ""
  Expires : Int := 0
  Duration : Int := 0
  deriving DecidableEq, Repr

/-- The type `Connection`: the answer of `GET /llu/connections`. -/
structure Connection where
  Status : Int := 0
  Data : List PatientConnection := []
  Ticket : Ticket := {}
  deriving DecidableEq, Repr

structure SystemMessages where
  FirstUsePhoenix : Int := 0
  FirstUsePhoenixReportsDataMerged : Int := 0
  LluAnalyticsNewAccount : Int := 0
  LluGettingStartedBanner : Int := 0
  LluNewFeatureModal : Int := 0
  LvWebPostRelease : String := ""
  deriving DecidableEq, Repr

structure TwoFactor where
  Code : String := ""
  Fingerprint : String := ""
  PhoneNumber : String := ""
  IsPrimaryMethod : Bool := false
  PrimaryMethod : String := ""
  PrimaryValue : String := ""
  SecondaryMethod : String := ""
  SecondaryValue : String := ""
  deriving DecidableEq, Repr

structure RealWorldEvidence where
  PolicyAccept : Int := 0
  TouAccept : Int := 0
  History : List Int := []
  deriving DecidableEq, Repr

structure User where
  ID : String := ""
  FirstName : String := ""
  LastName : String := ""
  Email : String := ""
  Country : String := ""
  UILanguage : String := ""
  CommunicationLanguage : String := ""
  AccountType : String := ""
  Uom : String := ""
  DateFormat : String := ""
  TimeFormat : String := ""
  EmailDay : List Int := []
  SystemMessages : SystemMessages := {}
  TwoFactor : TwoFactor := {}
  Created : Int := 0
  LastLogin : Int := 0
  DateOfBirth : Int := 0
  ConsentsRealWorldEvidence : RealWorldEvidence := {}
  deriving DecidableEq, Repr

structure SessionData where
  User : User := {}
  MessagesUnread : Int := 0
  NotificationsUnresolved : Int := 0
  AuthTicket : Ticket := {}
  Invitations : AnyJson := none
  deriving DecidableEq, Repr

/-- The type `Session`: the answer of `POST /llu/auth/login`. -/
structure Session where
  Status : Int := 0
  Data : SessionData := {}
  deriving DecidableEq, Repr

structure ActiveSensor where
  Sensor : Sensor := {}
  Device : PatientDevice := {}
  deriving DecidableEq, Repr

structure GraphPoint where
  FactoryTimestamp : DateString := {}
  Timestamp : DateString := {}
  Type_ : Int := 0
  ValueInMgPerDl : Int := 0
  MeasurementColor : Int := 0
  GlucoseUnits : Int := 0
  Value : Int := 0
  IsHigh : Bool := false
  IsLow : Bool := false
  deriving DecidableEq, Repr

structure MeasurementsData where
  Connection : PatientConnection := {}
  ActiveSensors : List ActiveSensor := []
  GraphData : List GraphPoint := []
  deriving DecidableEq, Repr

/-- The type `Measurements`: the answer of `GET /llu/connections/{id}/graph`. -/
structure Measurements where
  Status : Int := 0
  Data : MeasurementsData := {}
  Ticket : Ticket := {}
  deriving DecidableEq, Repr

/-- The zero value of `Session`, as `&Session{}` allocates it. -/
def zeroSession : Session := {}

/-- The zero value of `Connection`. -/
def zeroConnection : Connection := {}

/-- The zero value of `Measurements`. -/
def zeroMeasurements : Measurements := {}

/-! ## The collector and the network -/

/-- The struct `LibreLinkUp`. The `client` field is the backend `Env.roundTrip`. -/
structure LibreLinkUp where
  Email : String := ""
  Password : String := ""
  PatientId : String := ""
  Region : String := ""
  Version : String := ""
  Product : String := ""
  ApiUrl : String := ""
  session : Session := zeroSession
  deriving DecidableEq, Repr

/-- An HTTP request as `callApi` builds it. `body` is the string map handed to
`createBody` (`none` for a nil map). -/
structure Request where
  method : String
  url : String
  header : List (String × String)
  body : Option (List (String × String))
  deriving DecidableEq, Repr

/-- A response body: the bytes `io.ReadAll` yields, or the error it returns. -/
structure Body where
  bytes : String := ""
  readError : Option String := none
  deriving DecidableEq, Repr

/-- What `l.client.Do(req)` returns: an error, or a response with a status code. -/
inductive Response where
  | failed (err : String)
  | http (statusCode : Nat) (body : Body)
  deriving DecidableEq, Repr

structure Exchange where
  request : Request
  response : Response
  deriving DecidableEq, Repr

/-- The exchanges made so far, oldest first. -/
abbrev Trace := List Exchange

/-- The libraries the plugin calls. `unmarshal*` is `json.Unmarshal` into a
target of the given type: it returns the target as decoding leaves it and the
error, if any. -/
structure Env where
  newRequestError : String → String → Option String
  roundTrip : Trace → Request → Response
  unmarshalSession : String → Session → Session × Option String
  unmarshalConnection : String → Connection → Connection × Option String
  unmarshalMeasurements : String → Measurements → Measurements × Option String

/-! ## Region resolver -/

/-- Reading a Go `map[string]string`: the value of the key, or `""`. -/
def mapIndex (m : List (String × String)) (key : String) : String :=
  match m.find? (fun kv => kv.1 == key) with
  | some kv => kv.2
  | none => ""

/-- All known API base urls. -/
def availableApiUrls : List (String × String) :=
  [("US", "api-us.libreview.io"),
   ("EU", "api-eu.libreview.io"),
   ("DE", "api-de.libreview.io"),
   ("FR", "api-fr.libreview.io"),
   ("JP", "api-jp.libreview.io"),
   ("AP", "api-ap.libreview.io"),
   ("AU", "api-au.libreview.io"),
   ("AE", "api-ae.libreview.io")]

/-- Gets the API base url for the region. -/
def getRegionalApiUrl (l : LibreLinkUp) : String :=
  "https://" ++ mapIndex availableApiUrls l.Region

/-! ## API client -/

/-- Adds the needed header values. -/
def addHeaders (header : List (String × String)) (withAuth : Bool) (l : LibreLinkUp) :
    List (String × String) :=
  let h := header ++
    [("User-Agent", "FreeStyle LibreLink Up NightScout Uploader"),
     ("Content-Type", "application/json"),
     ("version", l.Version),
     ("product", l.Product),
     ("Accept-Encoding", "gzip, deflate, br"),
     ("Connection", "keep-alive"),
     ("Pragma", "no-cache"),
     ("Cache-Control", "no-cache")]
  if withAuth then h ++ [("Authorization", "Bearer " ++ l.session.Data.AuthTicket.Token)] else h

/-- Takes the body values; their JSON encoding is represented by the map. -/
def createBody (values : Option (List (String × String))) : Option (List (String × String)) :=
  values

/-- The request `callApi` builds for an endpoint. -/
def buildRequest (endpoint method : String) (body : Option (List (String × String)))
    (authenticated : Bool) (l : LibreLinkUp) : Request :=
  { method := method
    url := l.ApiUrl ++ endpoint
    header := addHeaders [] authenticated l
    body := createBody body }

/-- The last two steps of `callApi`: read the whole body, then unmarshal it
into the target. Returns the error and the target. -/
def decodeBody {τ : Type} (unmarshal : String → τ → τ × Option String) (body : Body)
    (target : τ) : Option String × τ :=
  match body.readError with
  | some err => (some err, target)
  | none => ((unmarshal body.bytes target).2, (unmarshal body.bytes target).1)

/-- The body of `callApi`, with the `login` it calls on a 400 passed in as
`relogin`. Returns the error, the target, the collector and the trace. -/
def callApiWith {τ : Type} (env : Env)
    (relogin : LibreLinkUp → Trace → Option (Option String × LibreLinkUp × Trace))
    (endpoint method : String) (body : Option (List (String × String)))
    (authenticated : Bool) (unmarshal : String → τ → τ × Option String) (target : τ)
    (l : LibreLinkUp) (sent : Trace) : Option (Option String × τ × LibreLinkUp × Trace) :=
  match env.newRequestError method (l.ApiUrl ++ endpoint) with
  | some err => some (some err, target, l, sent)
  | none =>
    let req := buildRequest endpoint method body authenticated l
    match env.roundTrip sent req with
    | Response.failed err => some (some err, target, l, sent ++ [⟨req, Response.failed err⟩])
    | Response.http statusCode respBody =>
      let sent1 := sent ++ [⟨req, Response.http statusCode respBody⟩]
      if statusCode = 400 then
        match relogin l sent1 with
        | none => none
        | some (some reAuthError, l1, sent2) => some (some reAuthError, target, l1, sent2)
        | some (none, l1, sent2) =>
          some ((decodeBody unmarshal respBody target).1,
                (decodeBody unmarshal respBody target).2, l1, sent2)
      else
        some ((decodeBody unmarshal respBody target).1,
              (decodeBody unmarshal respBody target).2, l, sent1)

/-- The message of the authentication error. -/
def invalidLoginCredentials : String :=
  "invalid login credentials. Please check your username/email and password"

/-- Login and save session. The first argument bounds the nesting of logins. -/
def login (env : Env) : Nat → String → String → LibreLinkUp → Trace →
    Option (Option String × LibreLinkUp × Trace)
  | 0, _, _, _, _ => none
  | fuel + 1, email, password, l, sent =>
    let values := [("email", email), ("password", password)]
    match callApiWith env (fun l1 sent1 => login env fuel l1.Email l1.Password l1 sent1)
        "/llu/auth/login" "POST" (some values) false env.unmarshalSession zeroSession
        l sent with
    | none => none
    | some (some err, _, l1, sent1) => some (some err, l1, sent1)
    | some (none, session, l1, sent1) =>
      if session.Status = 0 then some (none, { l1 with session := session }, sent1)
      else some (some invalidLoginCredentials, l1, sent1)

/-- Makes the actual REST call to the LLU backend. -/
def callApi {τ : Type} (env : Env) (fuel : Nat) (endpoint method : String)
    (body : Option (List (String × String))) (authenticated : Bool)
    (unmarshal : String → τ → τ × Option String) (target : τ)
    (l : LibreLinkUp) (sent : Trace) : Option (Option String × τ × LibreLinkUp × Trace) :=
  callApiWith env (fun l1 sent1 => login env fuel l1.Email l1.Password l1 sent1)
    endpoint method body authenticated unmarshal target l sent

/-! ## Single-precision arithmetic

Go's `float32` is IEEE 754 binary32 and every operation rounds to nearest,
ties to even. A value is kept in canonical form, so that two values are the
same `float32` exactly when they are equal (the two zeros apart). -/

/-- An IEEE binary floating-point datum. `finite neg mant exp` is
`(-1)^neg * mant * 2^exp`. -/
inductive BinaryFloat where
  | finite (neg : Bool) (mant : Nat) (exp : Int)
  | inf (neg : Bool)
  | nan
  deriving DecidableEq, Repr

/-- A Go `float32`: a datum of the binary32 format. -/
abbrev Float32 := BinaryFloat

/-- The number of halvings that bring `n` below 2, that is `⌊log₂ n⌋` for
`n ≥ 1`; the first argument bounds the recursion. -/
def floorLog2 : Nat → Nat → Nat
  | 0, _ => 0
  | fuel + 1, n => if n < 2 then 0 else floorLog2 fuel (n / 2) + 1

/-- The quotient `n / d` rounded to the nearest integer, ties to even. -/
def roundHalfEven (n d : Nat) : Nat :=
  if 2 * (n % d) < d then n / d
  else if d < 2 * (n % d) then n / d + 1
  else if (n / d) % 2 = 0 then n / d else n / d + 1

/-- The fraction `n / (d * 2^e)` as a numerator and a denominator. -/
def scaleDown (n d : Nat) (e : Int) : Nat × Nat :=
  if 0 ≤ e then (n, d * 2 ^ e.toNat) else (n * 2 ^ (-e).toNat, d)

/-- The exponent `⌊log₂ (n / d)⌋` of a positive fraction. -/
def floorLog2Ratio (n d : Nat) : Int :=
  let k : Int := (floorLog2 n n : Int) - (floorLog2 d d : Int)
  if (scaleDown n d k).2 ≤ (scaleDown n d k).1 then k else k - 1

/-- Rounds the fraction `(-1)^neg * n / d` to a binary format with `p` bits of
precision whose least exponent of the last place is `emin` and whose greatest
is `emax`: round to nearest, ties to even, gradual underflow, overflow to
infinity. -/
def roundBinary (p : Nat) (emin emax : Int) (neg : Bool) (n d : Nat) : BinaryFloat :=
  if n = 0 then BinaryFloat.finite neg 0 emin
  else
    let e : Int := max (floorLog2Ratio n d - ((p : Int) - 1)) emin
    let m := roundHalfEven (scaleDown n d e).1 (scaleDown n d e).2
    let m1 := if m = 2 ^ p then 2 ^ (p - 1) else m
    let e1 := if m = 2 ^ p then e + 1 else e
    if emax < e1 then BinaryFloat.inf neg else BinaryFloat.finite neg m1 e1

/-- Rounding to binary32: 24 bits, exponents of the last place from -149 to 104. -/
def roundFloat32 (neg : Bool) (n d : Nat) : Float32 :=
  roundBinary 24 (-149) 104 neg n d

/-- Rounding to binary64: 53 bits, exponents of the last place from -1074 to 971. -/
def roundFloat64 (neg : Bool) (n d : Nat) : BinaryFloat :=
  roundBinary 53 (-1074) 971 neg n d

/-- The conversion `float32(v)` of an integer. -/
def float32OfInt (v : Int) : Float32 :=
  roundFloat32 (decide (v < 0)) v.natAbs 1

/-- The conversion of the untyped decimal constant `n / d` to `float32`. -/
def float32OfConst (n d : Nat) : Float32 :=
  roundFloat32 false n d

/-- The product of two data, rounded to the format given by `round`. -/
def mulRounded (round : Bool → Nat → Nat → BinaryFloat) :
    BinaryFloat → BinaryFloat → BinaryFloat
  | BinaryFloat.finite s1 m1 e1, BinaryFloat.finite s2 m2 e2 =>
    round (s1 != s2) (scaleDown (m1 * m2) 1 (-(e1 + e2))).1
      (scaleDown (m1 * m2) 1 (-(e1 + e2))).2
  | BinaryFloat.finite s1 m1 _, BinaryFloat.inf s2 =>
    if m1 = 0 then BinaryFloat.nan else BinaryFloat.inf (s1 != s2)
  | BinaryFloat.inf s1, BinaryFloat.finite s2 m2 _ =>
    if m2 = 0 then BinaryFloat.nan else BinaryFloat.inf (s1 != s2)
  | BinaryFloat.inf s1, BinaryFloat.inf s2 => BinaryFloat.inf (s1 != s2)
  | _, _ => BinaryFloat.nan

/-- The `float32` product `x * y`. -/
def mulFloat32 (x y : Float32) : Float32 :=
  mulRounded roundFloat32 x y

/-- The `float64` product `x * y` of two binary64 data. -/
def mulFloat64 (x y : BinaryFloat) : BinaryFloat :=
  mulRounded roundFloat64 x y

/-! ## Timestamps -/

/-- Modelled from the spec: the standard library's `time.Time` is not part of
the repository. A calendar date and a time of day, in UTC. -/
structure CivilTime where
  year : Int
  month : Int
  day : Int
  hour : Int
  minute : Int
  second : Int
  deriving DecidableEq, Repr

/-- Modelled from the spec: the standard library's `time` package is not part
of the repository. The Gregorian leap-year rule. -/
def isLeap (year : Int) : Bool :=
  year % 4 = 0 && (year % 100 != 0 || year % 400 = 0)

/-- Modelled from the spec: the standard library's `time` package is not part
of the repository. The days of a common year that precede each month; the last
entry is the length of the year. -/
def daysBefore : List Int :=
  [0, 31, 59, 90, 120, 151, 181, 212, 243, 273, 304, 334, 365]

/-- Modelled from the spec: the standard library's `time` package is not part
of the repository. The year and the day within the year (from 0) of the day
that lies `days` days after 0001-01-01 in the proleptic Gregorian calendar,
found by cutting off cycles of 400, 100, 4 and 1 years. -/
def yearAndDay (days : Int) : Int × Int :=
  let n400 := days / 146097
  let d1 := days - 146097 * n400
  let n100 := d1 / 36524 - d1 / 36524 / 4
  let d2 := d1 - 36524 * n100
  let n4 := d2 / 1461
  let d3 := d2 - 1461 * n4
  let n1 := d3 / 365 - d3 / 365 / 4
  (400 * n400 + 100 * n100 + 4 * n4 + n1 + 1, d3 - 365 * n1)

/-- Modelled from the spec: the standard library's `time` package is not part
of the repository. The month (from 1) and the day of the month (from 1) of the
day `yday` (from 0) of `year`. -/
def monthAndDay (year yday : Int) : Int × Int :=
  if isLeap year && yday = 31 + 29 - 1 then (2, 29)
  else
    let day := if isLeap year && yday > 31 + 29 - 1 then yday - 1 else yday
    let m := day / 31
    let month := if day ≥ daysBefore.getD (m + 1).toNat 0 then m + 1 else m
    (month + 1, day - daysBefore.getD month.toNat 0 + 1)

/-- Modelled from the spec: the standard library's `time.Unix(sec, 0).UTC()` is
not part of the repository. The spec reads the value as epoch seconds
"interpreted as UTC": the date and time of day that lie `sec` seconds after
1970-01-01 00:00:00, which is day 719162 after 0001-01-01. -/
def unixToCivil (sec : Int) : CivilTime :=
  let yd := yearAndDay (sec / 86400 + 719162)
  let md := monthAndDay yd.1 yd.2
  { year := yd.1, month := md.1, day := md.2,
    hour := sec % 86400 / 3600, minute := sec % 86400 % 3600 / 60, second := sec % 86400 % 60 }

/-- Modelled from the spec: the standard library's number formatting is not
part of the repository. The decimal digits of `n`, most significant first; the
first argument bounds the recursion. -/
def natDigits : Nat → Nat → List Char
  | 0, _ => []
  | fuel + 1, n =>
    (if n < 10 then [] else natDigits fuel (n / 10)) ++ [Char.ofNat (48 + n % 10)]

/-- Modelled from the spec: the standard library's number formatting is not
part of the repository. The integer `n` in decimal, padded with zeros to at
least `width` digits, after a minus sign when negative. -/
def zeroPad (width : Nat) (n : Int) : String :=
  let ds := natDigits (n.natAbs + 1) n.natAbs
  String.mk ((if n < 0 then [(0x2d : Nat)].map Char.ofNat else []) ++
    List.replicate (width - ds.length) (Char.ofNat 48) ++ ds)

/-- Modelled from the spec: the standard library's `Time.String()` for a UTC
time without fractional seconds is not part of the repository. The spec gives
the layout `YYYY-MM-DD HH:MM:SS +0000 UTC`. -/
def CivilTime.format (t : CivilTime) : String :=
  zeroPad 4 t.year ++ "-" ++ zeroPad 2 t.month ++ "-" ++ zeroPad 2 t.day ++ " " ++
    zeroPad 2 t.hour ++ ":" ++ zeroPad 2 t.minute ++ ":" ++ zeroPad 2 t.second ++ " +0000 UTC"

/-- Modelled from the spec: the expression `time.Unix(sec, 0).UTC().String()`
of the standard library, which is not part of the repository. -/
def unixUTCString (sec : Int) : String :=
  (unixToCivil sec).format

/-! ## Connection resolver, measurements, collector -/

/-- The state of the loop over the connections: `patientId` and
`patientInformation`. -/
def connectionLoop (configured : String) (data : List PatientConnection) : String × String :=
  data.foldl
    (fun (st : String × String) c =>
      (if c.PatientID == configured then c.PatientID else st.1,
       st.2 ++ " - " ++ c.PatientID ++ ": " ++ c.FirstName ++ " " ++ c.LastName ++ "\n"))
    ("", "")

/-- Get all the available connections. Returns the patient id, the error, the
collector and the trace. -/
def getLibreLinkUpConnection (env : Env) (fuel : Nat) (l : LibreLinkUp) (sent : Trace) :
    Option (String × Option String × LibreLinkUp × Trace) :=
  if l.session.Status = 0 then
    match callApi env fuel "/llu/connections" "GET" none true env.unmarshalConnection
        zeroConnection l sent with
    | none => none
    | some (some err, _, l1, sent1) =>
      some ("", some ("error getting connections: " ++ err), l1, sent1)
    | some (none, connection, l1, sent1) =>
      if connection.Data.length = 0 then
        some ("", some "no LibreLinkUp connection found", l1, sent1)
      else if connection.Data.length = 1 then
        some ((connection.Data.getD 0 {}).PatientID, none, l1, sent1)
      else if connection.Data.length > 1 then
        let patientId := (connectionLoop l1.PatientId connection.Data).1
        let patientInformation := (connectionLoop l1.PatientId connection.Data).2
        if l1.PatientId = "" then
          some ("", some ("more than one specified patient-id was found:\n" ++
            patientInformation ++ " please set a patient_id in the config"), l1, sent1)
        else if patientId = "" then
          some ("", some "the specified patient-id was not found", l1, sent1)
        else
          some (patientId, none, l1, sent1)
      else
        some ("", some invalidLoginCredentials, l1, sent1)
  else
    some ("", some invalidLoginCredentials, l, sent)

/-- Get the glucose measurements. Returns the measurements, the error, the
collector and the trace. -/
def getGlucoseMeasurements (env : Env) (fuel : Nat) (l : LibreLinkUp) (sent : Trace) :
    Option (Measurements × Option String × LibreLinkUp × Trace) :=
  if l.session.Status = 0 then
    match getLibreLinkUpConnection env fuel l sent with
    | none => none
    | some (_, some err, l1, sent1) =>
      some (zeroMeasurements, some ("error getting connections: " ++ err), l1, sent1)
    | some (patientId, none, l1, sent1) =>
      match callApi env fuel ("/llu/connections/" ++ patientId ++ "/graph") "GET" none true
          env.unmarshalMeasurements zeroMeasurements l1 sent1 with
      | none => none
      | some (some err, _, l2, sent2) =>
        some (zeroMeasurements,
          some ("error getting glucose measurement from the llu backend: " ++ err),
          l2, sent2)
      | some (none, measurements, l2, sent2) => some (measurements, none, l2, sent2)
  else
    some (zeroMeasurements,
      some "error getting glucose measurement from the llu backend: login status != 0", l, sent)

/-- A value of the `fields` map. -/
inductive FieldValue where
  | int (v : Int)
  | float32 (v : Float32)
  | string (v : String)
  deriving DecidableEq, Repr

/-- A record handed to `acc.AddFields`: name, fields and tags, the two maps in
the order in which the keys are written. -/
structure Metric where
  name : String
  fields : List (String × FieldValue)
  tags : List (String × String)
  deriving DecidableEq, Repr

/-- The accumulator: the records added so far. -/
abbrev Accumulator := List Metric

/-- The tags `Gather` builds from the measurements. -/
def gatherTags (measurements : Measurements) : List (String × String) :=
  [("patient_id", measurements.Data.Connection.PatientID),
   ("sensor_sn", measurements.Data.Connection.Sensor.Sn)]

/-- The fields `Gather` builds from the measurements. -/
def gatherFields (measurements : Measurements) : List (String × FieldValue) :=
  [("mg_dl", FieldValue.int measurements.Data.Connection.GlucoseMeasurement.ValueInMgPerDl),
   ("mmol_l", FieldValue.float32
      (mulFloat32 (float32OfInt measurements.Data.Connection.GlucoseMeasurement.ValueInMgPerDl)
        (float32OfConst 555 10000))),
   ("timestamp", FieldValue.string (unixUTCString measurements.Data.Connection.Sensor.A))]

/-- The method `Gather`. Returns the error, the collector, the trace and the
accumulator. -/
def Gather (env : Env) (fuel : Nat) (l : LibreLinkUp) (sent : Trace) (acc : Accumulator) :
    Option (Option String × LibreLinkUp × Trace × Accumulator) :=
  match getGlucoseMeasurements env fuel l sent with
  | none => none
  | some (_, some err, l1, sent1) => some (some err, l1, sent1, acc)
  | some (measurements, none, l1, sent1) =>
    some (none, l1, sent1,
      acc ++ [⟨"librelinkup", gatherFields measurements, gatherTags measurements⟩])

/-- The constructor `LibreLinkUpInput`. -/
def LibreLinkUpInput : LibreLinkUp :=
  { Version := "4.2.2", Product := "llu.ios" }

/-- The method `Init`. Returns the error, the collector and the trace. -/
def Init (env : Env) (fuel : Nat) (l : LibreLinkUp) (sent : Trace) :
    Option (Option String × LibreLinkUp × Trace) :=
  login env fuel l.Email l.Password { l with ApiUrl := getRegionalApiUrl l } sent

/-! ## Vocabulary of the statements -/

/-- The values `login` sends. -/
def loginValues (email password : String) : Option (List (String × String)) :=
  some [("email", email), ("password", password)]

/-- Two collectors that differ in the stored session at most. -/
def sameConfig (l l1 : LibreLinkUp) : Prop :=
  l1 = { l with session := l1.session }

/-- The eight recognized region codes. -/
def regionCodes : List String :=
  ["US", "EU", "DE", "FR", "JP", "AP", "AU", "AE"]

/-- The string with every upper-case ASCII letter replaced by its lower-case one. -/
def lowerCase (s : String) : String :=
  String.mk (s.toList.map Char.toLower)

/-- Whether a request is a login attempt: a `POST` to `/llu/auth/login` of the
given origin. -/
def isLoginPost (apiUrl : String) (r : Request) : Bool :=
  r.method == "POST" && r.url == apiUrl ++ "/llu/auth/login"

/-- The number of login attempts among the exchanges of a trace. -/
def loginAttempts (apiUrl : String) (t : Trace) : Nat :=
  t.countP (fun e => isLoginPost apiUrl e.request)

/-- Whether an exchange was answered with HTTP status 400. -/
def answered400 (e : Exchange) : Bool :=
  match e.response with
  | Response.http code _ => code == 400
  | Response.failed _ => false

/-- The datum `m * 2 ^ e` is the fraction `x ≥ 0` rounded to nearest, ties to
even, in the binary format with `p` bits of precision and exponents of the
last place from `emin` to `emax`. The datum is in canonical form: the
significand has at most `p` bits and is normalized unless the exponent is the
least one. It is at most half a unit in the last place away from `x`; no
number `m2 * 2 ^ e2` with a significand of at most `p` bits and an exponent of
at least `emin` is nearer to `x`; and if another such number is as near, `m`
is even. -/
def isRoundedTo (p : Nat) (emin emax : Int) (x : ℚ) (m : Nat) (e : Int) : Prop :=
  (m < 2 ^ p ∧ emin ≤ e ∧ e ≤ emax ∧ (2 ^ (p - 1) ≤ m ∨ e = emin)) ∧
  |(m : ℚ) * (2 : ℚ) ^ e - x| ≤ (2 : ℚ) ^ e / 2 ∧
  (∀ (m2 : Nat) (e2 : Int), m2 < 2 ^ p → emin ≤ e2 →
    |(m : ℚ) * (2 : ℚ) ^ e - x| ≤ |(m2 : ℚ) * (2 : ℚ) ^ e2 - x|) ∧
  (∀ (m2 : Nat) (e2 : Int), m2 < 2 ^ p → emin ≤ e2 →
    (m2 : ℚ) * (2 : ℚ) ^ e2 ≠ (m : ℚ) * (2 : ℚ) ^ e →
    |(m2 : ℚ) * (2 : ℚ) ^ e2 - x| = |(m : ℚ) * (2 : ℚ) ^ e - x| → m % 2 = 0)

/-- The binary32 datum `m * 2 ^ e` is `x ≥ 0` rounded to single precision:
24 bits, round to nearest, ties to even. -/
def nearestFloat32 (x : ℚ) (m : Nat) (e : Int) : Prop :=
  isRoundedTo 24 (-149) 104 x m e

/-- The days from 0001-01-01 to the first day of `year`: 365 for each earlier
year and one more for each earlier leap year. -/
def daysBeforeYear (year : Int) : Int :=
  365 * (year - 1) + (year - 1) / 4 - (year - 1) / 100 + (year - 1) / 400

/-- The leap day of `year` as a number of days. -/
def leapDays (year : Int) : Int :=
  if isLeap year then 1 else 0

/-- The length of a month. -/
def daysInMonth (year month : Int) : Int :=
  if month = 2 then (if isLeap year then 29 else 28)
  else if month = 4 ∨ month = 6 ∨ month = 9 ∨ month = 11 then 30
  else 31

/-- The days of `year` that precede the first day of `month`: the sum of the
lengths of the earlier months. -/
def daysBeforeMonth (year month : Int) : Int :=
  ((List.range (month.toNat - 1)).map (fun k => daysInMonth year ((k : Int) + 1))).sum

/-- A date of the calendar with a time of day of the 24-hour clock. -/
def CivilTime.valid (t : CivilTime) : Prop :=
  1 ≤ t.month ∧ t.month ≤ 12 ∧ 1 ≤ t.day ∧ t.day ≤ daysInMonth t.year t.month ∧
  0 ≤ t.hour ∧ t.hour < 24 ∧ 0 ≤ t.minute ∧ t.minute < 60 ∧ 0 ≤ t.second ∧ t.second < 60

/-- The seconds from 1970-01-01 00:00:00 to a date and time of day. -/
def CivilTime.toUnix (t : CivilTime) : Int :=
  (daysBeforeYear t.year + daysBeforeMonth t.year t.month + (t.day - 1) - daysBeforeYear 1970)
    * 86400 + t.hour * 3600 + t.minute * 60 + t.second

/-! ## Concrete backends

A scripted backend answers the k-th request that is sent with the k-th entry
of a script, and fails at the transport level once the script is exhausted.
Bodies are named after the files of `testdata/`; the decoders give each name
the payload of the end-to-end scenario and variants of it. -/

/-- The patient id of the end-to-end scenario. -/
def testPatientId : String := "639dac0c-7065-4488-a782-ef81905213f3"

/-- The session a `session*.json` body decodes to. -/
def testSession (token : String) : Session :=
  { Status := 0, Data := { AuthTicket := { Token := token } } }

/-- A connection of the scenario with the given patient id. -/
def testConnection (patientId firstName : String) : PatientConnection :=
  { PatientID := patientId, FirstName := firstName, LastName := "Doe",
    Sensor := { Sn := "123ABCD456", A := 1661751913 },
    GlucoseMeasurement := { ValueInMgPerDl := 222 } }

def testUnmarshalSession (bytes : String) (target : Session) : Session × Option String :=
  if bytes = "session.json" then (testSession "token-1", none)
  else if bytes = "session-2.json" then (testSession "token-2", none)
  else if bytes = "session-denied.json" then ({ Status := 2 }, none)
  else (target, some "unexpected end of JSON input")

def testUnmarshalConnection (bytes : String) (target : Connection) :
    Connection × Option String :=
  if bytes = "connections.json" then ({ Data := [testConnection testPatientId "Jane"] }, none)
  else if bytes = "connections-2.json" then
    ({ Data := [testConnection "first-patient" "John", testConnection testPatientId "Jane"] },
      none)
  else if bytes = "connections-0.json" then ({ Data := [] }, none)
  else (target, some "unexpected end of JSON input")

def testUnmarshalMeasurements (bytes : String) (target : Measurements) :
    Measurements × Option String :=
  if bytes = "measurements.json" then
    ({ Data := { Connection := testConnection testPatientId "Jane" } }, none)
  else if bytes = "measurements-other.json" then
    ({ Data := { Connection := testConnection "other-patient" "Joe" } }, none)
  else if bytes = "measurements-high.json" then
    ({ Data := { Connection :=
        { testConnection testPatientId "Jane" with
          GlucoseMeasurement := { ValueInMgPerDl := 16777217 } } } }, none)
  else (target, some "unexpected end of JSON input")

/-- The backend that answers the requests in the order of `script`. -/
def scriptedEnv (script : List Response) : Env :=
  { newRequestError := fun _ _ => none
    roundTrip := fun sent _ => script.getD sent.length (Response.failed "EOF")
    unmarshalSession := testUnmarshalSession
    unmarshalConnection := testUnmarshalConnection
    unmarshalMeasurements := testUnmarshalMeasurements }

/-- A response with status 200 and the named body. -/
def ok200 (name : String) : Response :=
  Response.http 200 { bytes := name }

/-- A response with status 400 and the named body. -/
def bad400 (name : String) : Response :=
  Response.http 400 { bytes := name }

/-- The collector of `TestGather`. -/
def testCollector : LibreLinkUp :=
  { PatientId := testPatientId, Version := "4.2.2", Product := "llu.ios",
    ApiUrl := "http://127.0.0.1" }

/-- The collector of `TestGather` with the credentials of an account. -/
def testAccount : LibreLinkUp :=
  { testCollector with Email := "jane@example.org", Password := "secret" }

/-- The backend that answers every request with status 400 and an empty body. -/
def always400Env : Env :=
  { newRequestError := fun _ _ => none
    roundTrip := fun _ _ => Response.http 400 {}
    unmarshalSession := testUnmarshalSession
    unmarshalConnection := testUnmarshalConnection
    unmarshalMeasurements := testUnmarshalMeasurements }

/-! ## Reachable states -/

/-- An exchange from which `login` can have stored the session `s`: a `POST`
to `/llu/auth/login` answered with a body that can be read and that
`json.Unmarshal` decodes, from the zero value and without error, to `s`. -/
def storedByLogin (env : Env) (e : Exchange) (s : Session) : Prop :=
  e.request.method = "POST" ∧ (∃ origin, e.request.url = origin ++ "/llu/auth/login") ∧
  ∃ code b, e.response = Response.http code b ∧ b.readError = none ∧
    env.unmarshalSession b.bytes zeroSession = (s, none)

/-- What a call may do to the stored session: the trace grows by `ext`, and
the session is left as it was or is one of status 0 that a login exchange of
`ext` carried. -/
def sessionStep (env : Env) (l : LibreLinkUp) (sent : Trace) (l1 : LibreLinkUp)
    (sent1 : Trace) : Prop :=
  ∃ ext, sent1 = sent ++ ext ∧
    (l1.session = l.session ∨
      (l1.session.Status = 0 ∧ ∃ x ∈ ext, storedByLogin env x l1.session))

/-- The states of a collector, with the trace of its exchanges, that are
reachable from a collector built by `LibreLinkUpInput` and configured in any
way (the stored session is not a configuration field), through calls of `Init`,
`Gather` and `login` that return, with any fuel, arguments and accumulator. -/
inductive Reachable (env : Env) : LibreLinkUp → Trace → Prop where
  | input (config : LibreLinkUp) :
      Reachable env { config with session := LibreLinkUpInput.session } []
  | init {l : LibreLinkUp} {sent : Trace} (fuel : Nat) {err : Option String}
      {l1 : LibreLinkUp} {sent1 : Trace} (before : Reachable env l sent)
      (call : Init env fuel l sent = some (err, l1, sent1)) : Reachable env l1 sent1
  | gather {l : LibreLinkUp} {sent : Trace} (fuel : Nat) (acc : Accumulator)
      {err : Option String} {l1 : LibreLinkUp} {sent1 : Trace} {acc1 : Accumulator}
      (before : Reachable env l sent)
      (call : Gather env fuel l sent acc = some (err, l1, sent1, acc1)) :
      Reachable env l1 sent1
  | login {l : LibreLinkUp} {sent : Trace} (fuel : Nat) (email password : String)
      {err : Option String} {l1 : LibreLinkUp} {sent1 : Trace} (before : Reachable env l sent)
      (call : librelinkup.login env fuel email password l sent = some (err, l1, sent1)) :
      Reachable env l1 sent1

/-! # Properties -/

/-! ## The API client: outcomes and frame -/

/-- The outcomes of `callApiWith`, one disjunct per return statement. -/
theorem callApiWith_cases {τ : Type} {env : Env}
    {relogin : LibreLinkUp → Trace → Option (Option String × LibreLinkUp × Trace)}
    {endpoint method : String} {body : Option (List (String × String))} {authenticated : Bool}
    {unmarshal : String → τ → τ × Option String} {target : τ} {l : LibreLinkUp} {sent : Trace}
    {err : Option String} {t : τ} {l1 : LibreLinkUp} {sent1 : Trace}
    (h : callApiWith env relogin endpoint method body authenticated unmarshal target l sent
      = some (err, t, l1, sent1)) :
    (∃ e, env.newRequestError method (l.ApiUrl ++ endpoint) = some e ∧
      err = some e ∧ t = target ∧ l1 = l ∧ sent1 = sent) ∨
    (env.newRequestError method (l.ApiUrl ++ endpoint) = none ∧
      ((∃ e, env.roundTrip sent (buildRequest endpoint method body authenticated l)
            = Response.failed e ∧ err = some e ∧ t = target ∧ l1 = l ∧
          sent1 = sent ++ [⟨buildRequest endpoint method body authenticated l,
            Response.failed e⟩]) ∨
       (∃ code b, env.roundTrip sent (buildRequest endpoint method body authenticated l)
            = Response.http code b ∧ code ≠ 400 ∧
          err = (decodeBody unmarshal b target).1 ∧ t = (decodeBody unmarshal b target).2 ∧
          l1 = l ∧
          sent1 = sent ++ [⟨buildRequest endpoint method body authenticated l,
            Response.http code b⟩]) ∨
       (∃ b rerr, env.roundTrip sent (buildRequest endpoint method body authenticated l)
            = Response.http 400 b ∧
          relogin l (sent ++ [⟨buildRequest endpoint method body authenticated l,
            Response.http 400 b⟩]) = some (rerr, l1, sent1) ∧
          ((∃ m, rerr = some m ∧ err = some m ∧ t = target) ∨
           (rerr = none ∧ err = (decodeBody unmarshal b target).1 ∧
             t = (decodeBody unmarshal b target).2))))) := by
  unfold callApiWith at h
  split at h
  · rename_i e he
    left
    simp only [Option.some.injEq, Prod.mk.injEq] at h
    obtain ⟨h1, h2, h3, h4⟩ := h
    exact ⟨e, he, h1.symm, h2.symm, h3.symm, h4.symm⟩
  · rename_i he
    right
    refine ⟨he, ?_⟩
    simp only at h
    split at h
    · rename_i e hr
      left
      simp only [Option.some.injEq, Prod.mk.injEq] at h
      obtain ⟨h1, h2, h3, h4⟩ := h
      exact ⟨e, hr, h1.symm, h2.symm, h3.symm, h4.symm⟩
    · rename_i code b hr
      right
      by_cases hc : code = 400
      · right
        subst hc
        simp only [if_true] at h
        split at h
        · exact absurd h (by simp)
        · rename_i m l2 s2 hl
          simp only [Option.some.injEq, Prod.mk.injEq] at h
          obtain ⟨h1, h2, h3, h4⟩ := h
          subst h3 h4
          exact ⟨b, some m, hr, hl, Or.inl ⟨m, rfl, h1.symm, h2.symm⟩⟩
        · rename_i l2 s2 hl
          simp only [Option.some.injEq, Prod.mk.injEq] at h
          obtain ⟨h1, h2, h3, h4⟩ := h
          subst h3 h4
          exact ⟨b, none, hr, hl, Or.inr ⟨rfl, h1.symm, h2.symm⟩⟩
      · left
        simp only [hc, if_false, Option.some.injEq, Prod.mk.injEq] at h
        obtain ⟨h1, h2, h3, h4⟩ := h
        exact ⟨code, b, hr, hc, h1.symm, h2.symm, h3.symm, h4.symm⟩

theorem login_succ (env : Env) (fuel : Nat) (email password : String) (l : LibreLinkUp)
    (sent : Trace) :
    login env (fuel + 1) email password l sent =
      match callApi env fuel "/llu/auth/login" "POST" (loginValues email password) false
          env.unmarshalSession zeroSession l sent with
      | none => none
      | some (some err, _, l1, sent1) => some (some err, l1, sent1)
      | some (none, session, l1, sent1) =>
        if session.Status = 0 then some (none, { l1 with session := session }, sent1)
        else some (some invalidLoginCredentials, l1, sent1) := rfl

/-- The outcomes of `login`, one disjunct per return statement. -/
theorem login_cases {env : Env} {fuel : Nat} {email password : String} {l : LibreLinkUp}
    {sent : Trace} {err : Option String} {l1 : LibreLinkUp} {sent1 : Trace}
    (h : login env fuel email password l sent = some (err, l1, sent1)) :
    ∃ n cerr session l2, fuel = n + 1 ∧
      callApi env n "/llu/auth/login" "POST" (loginValues email password) false
        env.unmarshalSession zeroSession l sent = some (cerr, session, l2, sent1) ∧
      ((∃ m, cerr = some m ∧ err = some m ∧ l1 = l2) ∨
       (cerr = none ∧ session.Status = 0 ∧ err = none ∧ l1 = { l2 with session := session }) ∨
       (cerr = none ∧ session.Status ≠ 0 ∧ err = some invalidLoginCredentials ∧ l1 = l2)) := by
  cases fuel with
  | zero => simp [login] at h
  | succ n =>
    rw [login_succ] at h
    split at h
    · exact absurd h (by simp)
    · rename_i m session l2 s2 hc
      simp only [Option.some.injEq, Prod.mk.injEq] at h
      obtain ⟨h1, h2, h3⟩ := h
      subst h2 h3
      exact ⟨n, some m, session, _, rfl, hc, Or.inl ⟨m, rfl, h1.symm, rfl⟩⟩
    · rename_i session l2 s2 hc
      by_cases hs : session.Status = 0
      · simp only [hs, if_true, Option.some.injEq, Prod.mk.injEq] at h
        obtain ⟨h1, h2, h3⟩ := h
        subst h3
        exact ⟨n, none, session, l2, rfl, hc, Or.inr (Or.inl ⟨rfl, hs, h1.symm, h2.symm⟩)⟩
      · simp only [hs, if_false, Option.some.injEq, Prod.mk.injEq] at h
        obtain ⟨h1, h2, h3⟩ := h
        subst h2 h3
        exact ⟨n, none, session, _, rfl, hc, Or.inr (Or.inr ⟨rfl, hs, h1.symm, rfl⟩)⟩

theorem sameConfig_refl (l : LibreLinkUp) : sameConfig l l := rfl

theorem sameConfig_trans {a b c : LibreLinkUp} (h1 : sameConfig a b) (h2 : sameConfig b c) :
    sameConfig a c := by
  unfold sameConfig at *
  rw [h2, h1]

theorem sameConfig_setSession {a b : LibreLinkUp} (s : Session) (h : sameConfig a b) :
    sameConfig a { b with session := s } := by
  unfold sameConfig at *
  rw [h]

/-- What `login` and `callApi` preserve: the configuration of the collector,
and the exchanges already made. -/
theorem login_frame (env : Env) (fuel : Nat) :
    ∀ (email password : String) (l : LibreLinkUp) (sent : Trace) (err : Option String)
      (l1 : LibreLinkUp) (sent1 : Trace),
      login env fuel email password l sent = some (err, l1, sent1) →
      sameConfig l l1 ∧ ∃ ext, sent1 = sent ++ ext := by
  induction fuel with
  | zero => intro _ _ _ _ _ _ _ h; simp [login] at h
  | succ n ih =>
    intro email password l sent err l1 sent1 h
    obtain ⟨n1, cerr, session, l2, hn, hc, hres⟩ := login_cases h
    have hn1 : n1 = n := by omega
    subst hn1
    have key : sameConfig l l2 ∧ ∃ ext, sent1 = sent ++ ext := by
      rcases callApiWith_cases hc with ⟨e, _, _, _, hl, hs⟩ | ⟨_, hrest⟩
      · exact ⟨hl ▸ sameConfig_refl l, ⟨[], by simp [hs]⟩⟩
      · rcases hrest with ⟨e, _, _, _, hl, hs⟩ | ⟨code, b, _, _, _, _, hl, hs⟩ |
          ⟨b, rerr, _, hre, _⟩
        · exact ⟨hl ▸ sameConfig_refl l, ⟨_, hs⟩⟩
        · exact ⟨hl ▸ sameConfig_refl l, ⟨_, hs⟩⟩
        · obtain ⟨hf, ext, hext⟩ := ih _ _ _ _ _ _ _ hre
          exact ⟨hf, ⟨[_] ++ ext, by rw [hext, List.append_assoc]⟩⟩
    rcases hres with ⟨m, _, _, hl⟩ | ⟨_, _, _, hl⟩ | ⟨_, _, _, hl⟩
    · exact ⟨hl ▸ key.1, key.2⟩
    · exact ⟨hl ▸ sameConfig_setSession session key.1, key.2⟩
    · exact ⟨hl ▸ key.1, key.2⟩

theorem callApi_frame {τ : Type} {env : Env} {fuel : Nat} {endpoint method : String}
    {body : Option (List (String × String))} {authenticated : Bool}
    {unmarshal : String → τ → τ × Option String} {target : τ} {l : LibreLinkUp} {sent : Trace}
    {err : Option String} {t : τ} {l1 : LibreLinkUp} {sent1 : Trace}
    (h : callApi env fuel endpoint method body authenticated unmarshal target l sent
      = some (err, t, l1, sent1)) :
    sameConfig l l1 ∧ ∃ ext, sent1 = sent ++ ext := by
  rcases callApiWith_cases h with ⟨e, _, _, _, hl, hs⟩ | ⟨_, hrest⟩
  · exact ⟨hl ▸ sameConfig_refl l, ⟨[], by simp [hs]⟩⟩
  · rcases hrest with ⟨e, _, _, _, hl, hs⟩ | ⟨code, b, _, _, _, _, hl, hs⟩ |
      ⟨b, rerr, _, hre, _⟩
    · exact ⟨hl ▸ sameConfig_refl l, ⟨_, hs⟩⟩
    · exact ⟨hl ▸ sameConfig_refl l, ⟨_, hs⟩⟩
    · obtain ⟨hf, ext, hext⟩ := login_frame env fuel _ _ _ _ _ _ _ hre
      exact ⟨hf, ⟨[_] ++ ext, by rw [hext, List.append_assoc]⟩⟩

theorem sameConfig_PatientId {l l1 : LibreLinkUp} (h : sameConfig l l1) :
    l1.PatientId = l.PatientId := by
  unfold sameConfig at h
  rw [h]

/-! ## Region resolver -/

theorem mapIndex_availableApiUrls_unknown (r : String) (h : r ∉ regionCodes) :
    mapIndex availableApiUrls r = "" := by
  simp only [regionCodes, List.mem_cons, List.mem_singleton, List.not_mem_nil, or_false,
    not_or] at h
  obtain ⟨h1, h2, h3, h4, h5, h6, h7, h8⟩ := h
  have e : ∀ s : String, s ≠ r → (s == r) = false := fun s hs => by simpa using hs
  simp [mapIndex, availableApiUrls, List.find?, e _ (Ne.symm h1), e _ (Ne.symm h2),
    e _ (Ne.symm h3), e _ (Ne.symm h4), e _ (Ne.symm h5), e _ (Ne.symm h6), e _ (Ne.symm h7),
    e _ (Ne.symm h8)]

theorem mapIndex_availableApiUrls_known (r : String) (h : r ∈ regionCodes) :
    "https://" ++ mapIndex availableApiUrls r = "https://api-" ++ lowerCase r ++ ".libreview.io" ∧
    "https://" ++ mapIndex availableApiUrls r ≠ "https://" := by
  simp only [regionCodes, List.mem_cons, List.mem_singleton, List.not_mem_nil, or_false] at h
  rcases h with h | h | h | h | h | h | h | h <;> subst h <;> decide

theorem mapIndex_availableApiUrls_injective (r1 r2 : String) (h1 : r1 ∈ regionCodes)
    (h2 : r2 ∈ regionCodes) (hne : r1 ≠ r2) :
    "https://" ++ mapIndex availableApiUrls r1 ≠ "https://" ++ mapIndex availableApiUrls r2 := by
  simp only [regionCodes, List.mem_cons, List.mem_singleton, List.not_mem_nil, or_false] at h1 h2
  rcases h1 with h | h | h | h | h | h | h | h <;> subst h <;>
    rcases h2 with h | h | h | h | h | h | h | h <;> subst h <;>
    first
      | exact absurd rfl hne
      | decide

/-- C8. For each of the eight region codes `getRegionalApiUrl` returns
`https://api-<code in lower case>.libreview.io`, two different codes give
different origins, and every other `Region` string gives the bare prefix
`https://`, which is the origin of none of the eight codes. -/
theorem getRegionalApiUrl_resolves (l : LibreLinkUp) :
    (l.Region ∈ regionCodes →
      getRegionalApiUrl l = "https://api-" ++ lowerCase l.Region ++ ".libreview.io" ∧
      ∀ l2 : LibreLinkUp, l2.Region ∈ regionCodes → l2.Region ≠ l.Region →
        getRegionalApiUrl l2 ≠ getRegionalApiUrl l) ∧
    (l.Region ∉ regionCodes →
      getRegionalApiUrl l = "https://" ∧
      ∀ l2 : LibreLinkUp, l2.Region ∈ regionCodes →
        getRegionalApiUrl l2 ≠ getRegionalApiUrl l) := by
  refine ⟨fun h => ⟨(mapIndex_availableApiUrls_known _ h).1, fun l2 h2 hne => ?_⟩,
    fun h => ?_⟩
  · exact mapIndex_availableApiUrls_injective _ _ h2 h hne
  · have e : getRegionalApiUrl l = "https://" := by
      unfold getRegionalApiUrl
      rw [mapIndex_availableApiUrls_unknown _ h]
      rfl
    refine ⟨e, fun l2 h2 => ?_⟩
    rw [e]
    exact (mapIndex_availableApiUrls_known _ h2).2

theorem getRegionalApiUrl_resolves_witness :
    (getRegionalApiUrl { Region := "EU" } = "https://api-eu.libreview.io" ∧
      getRegionalApiUrl { Region := "US" } ≠ getRegionalApiUrl { Region := "EU" }) ∧
    (getRegionalApiUrl { Region := "eu" } = "https://" ∧
      getRegionalApiUrl { Region := "" } = "https://" ∧
      getRegionalApiUrl { Region := "EU" } ≠ getRegionalApiUrl { Region := "eu" }) :=
  ⟨⟨((getRegionalApiUrl_resolves { Region := "EU" }).1 (by decide)).1,
    ((getRegionalApiUrl_resolves { Region := "EU" }).1 (by decide)).2 { Region := "US" }
      (by decide) (by decide)⟩,
   ((getRegionalApiUrl_resolves { Region := "eu" }).2 (by decide)).1,
   ((getRegionalApiUrl_resolves { Region := "" }).2 (by decide)).1,
   ((getRegionalApiUrl_resolves { Region := "eu" }).2 (by decide)).2 { Region := "EU" }
      (by decide)⟩

/-! ## Connection resolver -/

theorem connectionLoop_fst_aux (configured : String) (data : List PatientConnection) :
    ∀ st : String × String,
      (data.foldl
        (fun (st : String × String) c =>
          (if c.PatientID == configured then c.PatientID else st.1,
           st.2 ++ " - " ++ c.PatientID ++ ": " ++ c.FirstName ++ " " ++ c.LastName ++ "\n"))
        st).1 = if ∃ c ∈ data, c.PatientID = configured then configured else st.1 := by
  induction data with
  | nil => intro st; simp
  | cons c cs ih =>
    intro st
    rw [List.foldl_cons, ih]
    by_cases hc : c.PatientID = configured
    · simp [hc]
    · by_cases hcs : ∃ c ∈ cs, c.PatientID = configured
      · have : ∃ x ∈ c :: cs, x.PatientID = configured := by
          obtain ⟨x, hx, hxe⟩ := hcs
          exact ⟨x, List.mem_cons_of_mem _ hx, hxe⟩
        simp only [hcs, this, if_true]
      · have : ¬ ∃ x ∈ c :: cs, x.PatientID = configured := by
          rintro ⟨x, hx, hxe⟩
          rcases List.mem_cons.1 hx with rfl | hx
          · exact hc hxe
          · exact hcs ⟨x, hx, hxe⟩
        simp [hcs, this, hc]

theorem connectionLoop_fst (configured : String) (data : List PatientConnection) :
    (connectionLoop configured data).1 =
      if ∃ c ∈ data, c.PatientID = configured then configured else "" :=
  connectionLoop_fst_aux configured data ("", "")


/-- C1. With a stored session of status 0 and a connections call that returns
the list `connection.Data` without error, `getLibreLinkUpConnection` returns an
error for the empty list; the patient id of the single connection for a list of
one element, whatever the configured `PatientId`; and for a longer list an
error when `PatientId` is empty, an error when it is non-empty and no connection
carries it, and otherwise `PatientId` itself. -/
theorem getLibreLinkUpConnection_resolves (env : Env) (fuel : Nat) (l : LibreLinkUp)
    (sent : Trace) (connection : Connection) (l1 : LibreLinkUp) (sent1 : Trace)
    (hstatus : l.session.Status = 0)
    (hcall : callApi env fuel "/llu/connections" "GET" none true env.unmarshalConnection
      zeroConnection l sent = some (none, connection, l1, sent1)) :
    ∃ id err, getLibreLinkUpConnection env fuel l sent = some (id, err, l1, sent1) ∧
      (connection.Data = [] → id = "" ∧ err = some "no LibreLinkUp connection found") ∧
      (∀ c, connection.Data = [c] → id = c.PatientID ∧ err = none) ∧
      (1 < connection.Data.length → l.PatientId = "" → id = "" ∧ ∃ msg, err = some msg) ∧
      (1 < connection.Data.length → l.PatientId ≠ "" →
        (∀ c ∈ connection.Data, c.PatientID ≠ l.PatientId) →
        id = "" ∧ err = some "the specified patient-id was not found") ∧
      (1 < connection.Data.length → l.PatientId ≠ "" →
        (∃ c ∈ connection.Data, c.PatientID = l.PatientId) →
        id = l.PatientId ∧ err = none) := by
  have hp : l1.PatientId = l.PatientId := sameConfig_PatientId (callApi_frame hcall).1
  unfold getLibreLinkUpConnection
  rw [if_pos hstatus, hcall]
  simp only
  rcases hd : connection.Data with _ | ⟨c, _ | ⟨c2, cs⟩⟩
  · refine ⟨_, _, by rw [if_pos (by simp)], ?_⟩
    simp
  · refine ⟨_, _, by rw [if_neg (by simp), if_pos (by simp)], ?_⟩
    simp
  · rw [← hd, hp]
    have hlen : 1 < connection.Data.length := by rw [hd]; simp
    rw [if_neg (by omega), if_neg (by omega), if_pos (by omega)]
    by_cases he : l.PatientId = ""
    · refine ⟨_, _, by rw [if_pos he], ?_⟩
      rw [hd]
      refine ⟨by simp, by simp, fun _ _ => ⟨rfl, _, rfl⟩, fun _ h => absurd he h,
        fun _ h => absurd he h⟩
    · rw [if_neg he, connectionLoop_fst]
      by_cases hm : ∃ c ∈ connection.Data, c.PatientID = l.PatientId
      · rw [if_pos hm, if_neg he]
        refine ⟨_, _, rfl, ?_⟩
        rw [hd]
        refine ⟨by simp, by simp, fun _ h => absurd h he, fun _ _ h => ?_, fun _ _ _ => ⟨rfl, rfl⟩⟩
        obtain ⟨x, hx, hxe⟩ := hm
        rw [hd] at hx
        exact absurd hxe (h x hx)
      · rw [if_neg hm, if_pos rfl]
        refine ⟨_, _, rfl, ?_⟩
        rw [hd]
        refine ⟨by simp, by simp, fun _ h => absurd h he, fun _ _ _ => ⟨rfl, rfl⟩,
          fun _ _ h => ?_⟩
        rw [hd] at hm
        exact absurd h hm

theorem getLibreLinkUpConnection_resolves_witness :
    getLibreLinkUpConnection (scriptedEnv [ok200 "connections-2.json"]) 0 testCollector [] =
      some (testPatientId, none, testCollector,
        [⟨buildRequest "/llu/connections" "GET" none true testCollector,
          ok200 "connections-2.json"⟩]) := by
  obtain ⟨id, err, h, -, -, -, -, h5⟩ :=
    getLibreLinkUpConnection_resolves (scriptedEnv [ok200 "connections-2.json"]) 0
      testCollector []
      { Data := [testConnection "first-patient" "John", testConnection testPatientId "Jane"] }
      testCollector
      [⟨buildRequest "/llu/connections" "GET" none true testCollector,
        ok200 "connections-2.json"⟩]
      (by decide) (by rfl)
  obtain ⟨h6, h7⟩ := h5 (by decide) (by decide) ⟨testConnection testPatientId "Jane", by decide⟩
  rw [h, h6, h7]
  rfl

/-! ## Login and re-login -/

theorem callApi_of_status_ne_400 {τ : Type} (env : Env) (fuel : Nat) (endpoint method : String)
    (body : Option (List (String × String))) (authenticated : Bool)
    (unmarshal : String → τ → τ × Option String) (target : τ) (l : LibreLinkUp) (sent : Trace)
    (code : Nat) (b : Body)
    (hreq : env.newRequestError method (l.ApiUrl ++ endpoint) = none)
    (hresp : env.roundTrip sent (buildRequest endpoint method body authenticated l)
      = Response.http code b)
    (hcode : code ≠ 400) :
    callApi env fuel endpoint method body authenticated unmarshal target l sent =
      some ((decodeBody unmarshal b target).1, (decodeBody unmarshal b target).2, l,
        sent ++ [⟨buildRequest endpoint method body authenticated l, Response.http code b⟩]) := by
  unfold callApi callApiWith
  rw [hreq]
  simp only
  rw [hresp]
  simp only [hcode, if_false]

theorem callApi_of_status_400 {τ : Type} (env : Env) (fuel : Nat) (endpoint method : String)
    (body : Option (List (String × String))) (authenticated : Bool)
    (unmarshal : String → τ → τ × Option String) (target : τ) (l : LibreLinkUp) (sent : Trace)
    (b : Body)
    (hreq : env.newRequestError method (l.ApiUrl ++ endpoint) = none)
    (hresp : env.roundTrip sent (buildRequest endpoint method body authenticated l)
      = Response.http 400 b) :
    callApi env fuel endpoint method body authenticated unmarshal target l sent =
      match login env fuel l.Email l.Password l
          (sent ++ [⟨buildRequest endpoint method body authenticated l,
            Response.http 400 b⟩]) with
      | none => none
      | some (some reAuthError, l1, sent2) => some (some reAuthError, target, l1, sent2)
      | some (none, l1, sent2) =>
        some ((decodeBody unmarshal b target).1, (decodeBody unmarshal b target).2, l1, sent2) := by
  unfold callApi callApiWith
  rw [hreq]
  simp only
  rw [hresp]
  simp only [if_true]

/-- C4. When the login request is answered with a status other than 400 and a
body that decodes to the session `s`: if `s.Status` is 0, `login` returns no
error and the collector afterwards is the old one with `s` as its stored
session; otherwise `login` returns the invalid-login-credentials error and
the collector, its stored session included, is what it was. -/
theorem login_stores_session (env : Env) (fuel : Nat) (email password : String)
    (l : LibreLinkUp) (sent : Trace) (code : Nat) (b : Body) (s : Session)
    (hreq : env.newRequestError "POST" (l.ApiUrl ++ "/llu/auth/login") = none)
    (hresp : env.roundTrip sent
      (buildRequest "/llu/auth/login" "POST" (loginValues email password) false l)
      = Response.http code b)
    (hcode : code ≠ 400)
    (hread : b.readError = none)
    (hdecode : env.unmarshalSession b.bytes zeroSession = (s, none)) :
    (s.Status = 0 →
      login env (fuel + 1) email password l sent =
        some (none, { l with session := s },
          sent ++ [⟨buildRequest "/llu/auth/login" "POST" (loginValues email password) false l,
            Response.http code b⟩]) ∧
      ({ l with session := s } : LibreLinkUp).session = s) ∧
    (s.Status ≠ 0 →
      login env (fuel + 1) email password l sent =
        some (some invalidLoginCredentials, l,
          sent ++ [⟨buildRequest "/llu/auth/login" "POST" (loginValues email password) false l,
            Response.http code b⟩])) := by
  have hd : decodeBody env.unmarshalSession b zeroSession = (none, s) := by
    unfold decodeBody
    rw [hread]
    simp only [hdecode]
  have hc := callApi_of_status_ne_400 env fuel "/llu/auth/login" "POST"
    (loginValues email password) false env.unmarshalSession zeroSession l sent code b hreq hresp
    hcode
  rw [hd] at hc
  refine ⟨fun hs => ⟨?_, rfl⟩, fun hs => ?_⟩
  · rw [login_succ, hc]
    simp only [hs, if_true]
  · rw [login_succ, hc]
    simp only [hs, if_false]

theorem login_stores_session_witness :
    login (scriptedEnv [ok200 "session-2.json"]) 1 "jane@example.org" "secret"
        { testCollector with session := testSession "token-1" } [] =
      some (none, { testCollector with session := testSession "token-2" },
        [⟨buildRequest "/llu/auth/login" "POST" (loginValues "jane@example.org" "secret") false
            { testCollector with session := testSession "token-1" },
          ok200 "session-2.json"⟩]) ∧
    login (scriptedEnv [ok200 "session-denied.json"]) 1 "jane@example.org" "wrong"
        { testCollector with session := testSession "token-1" } [] =
      some (some invalidLoginCredentials, { testCollector with session := testSession "token-1" },
        [⟨buildRequest "/llu/auth/login" "POST" (loginValues "jane@example.org" "wrong") false
            { testCollector with session := testSession "token-1" },
          ok200 "session-denied.json"⟩]) :=
  ⟨((login_stores_session (scriptedEnv [ok200 "session-2.json"]) 0 "jane@example.org" "secret"
      { testCollector with session := testSession "token-1" } [] 200
      { bytes := "session-2.json" } (testSession "token-2") rfl rfl (by decide) rfl rfl).1
      rfl).1,
   (login_stores_session (scriptedEnv [ok200 "session-denied.json"]) 0 "jane@example.org" "wrong"
      { testCollector with session := testSession "token-1" } [] 200
      { bytes := "session-denied.json" } { Status := 2 } rfl rfl (by decide) rfl rfl).2
      (by decide)⟩


theorem isLoginPost_buildRequest (l : LibreLinkUp) (body : Option (List (String × String)))
    (authenticated : Bool) :
    isLoginPost l.ApiUrl (buildRequest "/llu/auth/login" "POST" body authenticated l) = true := by
  simp [isLoginPost, buildRequest]

theorem sameConfig_ApiUrl {l l1 : LibreLinkUp} (h : sameConfig l l1) : l1.ApiUrl = l.ApiUrl := by
  unfold sameConfig at h
  rw [h]

/-- Every exchange `login` adds to the trace is a login attempt. -/
theorem login_sends_login_posts (env : Env) (fuel : Nat) :
    ∀ (email password : String) (l : LibreLinkUp) (sent : Trace) (err : Option String)
      (l1 : LibreLinkUp) (sent1 : Trace),
      login env fuel email password l sent = some (err, l1, sent1) →
      ∃ ext, sent1 = sent ++ ext ∧ ∀ e ∈ ext, isLoginPost l.ApiUrl e.request = true := by
  induction fuel with
  | zero => intro _ _ _ _ _ _ _ h; simp [login] at h
  | succ n ih =>
    intro email password l sent err l1 sent1 h
    obtain ⟨n1, cerr, session, l2, hn, hc, -⟩ := login_cases h
    have hn1 : n1 = n := by omega
    subst hn1
    rcases callApiWith_cases hc with ⟨e, _, _, _, _, hs⟩ | ⟨_, hrest⟩
    · exact ⟨[], by simp [hs], by simp⟩
    · rcases hrest with ⟨e, _, _, _, _, hs⟩ | ⟨code, b, _, _, _, _, _, hs⟩ |
        ⟨b, rerr, _, hre, _⟩
      · refine ⟨_, hs, fun e he => ?_⟩
        rw [List.mem_singleton] at he
        subst he
        exact isLoginPost_buildRequest _ _ _
      · refine ⟨_, hs, fun e he => ?_⟩
        rw [List.mem_singleton] at he
        subst he
        exact isLoginPost_buildRequest _ _ _
      · obtain ⟨ext, hext, hall⟩ := ih _ _ _ _ _ _ _ hre
        refine ⟨[_] ++ ext, by rw [hext, List.append_assoc], fun e he => ?_⟩
        rcases List.mem_append.1 he with he | he
        · rw [List.mem_singleton] at he
          subst he
          exact isLoginPost_buildRequest _ _ _
        · exact hall e he

/-- What every `callApi` call does when the response to its request has
status 400: if the re-login returns an error, `callApi` returns an error with
the same message and the target as it was; if the re-login succeeds,
`callApi` returns what reading and unmarshalling the body of that 400
response into the target gives, and the trace it leaves is the one the
re-login left, in which every exchange after the original one is a login
attempt. An original request that is not itself a login attempt is therefore
not sent again; one that is a login attempt can be. -/
theorem callApi_relogin_then_decode {τ : Type} (env : Env) (fuel : Nat)
    (endpoint method : String) (body : Option (List (String × String))) (authenticated : Bool)
    (unmarshal : String → τ → τ × Option String) (target : τ) (l : LibreLinkUp) (sent : Trace)
    (b : Body)
    (hreq : env.newRequestError method (l.ApiUrl ++ endpoint) = none)
    (hresp : env.roundTrip sent (buildRequest endpoint method body authenticated l)
      = Response.http 400 b) :
    (∀ msg l1 sent1,
      login env fuel l.Email l.Password l
        (sent ++ [⟨buildRequest endpoint method body authenticated l, Response.http 400 b⟩])
        = some (some msg, l1, sent1) →
      callApi env fuel endpoint method body authenticated unmarshal target l sent
        = some (some msg, target, l1, sent1)) ∧
    (∀ l1 sent1,
      login env fuel l.Email l.Password l
        (sent ++ [⟨buildRequest endpoint method body authenticated l, Response.http 400 b⟩])
        = some (none, l1, sent1) →
      callApi env fuel endpoint method body authenticated unmarshal target l sent
        = some ((decodeBody unmarshal b target).1, (decodeBody unmarshal b target).2, l1, sent1) ∧
      ∃ ext,
        sent1 = sent ++ [⟨buildRequest endpoint method body authenticated l,
          Response.http 400 b⟩] ++ ext ∧
        (∀ e ∈ ext, isLoginPost l.ApiUrl e.request = true) ∧
        (isLoginPost l.ApiUrl (buildRequest endpoint method body authenticated l) = false →
          ∀ e ∈ ext, e.request ≠ buildRequest endpoint method body authenticated l)) := by
  have hc := callApi_of_status_400 env fuel endpoint method body authenticated unmarshal target
    l sent b hreq hresp
  refine ⟨fun msg l1 sent1 hl => ?_, fun l1 sent1 hl => ⟨?_, ?_⟩⟩
  · rw [hc, hl]
  · rw [hc, hl]
  · obtain ⟨ext, hext, hall⟩ := login_sends_login_posts env fuel _ _ _ _ _ _ _ hl
    refine ⟨ext, hext, hall, fun hnot e he heq => ?_⟩
    have := hall e he
    rw [heq, hnot] at this
    exact absurd this (by decide)

theorem callApi_relogin_then_decode_witness :
    callApi (scriptedEnv [bad400 "connections.json", ok200 "session-denied.json"]) 1
        "/llu/connections" "GET" none true testUnmarshalConnection zeroConnection
        testCollector [] =
      some (some invalidLoginCredentials, zeroConnection, testCollector,
        [⟨buildRequest "/llu/connections" "GET" none true testCollector,
            bad400 "connections.json"⟩,
         ⟨buildRequest "/llu/auth/login" "POST" (loginValues "" "") false testCollector,
            ok200 "session-denied.json"⟩]) ∧
    callApi (scriptedEnv [bad400 "connections.json", ok200 "session.json"]) 1
        "/llu/connections" "GET" none true testUnmarshalConnection zeroConnection
        testCollector [] =
      some (none, { Data := [testConnection testPatientId "Jane"] },
        { testCollector with session := testSession "token-1" },
        [⟨buildRequest "/llu/connections" "GET" none true testCollector,
            bad400 "connections.json"⟩,
         ⟨buildRequest "/llu/auth/login" "POST" (loginValues "" "") false testCollector,
            ok200 "session.json"⟩]) :=
  ⟨(callApi_relogin_then_decode
      (scriptedEnv [bad400 "connections.json", ok200 "session-denied.json"]) 1
      "/llu/connections" "GET" none true testUnmarshalConnection zeroConnection testCollector []
      { bytes := "connections.json" } rfl rfl).1 _ _ _ rfl,
   ((callApi_relogin_then_decode
      (scriptedEnv [bad400 "connections.json", ok200 "session.json"]) 1
      "/llu/connections" "GET" none true testUnmarshalConnection zeroConnection testCollector []
      { bytes := "connections.json" } rfl rfl).2 _ _ rfl).1⟩


/-- C3, at a failing input. The call is the one `login` makes:
`callApi("/llu/auth/login", "POST", ...)` with the credentials of the
collector. The backend answers it with status 400 and the request of the
re-login with status 200 and a session of status 0. The re-login succeeds,
and `callApi` returns what the body of the 400 response decodes to; but the
trace holds the original request twice: the re-login has sent it a second
time. -/
theorem callApi_login_request_sent_again :
    login (scriptedEnv [bad400 "session.json", ok200 "session-2.json"]) 1
        testAccount.Email testAccount.Password testAccount
        [⟨buildRequest "/llu/auth/login" "POST" (loginValues "jane@example.org" "secret") false
            testAccount, bad400 "session.json"⟩] =
      some (none, { testAccount with session := testSession "token-2" },
        [⟨buildRequest "/llu/auth/login" "POST" (loginValues "jane@example.org" "secret") false
            testAccount, bad400 "session.json"⟩,
         ⟨buildRequest "/llu/auth/login" "POST" (loginValues "jane@example.org" "secret") false
            testAccount, ok200 "session-2.json"⟩]) ∧
    callApi (scriptedEnv [bad400 "session.json", ok200 "session-2.json"]) 1
        "/llu/auth/login" "POST" (loginValues "jane@example.org" "secret") false
        testUnmarshalSession zeroSession testAccount [] =
      some (none, testSession "token-1", { testAccount with session := testSession "token-2" },
        [⟨buildRequest "/llu/auth/login" "POST" (loginValues "jane@example.org" "secret") false
            testAccount, bad400 "session.json"⟩,
         ⟨buildRequest "/llu/auth/login" "POST" (loginValues "jane@example.org" "secret") false
            testAccount, ok200 "session-2.json"⟩]) ∧
    (callApi (scriptedEnv [bad400 "session.json", ok200 "session-2.json"]) 1
        "/llu/auth/login" "POST" (loginValues "jane@example.org" "secret") false
        testUnmarshalSession zeroSession testAccount []).map
      (fun r => r.2.2.2.map (fun e => decide (e.request =
        buildRequest "/llu/auth/login" "POST" (loginValues "jane@example.org" "secret") false
          testAccount))) =
      some [true, true] := by
  refine ⟨by decide, by decide, by decide⟩

/-- When the re-login's own request is answered with a status other than 400,
a `callApi` whose response has status 400 makes exactly one login attempt. -/
theorem callApi_single_login_of_login_not_400 {τ : Type} (env : Env) (fuel : Nat)
    (endpoint method : String) (body : Option (List (String × String))) (authenticated : Bool)
    (unmarshal : String → τ → τ × Option String) (target : τ) (l : LibreLinkUp) (sent : Trace)
    (b b2 : Body) (code : Nat)
    (hreq : env.newRequestError method (l.ApiUrl ++ endpoint) = none)
    (hresp : env.roundTrip sent (buildRequest endpoint method body authenticated l)
      = Response.http 400 b)
    (hreq2 : env.newRequestError "POST" (l.ApiUrl ++ "/llu/auth/login") = none)
    (hresp2 : env.roundTrip
      (sent ++ [⟨buildRequest endpoint method body authenticated l, Response.http 400 b⟩])
      (buildRequest "/llu/auth/login" "POST" (loginValues l.Email l.Password) false l)
      = Response.http code b2)
    (hcode : code ≠ 400) :
    ∃ err t l1,
      callApi env (fuel + 1) endpoint method body authenticated unmarshal target l sent =
        some (err, t, l1,
          sent ++ [⟨buildRequest endpoint method body authenticated l, Response.http 400 b⟩] ++
            [⟨buildRequest "/llu/auth/login" "POST" (loginValues l.Email l.Password) false l,
              Response.http code b2⟩]) ∧
      loginAttempts l.ApiUrl
        [⟨buildRequest "/llu/auth/login" "POST" (loginValues l.Email l.Password) false l,
          Response.http code b2⟩] = 1 := by
  have hc := callApi_of_status_400 env (fuel + 1) endpoint method body authenticated unmarshal
    target l sent b hreq hresp
  have hl := callApi_of_status_ne_400 env fuel "/llu/auth/login" "POST"
    (loginValues l.Email l.Password) false env.unmarshalSession zeroSession l
    (sent ++ [⟨buildRequest endpoint method body authenticated l, Response.http 400 b⟩])
    code b2 hreq2 hresp2 hcode
  have hcount : loginAttempts l.ApiUrl
      [⟨buildRequest "/llu/auth/login" "POST" (loginValues l.Email l.Password) false l,
        Response.http code b2⟩] = 1 := by
    simp [loginAttempts, isLoginPost_buildRequest]
  rw [login_succ, hl] at hc
  rcases hd : (decodeBody env.unmarshalSession b2 zeroSession).1 with _ | m
  · rw [hd] at hc
    by_cases hs : (decodeBody env.unmarshalSession b2 zeroSession).2.Status = 0
    · simp only [hs, if_true] at hc
      exact ⟨_, _, _, hc, hcount⟩
    · simp only [hs, if_false] at hc
      exact ⟨_, _, _, hc, hcount⟩
  · rw [hd] at hc
    exact ⟨_, _, _, hc, hcount⟩

/-- Against a backend that answers every request with status 400, `login`
returns for no amount of fuel. -/
theorem login_always400_none (fuel : Nat) :
    ∀ (email password : String) (l : LibreLinkUp) (sent : Trace),
      login always400Env fuel email password l sent = none := by
  induction fuel with
  | zero => intro _ _ _ _; rfl
  | succ n ih =>
    intro email password l sent
    rw [login_succ, callApi_of_status_400 always400Env n "/llu/auth/login" "POST"
      (loginValues email password) false always400Env.unmarshalSession zeroSession l sent {}
      rfl rfl, ih]

/-- C2, at a failing input. The connections request is answered with status
400 and so is the first login request; the second login request is answered
with status 200. `callApi` returns without error after two login attempts,
not one: the `login` it calls goes through `callApi`, which on the 400 of the
login request calls `login` again. Against a backend that answers every
request with 400 the nesting has no end: no amount of fuel makes `callApi`
return. -/
theorem callApi_relogin_is_nested :
    (callApi
        (scriptedEnv [bad400 "connections.json", bad400 "session.json", ok200 "session-2.json"])
        2 "/llu/connections" "GET" none true testUnmarshalConnection zeroConnection
        testCollector []).map
      (fun r => (r.1, r.2.2.2.map (fun e => (e.request.method, e.request.url)),
        loginAttempts testCollector.ApiUrl r.2.2.2)) =
      some (none,
        [("GET", "http://127.0.0.1/llu/connections"),
         ("POST", "http://127.0.0.1/llu/auth/login"),
         ("POST", "http://127.0.0.1/llu/auth/login")], 2) ∧
    ∀ fuel : Nat,
      callApi always400Env fuel "/llu/connections" "GET" none true testUnmarshalConnection
        zeroConnection testCollector [] = none := by
  refine ⟨by decide, fun fuel => ?_⟩
  rw [callApi_of_status_400 always400Env fuel "/llu/connections" "GET" none true
    testUnmarshalConnection zeroConnection testCollector [] {} rfl rfl, login_always400_none]

/-! ## Fuel -/

/-- A result of `callApiWith` stays the same when the re-login it is given
returns in more cases. -/
theorem callApiWith_mono {τ : Type} {env : Env}
    {relogin relogin2 : LibreLinkUp → Trace → Option (Option String × LibreLinkUp × Trace)}
    (hmono : ∀ l sent r, relogin l sent = some r → relogin2 l sent = some r)
    {endpoint method : String} {body : Option (List (String × String))} {authenticated : Bool}
    {unmarshal : String → τ → τ × Option String} {target : τ} {l : LibreLinkUp} {sent : Trace}
    {r : Option String × τ × LibreLinkUp × Trace}
    (h : callApiWith env relogin endpoint method body authenticated unmarshal target l sent
      = some r) :
    callApiWith env relogin2 endpoint method body authenticated unmarshal target l sent
      = some r := by
  unfold callApiWith at h ⊢
  split
  · rename_i e he
    rw [he] at h
    exact h
  · rename_i he
    rw [he] at h
    simp only at h ⊢
    split
    · rename_i e hr
      rw [hr] at h
      exact h
    · rename_i code b hr
      rw [hr] at h
      simp only at h ⊢
      by_cases hc : code = 400
      · simp only [hc, if_true] at h ⊢
        rcases hl : relogin l (sent ++ [⟨buildRequest endpoint method body authenticated l,
          Response.http code b⟩]) with _ | x
        · rw [hc] at hl
          rw [hl] at h
          exact absurd h (by simp)
        · rw [hc] at hl
          rw [hl] at h
          rw [hmono _ _ _ hl]
          exact h
      · simp only [hc, if_false] at h ⊢
        exact h

/-- A result of `login` does not depend on the fuel left over. -/
theorem login_mono (env : Env) (fuel : Nat) :
    ∀ (email password : String) (l : LibreLinkUp) (sent : Trace)
      (r : Option String × LibreLinkUp × Trace),
      login env fuel email password l sent = some r →
      login env (fuel + 1) email password l sent = some r := by
  induction fuel with
  | zero => intro _ _ _ _ _ h; simp [login] at h
  | succ n ih =>
    intro email password l sent r h
    rw [login_succ] at h ⊢
    rcases hc : callApi env n "/llu/auth/login" "POST" (loginValues email password) false
      env.unmarshalSession zeroSession l sent with _ | x
    · rw [hc] at h
      exact absurd h (by simp)
    · have hc2 : callApi env (n + 1) "/llu/auth/login" "POST" (loginValues email password) false
          env.unmarshalSession zeroSession l sent = some x :=
        callApiWith_mono (fun l1 s1 r1 hr => ih _ _ _ _ _ hr) hc
      rw [hc] at h
      rw [hc2]
      exact h

theorem callApi_mono {τ : Type} {env : Env} {fuel : Nat} {endpoint method : String}
    {body : Option (List (String × String))} {authenticated : Bool}
    {unmarshal : String → τ → τ × Option String} {target : τ} {l : LibreLinkUp} {sent : Trace}
    {r : Option String × τ × LibreLinkUp × Trace}
    (h : callApi env fuel endpoint method body authenticated unmarshal target l sent = some r) :
    callApi env (fuel + 1) endpoint method body authenticated unmarshal target l sent
      = some r :=
  callApiWith_mono (fun _ _ _ hr => login_mono env fuel _ _ _ _ _ hr) h


theorem getLibreLinkUpConnection_mono {env : Env} {fuel : Nat} {l : LibreLinkUp} {sent : Trace}
    {r : String × Option String × LibreLinkUp × Trace}
    (h : getLibreLinkUpConnection env fuel l sent = some r) :
    getLibreLinkUpConnection env (fuel + 1) l sent = some r := by
  unfold getLibreLinkUpConnection at h ⊢
  by_cases hs : l.session.Status = 0
  · rw [if_pos hs] at h ⊢
    rcases hc : callApi env fuel "/llu/connections" "GET" none true env.unmarshalConnection
      zeroConnection l sent with _ | x
    · rw [hc] at h
      exact absurd h (by simp)
    · rw [hc] at h
      rw [callApi_mono hc]
      exact h
  · rw [if_neg hs] at h ⊢
    exact h

theorem getGlucoseMeasurements_mono {env : Env} {fuel : Nat} {l : LibreLinkUp} {sent : Trace}
    {r : Measurements × Option String × LibreLinkUp × Trace}
    (h : getGlucoseMeasurements env fuel l sent = some r) :
    getGlucoseMeasurements env (fuel + 1) l sent = some r := by
  unfold getGlucoseMeasurements at h ⊢
  by_cases hs : l.session.Status = 0
  · rw [if_pos hs] at h ⊢
    rcases hc : getLibreLinkUpConnection env fuel l sent with _ | ⟨id, _ | cerr, l1, sent1⟩
    · rw [hc] at h
      exact absurd h (by simp)
    · rw [hc] at h
      rw [getLibreLinkUpConnection_mono hc]
      simp only at h ⊢
      rcases hg : callApi env fuel ("/llu/connections/" ++ id ++ "/graph") "GET" none true
        env.unmarshalMeasurements zeroMeasurements l1 sent1 with _ | x
      · rw [hg] at h
        exact absurd h (by simp)
      · rw [hg] at h
        rw [callApi_mono hg]
        exact h
    · rw [hc] at h
      rw [getLibreLinkUpConnection_mono hc]
      exact h
  · rw [if_neg hs] at h ⊢
    exact h

/-- A result of `Gather` does not depend on the fuel left over. -/
theorem Gather_mono {env : Env} {fuel : Nat} {l : LibreLinkUp} {sent : Trace}
    {acc : Accumulator} {r : Option String × LibreLinkUp × Trace × Accumulator}
    (h : Gather env fuel l sent acc = some r) :
    Gather env (fuel + 1) l sent acc = some r := by
  unfold Gather at h ⊢
  rcases hg : getGlucoseMeasurements env fuel l sent with _ | x
  · rw [hg] at h
    exact absurd h (by simp)
  · rw [hg] at h
    rw [getGlucoseMeasurements_mono hg]
    exact h

/-- When no login request is answered with status 400, `login` returns with
one unit of fuel. -/
theorem login_returns (env : Env)
    (hlogin : ∀ sent req b, req.method = "POST" → env.roundTrip sent req ≠ Response.http 400 b)
    (fuel : Nat) (email password : String) (l : LibreLinkUp) (sent : Trace) :
    ∃ r, login env (fuel + 1) email password l sent = some r := by
  rw [login_succ]
  have hc : ∃ x, callApi env fuel "/llu/auth/login" "POST" (loginValues email password) false
      env.unmarshalSession zeroSession l sent = some x := by
    unfold callApi callApiWith
    split
    · exact ⟨_, rfl⟩
    · simp only
      split
      · exact ⟨_, rfl⟩
      · rename_i code b hr
        have hne : code ≠ 400 := by
          rintro rfl
          exact hlogin _ _ _ rfl hr
        simp only [hne, if_false]
        exact ⟨_, rfl⟩
  obtain ⟨⟨cerr, session, l1, sent1⟩, hx⟩ := hc
  rw [hx]
  rcases cerr with _ | m
  · simp only
    split_ifs
    · exact ⟨_, rfl⟩
    · exact ⟨_, rfl⟩
  · exact ⟨_, rfl⟩

/-- When no login request is answered with status 400, `callApi` returns with
one unit of fuel. -/
theorem callApi_returns {τ : Type} (env : Env)
    (hlogin : ∀ sent req b, req.method = "POST" → env.roundTrip sent req ≠ Response.http 400 b)
    (fuel : Nat) (endpoint method : String) (body : Option (List (String × String)))
    (authenticated : Bool) (unmarshal : String → τ → τ × Option String) (target : τ)
    (l : LibreLinkUp) (sent : Trace) :
    ∃ r, callApi env (fuel + 1) endpoint method body authenticated unmarshal target l sent
      = some r := by
  unfold callApi callApiWith
  split
  · exact ⟨_, rfl⟩
  · simp only
    split
    · exact ⟨_, rfl⟩
    · rename_i code b hr
      by_cases hc : code = 400
      · simp only [hc, if_true]
        obtain ⟨⟨rerr, l1, sent1⟩, hl⟩ := login_returns env hlogin fuel l.Email l.Password l
          (sent ++ [⟨buildRequest endpoint method body authenticated l, Response.http 400 b⟩])
        rw [hl]
        rcases rerr with _ | m
        · exact ⟨_, rfl⟩
        · exact ⟨_, rfl⟩
      · simp only [hc, if_false]
        exact ⟨_, rfl⟩

/-- When no login request is answered with status 400, `Gather` returns with
one unit of fuel. -/
theorem Gather_returns (env : Env)
    (hlogin : ∀ sent req b, req.method = "POST" → env.roundTrip sent req ≠ Response.http 400 b)
    (fuel : Nat) (l : LibreLinkUp) (sent : Trace) (acc : Accumulator) :
    ∃ r, Gather env (fuel + 1) l sent acc = some r := by
  have hconn : ∃ r, getLibreLinkUpConnection env (fuel + 1) l sent = some r := by
    unfold getLibreLinkUpConnection
    split_ifs with hs
    · obtain ⟨⟨cerr, c, l1, sent1⟩, hc⟩ := callApi_returns env hlogin fuel "/llu/connections"
        "GET" none true env.unmarshalConnection zeroConnection l sent
      rw [hc]
      rcases cerr with _ | m
      · simp only
        split_ifs <;> exact ⟨_, rfl⟩
      · exact ⟨_, rfl⟩
    · exact ⟨_, rfl⟩
  have hgm : ∃ r, getGlucoseMeasurements env (fuel + 1) l sent = some r := by
    unfold getGlucoseMeasurements
    split_ifs with hs
    · obtain ⟨⟨id, cerr, l1, sent1⟩, hc⟩ := hconn
      rw [hc]
      rcases cerr with _ | m
      · simp only
        obtain ⟨⟨gerr, t, l2, sent2⟩, hg⟩ := callApi_returns env hlogin fuel
          ("/llu/connections/" ++ id ++ "/graph") "GET" none true env.unmarshalMeasurements
          zeroMeasurements l1 sent1
        rw [hg]
        rcases gerr with _ | m
        · exact ⟨_, rfl⟩
        · exact ⟨_, rfl⟩
      · exact ⟨_, rfl⟩
    · exact ⟨_, rfl⟩
  obtain ⟨⟨m, err, l1, sent1⟩, hg⟩ := hgm
  unfold Gather
  rw [hg]
  rcases err with _ | e
  · exact ⟨_, rfl⟩
  · exact ⟨_, rfl⟩

/-! ## The collector -/

/-- The outcomes of `getGlucoseMeasurements`, one disjunct per return statement. -/
theorem getGlucoseMeasurements_cases {env : Env} {fuel : Nat} {l : LibreLinkUp} {sent : Trace}
    {m : Measurements} {err : Option String} {l2 : LibreLinkUp} {sent2 : Trace}
    (h : getGlucoseMeasurements env fuel l sent = some (m, err, l2, sent2)) :
    (l.session.Status ≠ 0 ∧ err ≠ none ∧ m = zeroMeasurements ∧ l2 = l ∧ sent2 = sent) ∨
    (l.session.Status = 0 ∧
      ∃ patientId cerr, getLibreLinkUpConnection env fuel l sent
        = some (patientId, some cerr, l2, sent2) ∧ err ≠ none ∧ m = zeroMeasurements) ∨
    (l.session.Status = 0 ∧
      ∃ patientId l1 sent1, getLibreLinkUpConnection env fuel l sent
        = some (patientId, none, l1, sent1) ∧
        ((∃ gerr t, callApi env fuel ("/llu/connections/" ++ patientId ++ "/graph") "GET" none
            true env.unmarshalMeasurements zeroMeasurements l1 sent1
            = some (some gerr, t, l2, sent2) ∧ err ≠ none ∧ m = zeroMeasurements) ∨
         (callApi env fuel ("/llu/connections/" ++ patientId ++ "/graph") "GET" none
            true env.unmarshalMeasurements zeroMeasurements l1 sent1
            = some (none, m, l2, sent2) ∧ err = none))) := by
  unfold getGlucoseMeasurements at h
  by_cases hs : l.session.Status = 0
  · right
    rw [if_pos hs] at h
    split at h
    · exact absurd h (by simp)
    · rename_i pid cerr l1 sent1 hc
      simp only [Option.some.injEq, Prod.mk.injEq] at h
      obtain ⟨h1, h2, h3, h4⟩ := h
      subst h3 h4
      exact Or.inl ⟨hs, pid, cerr, hc, by simp [← h2], h1.symm⟩
    · rename_i pid l1 sent1 hc
      right
      refine ⟨hs, pid, l1, sent1, hc, ?_⟩
      split at h
      · exact absurd h (by simp)
      · rename_i gerr t l3 sent3 hg
        simp only [Option.some.injEq, Prod.mk.injEq] at h
        obtain ⟨h1, h2, h3, h4⟩ := h
        subst h3 h4
        exact Or.inl ⟨gerr, t, hg, by simp [← h2], h1.symm⟩
      · rename_i t l3 sent3 hg
        simp only [Option.some.injEq, Prod.mk.injEq] at h
        obtain ⟨h1, h2, h3, h4⟩ := h
        subst h1 h3 h4
        exact Or.inr ⟨hg, h2.symm⟩
  · left
    rw [if_neg hs] at h
    simp only [Option.some.injEq, Prod.mk.injEq] at h
    obtain ⟨h1, h2, h3, h4⟩ := h
    exact ⟨hs, by simp [← h2], h1.symm, h3.symm, h4.symm⟩

/-- The outcomes of `Gather`: an error of `getGlucoseMeasurements` and an
accumulator left as it was, or no error and one record added. -/
theorem Gather_cases {env : Env} {fuel : Nat} {l : LibreLinkUp} {sent : Trace}
    {acc : Accumulator} {err : Option String} {l1 : LibreLinkUp} {sent1 : Trace}
    {acc1 : Accumulator}
    (h : Gather env fuel l sent acc = some (err, l1, sent1, acc1)) :
    (∃ m e, getGlucoseMeasurements env fuel l sent = some (m, some e, l1, sent1) ∧
      err = some e ∧ acc1 = acc) ∨
    (∃ m, getGlucoseMeasurements env fuel l sent = some (m, none, l1, sent1) ∧
      err = none ∧ acc1 = acc ++ [⟨"librelinkup", gatherFields m, gatherTags m⟩]) := by
  unfold Gather at h
  split at h
  · exact absurd h (by simp)
  · rename_i m e l2 sent2 hg
    simp only [Option.some.injEq, Prod.mk.injEq] at h
    obtain ⟨h1, h2, h3, h4⟩ := h
    subst h2 h3
    exact Or.inl ⟨m, e, hg, h1.symm, h4.symm⟩
  · rename_i m l2 sent2 hg
    simp only [Option.some.injEq, Prod.mk.injEq] at h
    obtain ⟨h1, h2, h3, h4⟩ := h
    subst h2 h3
    exact Or.inr ⟨m, hg, h1.symm, h4.symm⟩

/-- A `Gather` call that returns no error: the connection was resolved, the
graph call decoded the measurements `m`, and one record built from `m` was
added. -/
theorem Gather_success {env : Env} {fuel : Nat} {l : LibreLinkUp} {sent : Trace}
    {acc : Accumulator} {l1 : LibreLinkUp} {sent1 : Trace} {acc1 : Accumulator}
    (h : Gather env fuel l sent acc = some (none, l1, sent1, acc1)) :
    ∃ patientId l0 sent0 m,
      getLibreLinkUpConnection env fuel l sent = some (patientId, none, l0, sent0) ∧
      callApi env fuel ("/llu/connections/" ++ patientId ++ "/graph") "GET" none true
        env.unmarshalMeasurements zeroMeasurements l0 sent0 = some (none, m, l1, sent1) ∧
      acc1 = acc ++ [⟨"librelinkup", gatherFields m, gatherTags m⟩] := by
  rcases Gather_cases h with ⟨m, e, _, he, _⟩ | ⟨m, hg, _, hacc⟩
  · exact absurd he (by simp)
  · rcases getGlucoseMeasurements_cases hg with ⟨_, hne, _⟩ | ⟨_, _, _, _, hne, _⟩ |
      ⟨_, id, l0, sent0, hc, hrest⟩
    · exact absurd rfl hne
    · exact absurd rfl hne
    · rcases hrest with ⟨_, _, _, hne, _⟩ | ⟨hcall, _⟩
      · exact absurd rfl hne
      · exact ⟨id, l0, sent0, m, hc, hcall, hacc⟩

/-- C5. A `Gather` call that returns an error leaves the accumulator as it
was. One that returns no error adds exactly one record, named `librelinkup`,
with the tag keys `patient_id` and `sensor_sn` and the field keys `mg_dl`,
`mmol_l` and `timestamp`, where `mg_dl` is the integer `ValueInMgPerDl` of the
measurements `m` that the graph call decoded. -/
theorem Gather_emits_one_record_or_none (env : Env) (fuel : Nat) (l : LibreLinkUp)
    (sent : Trace) (acc : Accumulator) (err : Option String) (l1 : LibreLinkUp) (sent1 : Trace)
    (acc1 : Accumulator)
    (h : Gather env fuel l sent acc = some (err, l1, sent1, acc1)) :
    (err ≠ none → acc1 = acc) ∧
    (err = none →
      ∃ patientId l0 sent0 m record,
        getLibreLinkUpConnection env fuel l sent = some (patientId, none, l0, sent0) ∧
        callApi env fuel ("/llu/connections/" ++ patientId ++ "/graph") "GET" none true
          env.unmarshalMeasurements zeroMeasurements l0 sent0 = some (none, m, l1, sent1) ∧
        acc1 = acc ++ [record] ∧
        record.name = "librelinkup" ∧
        record.tags.map Prod.fst = ["patient_id", "sensor_sn"] ∧
        record.fields.map Prod.fst = ["mg_dl", "mmol_l", "timestamp"] ∧
        record.fields.lookup "mg_dl" =
          some (FieldValue.int m.Data.Connection.GlucoseMeasurement.ValueInMgPerDl)) := by
  refine ⟨fun hne => ?_, fun he => ?_⟩
  · rcases Gather_cases h with ⟨_, _, _, _, hacc⟩ | ⟨_, _, he, _⟩
    · exact hacc
    · exact absurd he hne
  · subst he
    obtain ⟨patientId, l0, sent0, m, hc, hg, hacc⟩ := Gather_success h
    exact ⟨patientId, l0, sent0, m, _, hc, hg, hacc, rfl, rfl, rfl, rfl⟩


theorem Gather_emits_one_record_or_none_witness :
    (∃ patientId l0 sent0 m record,
      getLibreLinkUpConnection
          (scriptedEnv [ok200 "connections.json", ok200 "measurements.json"]) 0
          testCollector [] = some (patientId, none, l0, sent0) ∧
      callApi (scriptedEnv [ok200 "connections.json", ok200 "measurements.json"]) 0
          ("/llu/connections/" ++ patientId ++ "/graph") "GET" none true
          testUnmarshalMeasurements zeroMeasurements l0 sent0 =
        some (none, m, testCollector,
          [⟨buildRequest "/llu/connections" "GET" none true testCollector,
              ok200 "connections.json"⟩,
           ⟨buildRequest ("/llu/connections/" ++ testPatientId ++ "/graph") "GET" none true
              testCollector, ok200 "measurements.json"⟩]) ∧
      [(⟨"librelinkup",
          [("mg_dl", FieldValue.int 222),
           ("mmol_l", FieldValue.float32 (float32OfConst 12321 1000)),
           ("timestamp", FieldValue.string "2022-08-29 05:45:13 +0000 UTC")],
          [("patient_id", testPatientId), ("sensor_sn", "123ABCD456")]⟩ : Metric)] =
        [] ++ [record] ∧
      record.name = "librelinkup" ∧
      record.tags.map Prod.fst = ["patient_id", "sensor_sn"] ∧
      record.fields.map Prod.fst = ["mg_dl", "mmol_l", "timestamp"] ∧
      record.fields.lookup "mg_dl" =
        some (FieldValue.int m.Data.Connection.GlucoseMeasurement.ValueInMgPerDl)) ∧
    ([] : Accumulator) = [] :=
  ⟨(Gather_emits_one_record_or_none
      (scriptedEnv [ok200 "connections.json", ok200 "measurements.json"]) 0 testCollector [] []
      none testCollector
      [⟨buildRequest "/llu/connections" "GET" none true testCollector,
          ok200 "connections.json"⟩,
       ⟨buildRequest ("/llu/connections/" ++ testPatientId ++ "/graph") "GET" none true
          testCollector, ok200 "measurements.json"⟩]
      [⟨"librelinkup",
        [("mg_dl", FieldValue.int 222),
         ("mmol_l", FieldValue.float32 (float32OfConst 12321 1000)),
         ("timestamp", FieldValue.string "2022-08-29 05:45:13 +0000 UTC")],
        [("patient_id", testPatientId), ("sensor_sn", "123ABCD456")]⟩]
      (by decide)).2 rfl,
   (Gather_emits_one_record_or_none (scriptedEnv [ok200 "connections-0.json"]) 0
      testCollector [] []
      (some "error getting connections: no LibreLinkUp connection found") testCollector
      [⟨buildRequest "/llu/connections" "GET" none true testCollector,
        ok200 "connections-0.json"⟩] [] (by decide)).1 (by simp)⟩

/-- The collector and the trace `getLibreLinkUpConnection` returns are the ones
it received or the ones its connections call returned. -/
theorem getLibreLinkUpConnection_state {env : Env} {fuel : Nat} {l : LibreLinkUp}
    {sent : Trace} {id : String} {err : Option String} {l1 : LibreLinkUp} {sent1 : Trace}
    (h : getLibreLinkUpConnection env fuel l sent = some (id, err, l1, sent1)) :
    (l1 = l ∧ sent1 = sent) ∨
    ∃ cerr connection, callApi env fuel "/llu/connections" "GET" none true
      env.unmarshalConnection zeroConnection l sent = some (cerr, connection, l1, sent1) := by
  unfold getLibreLinkUpConnection at h
  by_cases hs : l.session.Status = 0
  · right
    rw [if_pos hs] at h
    split at h
    · exact absurd h (by simp)
    · rename_i cerr t l2 sent2 hc
      simp only [Option.some.injEq, Prod.mk.injEq] at h
      obtain ⟨-, -, h3, h4⟩ := h
      subst h3 h4
      exact ⟨_, _, hc⟩
    · rename_i connection l2 sent2 hc
      have : l2 = l1 ∧ sent2 = sent1 := by
        split_ifs at h
        all_goals
          first
            | (simp only [Option.some.injEq, Prod.mk.injEq] at h
               exact ⟨h.2.2.1, h.2.2.2⟩)
            | (by_cases hq : (connectionLoop l2.PatientId connection.Data).1 = ""
               · rw [if_pos hq] at h
                 simp only [Option.some.injEq, Prod.mk.injEq] at h
                 exact ⟨h.2.2.1, h.2.2.2⟩
               · rw [if_neg hq] at h
                 simp only [Option.some.injEq, Prod.mk.injEq] at h
                 exact ⟨h.2.2.1, h.2.2.2⟩)
      obtain ⟨h3, h4⟩ := this
      subst h3 h4
      exact ⟨_, _, hc⟩
  · left
    rw [if_neg hs] at h
    simp only [Option.some.injEq, Prod.mk.injEq] at h
    exact ⟨h.2.2.1.symm, h.2.2.2.symm⟩

/-- A `callApi` none of whose exchanges is answered with status 400 leaves the
collector as it was. -/
theorem callApi_eq_of_no_400 {τ : Type} {env : Env} {fuel : Nat} {endpoint method : String}
    {body : Option (List (String × String))} {authenticated : Bool}
    {unmarshal : String → τ → τ × Option String} {target : τ} {l : LibreLinkUp} {sent : Trace}
    {err : Option String} {t : τ} {l1 : LibreLinkUp} {sent1 : Trace}
    (h : callApi env fuel endpoint method body authenticated unmarshal target l sent
      = some (err, t, l1, sent1))
    (hno : ∀ e ∈ sent1.drop sent.length, answered400 e = false) :
    l1 = l := by
  rcases callApiWith_cases h with ⟨e, _, _, _, hl, _⟩ | ⟨_, hrest⟩
  · exact hl
  · rcases hrest with ⟨e, _, _, _, hl, _⟩ | ⟨code, b, _, _, _, _, hl, _⟩ | ⟨b, rerr, _, hre, _⟩
    · exact hl
    · exact hl
    · obtain ⟨-, ext, hext⟩ := login_frame env fuel _ _ _ _ _ _ _ hre
      have hmem : (⟨buildRequest endpoint method body authenticated l, Response.http 400 b⟩ :
          Exchange) ∈ sent1.drop sent.length := by
        rw [hext, List.append_assoc, List.drop_left]
        simp
      have := hno _ hmem
      simp [answered400] at this

/-- C6, amended. A `Gather` call none of whose exchanges is answered with
status 400, whether it returns an error or not, leaves the collector, and so
the stored session, as it was. -/
theorem Gather_session_unchanged_of_no_400 (env : Env) (fuel : Nat) (l : LibreLinkUp)
    (sent : Trace) (acc : Accumulator) (err : Option String) (l1 : LibreLinkUp) (sent1 : Trace)
    (acc1 : Accumulator)
    (h : Gather env fuel l sent acc = some (err, l1, sent1, acc1))
    (hno : ∀ e ∈ sent1.drop sent.length, answered400 e = false) :
    l1.session = l.session := by
  suffices hl : l1 = l by rw [hl]
  have conn : ∀ {id cerr l0 sent0}, getLibreLinkUpConnection env fuel l sent
      = some (id, cerr, l0, sent0) → (∀ e ∈ sent0.drop sent.length, answered400 e = false) →
      l0 = l := by
    intro id cerr l0 sent0 hc hno0
    rcases getLibreLinkUpConnection_state hc with ⟨hl, _⟩ | ⟨_, _, hcall⟩
    · exact hl
    · exact callApi_eq_of_no_400 hcall hno0
  have graph : ∀ {id cerr l0 sent0 gerr t}, getLibreLinkUpConnection env fuel l sent
      = some (id, cerr, l0, sent0) →
      callApi env fuel ("/llu/connections/" ++ id ++ "/graph") "GET" none true
        env.unmarshalMeasurements zeroMeasurements l0 sent0 = some (gerr, t, l1, sent1) →
      l1 = l := by
    intro id cerr l0 sent0 gerr t hc hg
    have hpre : ∃ ext0, sent0 = sent ++ ext0 := by
      rcases getLibreLinkUpConnection_state hc with ⟨_, hs⟩ | ⟨_, _, hcall⟩
      · exact ⟨[], by simp [hs]⟩
      · exact (callApi_frame hcall).2
    obtain ⟨ext0, hext0⟩ := hpre
    obtain ⟨ext1, hext1⟩ := (callApi_frame hg).2
    have hdrop : sent1.drop sent.length = ext0 ++ ext1 := by
      rw [hext1, hext0, List.append_assoc, List.drop_left]
    have h0 : l0 = l := conn hc (fun e he => hno e (by
      rw [hdrop]
      rw [hext0, List.drop_left] at he
      exact List.mem_append_left _ he))
    have h1 : l1 = l0 := callApi_eq_of_no_400 hg (fun e he => hno e (by
      rw [hdrop]
      rw [hext1, List.drop_left] at he
      exact List.mem_append_right _ he))
    rw [h1, h0]
  have hgm : ∃ m e, getGlucoseMeasurements env fuel l sent = some (m, e, l1, sent1) := by
    rcases Gather_cases h with ⟨m, e, hg, _, _⟩ | ⟨m, hg, _, _⟩
    · exact ⟨m, _, hg⟩
    · exact ⟨m, _, hg⟩
  obtain ⟨m, e, hg⟩ := hgm
  rcases getGlucoseMeasurements_cases hg with ⟨_, _, _, hl, _⟩ | ⟨_, id, cerr, hc, _, _⟩ |
    ⟨_, id, l0, sent0, hc, hrest⟩
  · exact hl
  · exact conn hc hno
  · rcases hrest with ⟨gerr, t, hcall, _, _⟩ | ⟨hcall, _⟩
    · exact graph hc hcall
    · exact graph hc hcall


theorem Gather_session_unchanged_of_no_400_witness :
    Gather (scriptedEnv [ok200 "connections-0.json"]) 0
        { testCollector with session := testSession "token-1" } [] [] =
      some (some "error getting connections: no LibreLinkUp connection found",
        { testCollector with session := testSession "token-1" },
        [⟨buildRequest "/llu/connections" "GET" none true
            { testCollector with session := testSession "token-1" },
          ok200 "connections-0.json"⟩], []) ∧
    ({ testCollector with session := testSession "token-1" } : LibreLinkUp).session =
      testSession "token-1" :=
  ⟨by decide,
   Gather_session_unchanged_of_no_400 (scriptedEnv [ok200 "connections-0.json"]) 0
     { testCollector with session := testSession "token-1" } [] []
     (some "error getting connections: no LibreLinkUp connection found")
     { testCollector with session := testSession "token-1" }
     [⟨buildRequest "/llu/connections" "GET" none true
         { testCollector with session := testSession "token-1" },
       ok200 "connections-0.json"⟩] [] (by decide) (by decide)⟩

/-- C6, as stated, fails. The connections request is answered with status 400
and a body that decodes to an empty list, and the re-login succeeds: `Gather`
returns an error, and the stored session is the one the re-login decoded,
not the one stored before the call. -/
theorem Gather_error_after_relogin_changes_session :
    Gather (scriptedEnv [bad400 "connections-0.json", ok200 "session-2.json"]) 1
        { testCollector with session := testSession "token-1" } [] [] =
      some (some "error getting connections: no LibreLinkUp connection found",
        { testCollector with session := testSession "token-2" },
        [⟨buildRequest "/llu/connections" "GET" none true
            { testCollector with session := testSession "token-1" },
          bad400 "connections-0.json"⟩,
         ⟨buildRequest "/llu/auth/login" "POST" (loginValues "" "") false
            { testCollector with session := testSession "token-1" },
          ok200 "session-2.json"⟩], []) ∧
    ({ testCollector with session := testSession "token-2" } : LibreLinkUp).session ≠
      ({ testCollector with session := testSession "token-1" } : LibreLinkUp).session := by
  decide

/-- C7, amended. After a `Gather` call that returns no error, the `patient_id`
tag of the record is the `PatientID` of the connection in the measurements
that the graph call decoded, the graph call being the one to
`/llu/connections/{patientId}/graph` for the `patientId` that
`getLibreLinkUpConnection` returned. -/
theorem Gather_patient_id_tag_from_payload (env : Env) (fuel : Nat) (l : LibreLinkUp)
    (sent : Trace) (acc : Accumulator) (l1 : LibreLinkUp) (sent1 : Trace) (acc1 : Accumulator)
    (h : Gather env fuel l sent acc = some (none, l1, sent1, acc1)) :
    ∃ patientId l0 sent0 m record,
      getLibreLinkUpConnection env fuel l sent = some (patientId, none, l0, sent0) ∧
      callApi env fuel ("/llu/connections/" ++ patientId ++ "/graph") "GET" none true
        env.unmarshalMeasurements zeroMeasurements l0 sent0 = some (none, m, l1, sent1) ∧
      acc1 = acc ++ [record] ∧
      record.tags.lookup "patient_id" = some m.Data.Connection.PatientID := by
  obtain ⟨patientId, l0, sent0, m, hc, hg, hacc⟩ := Gather_success h
  exact ⟨patientId, l0, sent0, m, _, hc, hg, hacc, rfl⟩

theorem Gather_patient_id_tag_from_payload_witness :
    ∃ patientId l0 sent0 m record,
      getLibreLinkUpConnection
          (scriptedEnv [ok200 "connections-2.json", ok200 "measurements.json"]) 0
          testCollector [] = some (patientId, none, l0, sent0) ∧
      callApi (scriptedEnv [ok200 "connections-2.json", ok200 "measurements.json"]) 0
          ("/llu/connections/" ++ patientId ++ "/graph") "GET" none true
          testUnmarshalMeasurements zeroMeasurements l0 sent0 =
        some (none, m, testCollector,
          [⟨buildRequest "/llu/connections" "GET" none true testCollector,
              ok200 "connections-2.json"⟩,
           ⟨buildRequest ("/llu/connections/" ++ testPatientId ++ "/graph") "GET" none true
              testCollector, ok200 "measurements.json"⟩]) ∧
      [(⟨"librelinkup",
          gatherFields { Data := { Connection := testConnection testPatientId "Jane" } },
          gatherTags { Data := { Connection := testConnection testPatientId "Jane" } }⟩ :
          Metric)] = [] ++ [record] ∧
      record.tags.lookup "patient_id" = some m.Data.Connection.PatientID :=
  Gather_patient_id_tag_from_payload
    (scriptedEnv [ok200 "connections-2.json", ok200 "measurements.json"]) 0 testCollector [] []
    testCollector
    [⟨buildRequest "/llu/connections" "GET" none true testCollector,
        ok200 "connections-2.json"⟩,
     ⟨buildRequest ("/llu/connections/" ++ testPatientId ++ "/graph") "GET" none true
        testCollector, ok200 "measurements.json"⟩]
    [⟨"librelinkup",
      gatherFields { Data := { Connection := testConnection testPatientId "Jane" } },
      gatherTags { Data := { Connection := testConnection testPatientId "Jane" } }⟩]
    (by decide)

/-- C7, as stated, fails. The only connection has the patient id of the
scenario, which is the id in the path of the graph request, and the body of
the graph response carries the patient id `other-patient`: `Gather` returns no
error and the `patient_id` tag of the record is `other-patient`. -/
theorem Gather_patient_id_tag_not_resolved_id :
    getLibreLinkUpConnection
        (scriptedEnv [ok200 "connections.json", ok200 "measurements-other.json"]) 0
        testCollector [] =
      some (testPatientId, none, testCollector,
        [⟨buildRequest "/llu/connections" "GET" none true testCollector,
          ok200 "connections.json"⟩]) ∧
    (Gather (scriptedEnv [ok200 "connections.json", ok200 "measurements-other.json"]) 0
        testCollector [] []).map
      (fun r => (r.1, r.2.2.1.map (fun e => e.request.url),
        r.2.2.2.map (fun record => record.tags.lookup "patient_id"))) =
      some (none,
        ["http://127.0.0.1/llu/connections",
         "http://127.0.0.1/llu/connections/639dac0c-7065-4488-a782-ef81905213f3/graph"],
        [some "other-patient"]) ∧
    "other-patient" ≠ testPatientId := by
  decide

/-! ## The calendar -/

theorem daysBefore_getD (k : Int) (h0 : 0 ≤ k) (h12 : k ≤ 12) :
    daysBefore.getD k.toNat 0 =
      if k = 0 then 0 else if k = 1 then 31 else if k = 2 then 59 else if k = 3 then 90
      else if k = 4 then 120 else if k = 5 then 151 else if k = 6 then 181
      else if k = 7 then 212 else if k = 8 then 243 else if k = 9 then 273
      else if k = 10 then 304 else if k = 11 then 334 else 365 := by
  interval_cases k <;> rfl

/-- The month estimate of `monthAndDay`, adjusted, is the month whose days
include `day`. -/
theorem monthIndex_spec (day month : Int) (h0 : 0 ≤ day) (h1 : day ≤ 364)
    (hmonth : month =
      if day ≥ daysBefore.getD (day / 31 + 1).toNat 0 then day / 31 + 1 else day / 31) :
    0 ≤ month ∧ month ≤ 11 ∧ daysBefore.getD month.toNat 0 ≤ day ∧
      day < daysBefore.getD (month + 1).toNat 0 := by
  generalize hm : day / 31 = m at hmonth
  have hm0 : 0 ≤ m := by omega
  have hm11 : m ≤ 11 := by omega
  have g0 := daysBefore_getD m hm0 (by omega)
  have g1 := daysBefore_getD (m + 1) (by omega) (by omega)
  have g2 : m ≤ 10 → daysBefore.getD (m + 1 + 1).toNat 0 =
      if m + 1 + 1 = 0 then 0 else if m + 1 + 1 = 1 then 31 else if m + 1 + 1 = 2 then 59
      else if m + 1 + 1 = 3 then 90
      else if m + 1 + 1 = 4 then 120 else if m + 1 + 1 = 5 then 151
      else if m + 1 + 1 = 6 then 181
      else if m + 1 + 1 = 7 then 212 else if m + 1 + 1 = 8 then 243
      else if m + 1 + 1 = 9 then 273
      else if m + 1 + 1 = 10 then 304 else if m + 1 + 1 = 11 then 334 else 365 :=
    fun h => daysBefore_getD (m + 1 + 1) (by omega) (by omega)
  by_cases hge : day ≥ daysBefore.getD (m + 1).toNat 0
  · rw [if_pos hge] at hmonth
    subst hmonth
    have hm10 : m ≤ 10 := by
      rw [g1] at hge
      by_contra hc
      have : m = 11 := by omega
      subst this
      norm_num at hge
      omega
    rw [g2 hm10]
    refine ⟨by omega, by omega, hge, ?_⟩
    rw [g1] at hge
    interval_cases m <;> norm_num at hge ⊢ <;> omega
  · rw [if_neg hge] at hmonth
    rw [hmonth]
    refine ⟨hm0, hm11, ?_, by omega⟩
    rw [g0]
    interval_cases m <;> norm_num <;> omega


theorem daysBeforeMonth_table (year : Int) :
    daysBeforeMonth year 1 = 0 ∧ daysBeforeMonth year 2 = 31 ∧
    daysBeforeMonth year 3 = 59 + leapDays year ∧ daysBeforeMonth year 4 = 90 + leapDays year ∧
    daysBeforeMonth year 5 = 120 + leapDays year ∧
    daysBeforeMonth year 6 = 151 + leapDays year ∧
    daysBeforeMonth year 7 = 181 + leapDays year ∧
    daysBeforeMonth year 8 = 212 + leapDays year ∧
    daysBeforeMonth year 9 = 243 + leapDays year ∧
    daysBeforeMonth year 10 = 273 + leapDays year ∧
    daysBeforeMonth year 11 = 304 + leapDays year ∧
    daysBeforeMonth year 12 = 334 + leapDays year := by
  have r : ∀ n : Nat, ((n + 1 : Nat) : Int).toNat - 1 = n := fun n => by simp
  have e : ∀ n : Nat, daysBeforeMonth year ((n + 1 : Nat) : Int) =
      ((List.range n).map (fun k => daysInMonth year ((k : Int) + 1))).sum := fun n => by
    unfold daysBeforeMonth
    rw [r]
  have e1 := e 0; have e2 := e 1; have e3 := e 2; have e4 := e 3; have e5 := e 4
  have e6 := e 5; have e7 := e 6; have e8 := e 7; have e9 := e 8; have e10 := e 9
  have e11 := e 10; have e12 := e 11
  simp only [Nat.cast_ofNat, Nat.cast_add, Nat.cast_one, Nat.cast_zero] at e1 e2 e3 e4 e5 e6 e7 e8 e9 e10 e11 e12
  norm_num at e1 e2 e3 e4 e5 e6 e7 e8 e9 e10 e11 e12
  rw [e1, e2, e3, e4, e5, e6, e7, e8, e9, e10, e11, e12]
  simp only [List.range_succ, List.range_zero, List.nil_append, List.map_append, List.map_cons,
    List.map_nil, List.sum_append, List.sum_cons, List.sum_nil, daysInMonth, leapDays]
  by_cases hl : isLeap year = true <;> simp [hl]

theorem daysInMonth_table (year : Int) :
    daysInMonth year 1 = 31 ∧ daysInMonth year 2 = 28 + leapDays year ∧
    daysInMonth year 3 = 31 ∧ daysInMonth year 4 = 30 ∧ daysInMonth year 5 = 31 ∧
    daysInMonth year 6 = 30 ∧ daysInMonth year 7 = 31 ∧ daysInMonth year 8 = 31 ∧
    daysInMonth year 9 = 30 ∧ daysInMonth year 10 = 31 ∧ daysInMonth year 11 = 30 ∧
    daysInMonth year 12 = 31 := by
  simp only [daysInMonth, leapDays]
  by_cases hl : isLeap year = true <;> simp [hl]

theorem daysBeforeMonth_eq (year month : Int) (h1 : 1 ≤ month) (h12 : month ≤ 12) :
    daysBeforeMonth year month =
      if month = 1 then 0 else if month = 2 then 31
      else (if month = 3 then 59 else if month = 4 then 90 else if month = 5 then 120
        else if month = 6 then 151 else if month = 7 then 181 else if month = 8 then 212
        else if month = 9 then 243 else if month = 10 then 273 else if month = 11 then 304
        else 334) + leapDays year := by
  obtain ⟨t1, t2, t3, t4, t5, t6, t7, t8, t9, t10, t11, t12⟩ := daysBeforeMonth_table year
  interval_cases month
  · rw [t1]; rfl
  · rw [t2]; rfl
  · rw [t3]; rfl
  · rw [t4]; rfl
  · rw [t5]; rfl
  · rw [t6]; rfl
  · rw [t7]; rfl
  · rw [t8]; rfl
  · rw [t9]; rfl
  · rw [t10]; rfl
  · rw [t11]; rfl
  · rw [t12]; rfl

theorem daysInMonth_eq (year month : Int) (h1 : 1 ≤ month) (h12 : month ≤ 12) :
    daysInMonth year month =
      if month = 2 then 28 + leapDays year
      else if month = 4 then 30 else if month = 6 then 30 else if month = 9 then 30
      else if month = 11 then 30 else 31 := by
  obtain ⟨u1, u2, u3, u4, u5, u6, u7, u8, u9, u10, u11, u12⟩ := daysInMonth_table year
  interval_cases month
  · rw [u1]; rfl
  · rw [u2]; rfl
  · rw [u3]; rfl
  · rw [u4]; rfl
  · rw [u5]; rfl
  · rw [u6]; rfl
  · rw [u7]; rfl
  · rw [u8]; rfl
  · rw [u9]; rfl
  · rw [u10]; rfl
  · rw [u11]; rfl
  · rw [u12]; rfl

/-- The month and the day that `monthAndDay` gives are a date of `year`, the
one that lies `yday` days after the first of January. -/
theorem monthAndDay_spec (year yday : Int) (h0 : 0 ≤ yday)
    (h1 : yday ≤ 364 + leapDays year) :
    1 ≤ (monthAndDay year yday).1 ∧ (monthAndDay year yday).1 ≤ 12 ∧
    1 ≤ (monthAndDay year yday).2 ∧
    (monthAndDay year yday).2 ≤ daysInMonth year (monthAndDay year yday).1 ∧
    daysBeforeMonth year (monthAndDay year yday).1 + ((monthAndDay year yday).2 - 1) = yday := by
  have hL : leapDays year = 0 ∨ (leapDays year = 1 ∧ isLeap year = true) := by
    unfold leapDays
    by_cases hl : isLeap year = true <;> simp [hl]
  by_cases hfeb : (isLeap year && decide (yday = 31 + 29 - 1)) = true
  · have e : monthAndDay year yday = (2, 29) := by
      unfold monthAndDay
      rw [if_pos hfeb]
    have hl : isLeap year = true ∧ yday = 59 := by
      simp only [Bool.and_eq_true, decide_eq_true_eq] at hfeb
      exact ⟨hfeb.1, by omega⟩
    have hL1 : leapDays year = 1 := by simp [leapDays, hl.1]
    rw [e]
    simp only
    rw [daysBeforeMonth_eq year 2 (by omega) (by omega),
      daysInMonth_eq year 2 (by omega) (by omega), hL1]
    norm_num
    omega
  · generalize hday : (if (isLeap year && decide (yday > 31 + 29 - 1)) = true then yday - 1
      else yday) = day
    generalize hmonth : (if day ≥ daysBefore.getD (day / 31 + 1).toNat 0 then day / 31 + 1
      else day / 31) = month
    have e : monthAndDay year yday = (month + 1, day - daysBefore.getD month.toNat 0 + 1) := by
      unfold monthAndDay
      rw [if_neg hfeb]
      simp only [hday, hmonth]
    have hrel : (leapDays year = 0 ∧ day = yday) ∨
        (leapDays year = 1 ∧ yday < 59 ∧ day = yday) ∨
        (leapDays year = 1 ∧ 59 < yday ∧ day = yday - 1) := by
      rcases hL with hL | ⟨hL, hl⟩
      · left
        refine ⟨hL, ?_⟩
        have hl : isLeap year = false := by
          unfold leapDays at hL
          by_cases hl : isLeap year = true
          · simp [hl] at hL
          · simpa using hl
        rw [← hday]
        simp [hl]
      · right
        have h59 : yday ≠ 59 := by
          intro h
          apply hfeb
          simp [hl, h]
        by_cases hgt : yday > 59
        · right
          refine ⟨hL, hgt, ?_⟩
          rw [← hday, if_pos]
          simp only [Bool.and_eq_true, decide_eq_true_eq]
          exact ⟨hl, by omega⟩
        · left
          refine ⟨hL, by omega, ?_⟩
          rw [← hday, if_neg]
          simp only [Bool.and_eq_true, decide_eq_true_eq, not_and]
          intro _
          omega
    have hd0 : 0 ≤ day := by omega
    have hd1 : day ≤ 364 := by omega
    obtain ⟨hm0, hm11, hlo, hhi⟩ := monthIndex_spec day month hd0 hd1 hmonth.symm
    rw [e]
    simp only
    rw [daysBeforeMonth_eq year (month + 1) (by omega) (by omega),
      daysInMonth_eq year (month + 1) (by omega) (by omega)]
    rw [daysBefore_getD month hm0 (by omega)] at hlo ⊢
    rw [daysBefore_getD (month + 1) (by omega) (by omega)] at hhi
    interval_cases month <;> norm_num at hlo hhi ⊢ <;> omega

theorem isLeap_iff (year : Int) :
    isLeap year = true ↔ year % 4 = 0 ∧ (year % 100 ≠ 0 ∨ year % 400 = 0) := by
  simp [isLeap]

/-- The arithmetic of the cycles of 400, 100, 4 and 1 years. -/
theorem yearAndDay_core (days n400 q100 n4 q1 : Int)
    (h400 : n400 = days / 146097)
    (h100 : q100 = (days - 146097 * n400) / 36524)
    (h4 : n4 = (days - 146097 * n400 - 36524 * (q100 - q100 / 4)) / 1461)
    (h1 : q1 = (days - 146097 * n400 - 36524 * (q100 - q100 / 4) - 1461 * n4) / 365) :
    let year := 400 * n400 + 100 * (q100 - q100 / 4) + 4 * n4 + (q1 - q1 / 4) + 1
    let yday := days - 146097 * n400 - 36524 * (q100 - q100 / 4) - 1461 * n4
      - 365 * (q1 - q1 / 4)
    daysBeforeYear year + yday = days ∧ 0 ≤ yday ∧
      (yday ≤ 364 ∨
        (yday = 365 ∧ year % 4 = 0 ∧ (year % 100 ≠ 0 ∨ year % 400 = 0))) := by
  intro year yday
  have b1 : 0 ≤ days - 146097 * n400 ∧ days - 146097 * n400 < 146097 := by omega
  have b2 : 0 ≤ q100 ∧ q100 ≤ 4 := by omega
  have b3 : 0 ≤ q100 - q100 / 4 ∧ q100 - q100 / 4 ≤ 3 := by omega
  have b4 : 0 ≤ days - 146097 * n400 - 36524 * (q100 - q100 / 4) ∧
      days - 146097 * n400 - 36524 * (q100 - q100 / 4) ≤ 36524 := by omega
  have b5 : 0 ≤ n4 ∧ n4 ≤ 24 := by omega
  have b6 : 0 ≤ days - 146097 * n400 - 36524 * (q100 - q100 / 4) - 1461 * n4 ∧
      days - 146097 * n400 - 36524 * (q100 - q100 / 4) - 1461 * n4 ≤ 1460 := by omega
  have b7 : 0 ≤ q1 ∧ q1 ≤ 4 := by omega
  have b8 : 0 ≤ q1 - q1 / 4 ∧ q1 - q1 / 4 ≤ 3 := by omega
  have y4 : (year - 1) / 4 = 100 * n400 + 25 * (q100 - q100 / 4) + n4 := by
    simp only [year]; omega
  have y100 : (year - 1) / 100 = 4 * n400 + (q100 - q100 / 4) := by
    simp only [year]; omega
  have y400 : (year - 1) / 400 = n400 := by
    simp only [year]; omega
  refine ⟨?_, ?_, ?_⟩
  · simp only [daysBeforeYear, y4, y100, y400]
    simp only [year, yday]
    omega
  · simp only [yday]; omega
  · have m4 : year % 4 = (q1 - q1 / 4 + 1) % 4 := by simp only [year]; omega
    have m100 : year % 100 = (4 * n4 + (q1 - q1 / 4) + 1) % 100 := by simp only [year]; omega
    have m400 : year % 400 = (100 * (q100 - q100 / 4) + 4 * n4 + (q1 - q1 / 4) + 1) % 400 := by
      simp only [year]; omega
    rw [m4, m100, m400]
    simp only [yday]
    by_cases hq : q1 = 4
    · right
      have hd3 : days - 146097 * n400 - 36524 * (q100 - q100 / 4) - 1461 * n4 = 1460 := by omega
      have hn1 : q1 - q1 / 4 = 3 := by omega
      refine ⟨by omega, by omega, ?_⟩
      by_cases hn4 : n4 = 24
      · right
        have : q100 - q100 / 4 = 3 := by omega
        omega
      · left
        omega
    · left
      omega


theorem yearAndDay_spec (days : Int) :
    daysBeforeYear (yearAndDay days).1 + (yearAndDay days).2 = days ∧
    0 ≤ (yearAndDay days).2 ∧
    (yearAndDay days).2 ≤ 364 + leapDays (yearAndDay days).1 := by
  obtain ⟨h1, h2, h3⟩ := yearAndDay_core days _ _ _ _ rfl rfl rfl rfl
  refine ⟨h1, h2, ?_⟩
  rcases h3 with h3 | ⟨h3, h4⟩
  · have : 0 ≤ leapDays (yearAndDay days).1 := by
      unfold leapDays
      split_ifs <;> omega
    have h3' : (yearAndDay days).2 ≤ 364 := h3
    omega
  · have hl : isLeap (yearAndDay days).1 = true := (isLeap_iff _).2 h4
    have h3' : (yearAndDay days).2 = 365 := h3
    rw [h3']
    simp [leapDays, hl]

/-- The date and time of day `unixToCivil` gives exist in the calendar and lie
`sec` seconds after 1970-01-01 00:00:00. -/
theorem unixToCivil_spec (sec : Int) :
    (unixToCivil sec).valid ∧ (unixToCivil sec).toUnix = sec := by
  obtain ⟨y1, y2, y3⟩ := yearAndDay_spec (sec / 86400 + 719162)
  obtain ⟨m1, m2, m3, m4, m5⟩ := monthAndDay_spec _ _ y2 y3
  have h1970 : daysBeforeYear 1970 = 719162 := by decide
  refine ⟨⟨m1, m2, m3, m4, ?_⟩, ?_⟩
  · simp only [unixToCivil]
    omega
  · simp only [CivilTime.toUnix, unixToCivil, h1970]
    omega

theorem natDigits_length_le (k : Nat) :
    ∀ fuel n : Nat, n < 10 ^ (k + 1) → (natDigits fuel n).length ≤ k + 1 := by
  induction k with
  | zero =>
    intro fuel n hn
    cases fuel with
    | zero => simp [natDigits]
    | succ f =>
      have : n < 10 := by simpa using hn
      simp [natDigits, this]
  | succ k ih =>
    intro fuel n hn
    cases fuel with
    | zero => simp [natDigits]
    | succ f =>
      unfold natDigits
      by_cases h10 : n < 10
      · simp [h10]
      · have hlt : n / 10 < 10 ^ (k + 1) := by
          rw [Nat.div_lt_iff_lt_mul (by norm_num)]
          calc n < 10 ^ (k + 1 + 1) := hn
            _ = 10 ^ (k + 1) * 10 := by ring
        have := ih f (n / 10) hlt
        simp only [h10, if_false, List.length_append, List.length_singleton]
        omega

theorem zeroPad_length (width : Nat) (n : Int) (h0 : 0 ≤ n) (hw : 0 < width)
    (hn : n.natAbs < 10 ^ width) : (zeroPad width n).length = width := by
  obtain ⟨k, rfl⟩ : ∃ k, width = k + 1 := ⟨width - 1, by omega⟩
  have hlen := natDigits_length_le k (n.natAbs + 1) n.natAbs hn
  have hneg : ¬ n < 0 := by omega
  unfold zeroPad
  simp only [hneg, if_false, String.length, List.nil_append, List.length_append,
    List.length_replicate]
  omega

theorem format_length (t : CivilTime) (hy0 : 0 ≤ t.year) (hy : t.year ≤ 9999)
    (hv : t.valid) : t.format.length = 29 := by
  obtain ⟨h1, h2, h3, h4, h5, h6, h7, h8, h9, h10⟩ := hv
  have hd : t.day ≤ 31 := by
    have : daysInMonth t.year t.month ≤ 31 := by
      unfold daysInMonth
      split_ifs <;> omega
    omega
  unfold CivilTime.format
  simp only [String.length_append]
  rw [zeroPad_length 4 t.year hy0 (by norm_num) (by omega),
    zeroPad_length 2 t.month (by omega) (by norm_num) (by omega),
    zeroPad_length 2 t.day (by omega) (by norm_num) (by omega),
    zeroPad_length 2 t.hour h5 (by norm_num) (by omega),
    zeroPad_length 2 t.minute h7 (by norm_num) (by omega),
    zeroPad_length 2 t.second h9 (by norm_num) (by omega)]
  rfl

theorem daysBeforeMonth_bounds (year month : Int) (h1 : 1 ≤ month) (h12 : month ≤ 12) :
    0 ≤ daysBeforeMonth year month ∧ daysBeforeMonth year month ≤ 335 := by
  obtain ⟨t1, t2, t3, t4, t5, t6, t7, t8, t9, t10, t11, t12⟩ := daysBeforeMonth_table year
  have hL : 0 ≤ leapDays year ∧ leapDays year ≤ 1 := by
    unfold leapDays
    split_ifs <;> omega
  interval_cases month
  · rw [t1]; omega
  · rw [t2]; omega
  · rw [t3]; omega
  · rw [t4]; omega
  · rw [t5]; omega
  · rw [t6]; omega
  · rw [t7]; omega
  · rw [t8]; omega
  · rw [t9]; omega
  · rw [t10]; omega
  · rw [t11]; omega
  · rw [t12]; omega

theorem daysBeforeYear_succ (year : Int) :
    daysBeforeYear (year + 1) = daysBeforeYear year + 365 + leapDays year := by
  have a4 : year / 4 - (year - 1) / 4 = if year % 4 = 0 then 1 else 0 := by
    split_ifs <;> omega
  have a100 : year / 100 - (year - 1) / 100 = if year % 100 = 0 then 1 else 0 := by
    split_ifs <;> omega
  have a400 : year / 400 - (year - 1) / 400 = if year % 400 = 0 then 1 else 0 := by
    split_ifs <;> omega
  have d1 : year % 100 = 0 → year % 4 = 0 := by omega
  have d2 : year % 400 = 0 → year % 100 = 0 := by omega
  have e : year + 1 - 1 = year := by omega
  unfold daysBeforeYear leapDays
  rw [e]
  by_cases hl : isLeap year = true
  · have h := (isLeap_iff year).1 hl
    simp only [hl, if_true]
    rcases h with ⟨h4, h100 | h400⟩
    · rw [if_pos h4] at a4
      rw [if_neg h100] at a100
      rw [if_neg (fun h => h100 (d2 h))] at a400
      omega
    · rw [if_pos h4] at a4
      rw [if_pos (d2 h400)] at a100
      rw [if_pos h400] at a400
      omega
  · have hn : ¬ (year % 4 = 0 ∧ (year % 100 ≠ 0 ∨ year % 400 = 0)) := fun h =>
      hl ((isLeap_iff year).2 h)
    simp only [hl, if_false, Bool.false_eq_true]
    by_cases h4 : year % 4 = 0
    · have h100 : year % 100 = 0 := by
        by_contra hc
        exact hn ⟨h4, Or.inl hc⟩
      have h400 : ¬ year % 400 = 0 := fun hc => hn ⟨h4, Or.inr hc⟩
      rw [if_pos h4] at a4
      rw [if_pos h100] at a100
      rw [if_neg h400] at a400
      omega
    · rw [if_neg h4] at a4
      rw [if_neg (fun h => h4 (d1 h))] at a100
      rw [if_neg (fun h => h4 (d1 (d2 h)))] at a400
      omega

theorem dayOfYear_le (year month day : Int) (h1 : 1 ≤ month) (h12 : month ≤ 12)
    (hd : day ≤ daysInMonth year month) :
    daysBeforeMonth year month + (day - 1) ≤ 364 + leapDays year := by
  have hL : 0 ≤ leapDays year ∧ leapDays year ≤ 1 := by
    unfold leapDays
    split_ifs <;> omega
  rw [daysInMonth_eq year month h1 h12] at hd
  rw [daysBeforeMonth_eq year month h1 h12]
  interval_cases month <;> norm_num at hd ⊢ <;> omega

theorem year_bounds_of_toUnix (t : CivilTime) (hv : t.valid) (h0 : 0 ≤ t.toUnix)
    (h1 : t.toUnix < 253402300800) : 1970 ≤ t.year ∧ t.year ≤ 9999 := by
  obtain ⟨v1, v2, v3, v4, v5, v6, v7, v8, v9, v10⟩ := hv
  have hb := daysBeforeMonth_bounds t.year t.month v1 v2
  have hy := dayOfYear_le t.year t.month t.day v1 v2 v4
  have hs := daysBeforeYear_succ t.year
  have h1970 : daysBeforeYear 1970 = 719162 := by decide
  unfold CivilTime.toUnix at h0 h1
  rw [h1970] at h0 h1
  unfold daysBeforeYear at h0 h1 hs
  constructor <;> omega

/-! ## The timestamp field -/

/-- C10. After a `Gather` call that returns no error, when the `Sensor.A` of the
measurements that the graph call decoded is a non-negative integer `a`, the
`timestamp` field is the string `YYYY-MM-DD HH:MM:SS +0000 UTC` of a date and
time of day that exist in the calendar and lie `a` seconds after 1970-01-01
00:00:00 UTC; the year has four digits and the string 29 characters up to the
end of the year 9999; for `a = 1661751913` the string is
`2022-08-29 05:45:13 +0000 UTC`. -/
theorem Gather_timestamp_utc (env : Env) (fuel : Nat) (l : LibreLinkUp)
    (sent : Trace) (acc : Accumulator) (l1 : LibreLinkUp) (sent1 : Trace) (acc1 : Accumulator)
    (h : Gather env fuel l sent acc = some (none, l1, sent1, acc1)) :
    ∃ patientId l0 sent0 m record,
      getLibreLinkUpConnection env fuel l sent = some (patientId, none, l0, sent0) ∧
      callApi env fuel ("/llu/connections/" ++ patientId ++ "/graph") "GET" none true
        env.unmarshalMeasurements zeroMeasurements l0 sent0 = some (none, m, l1, sent1) ∧
      acc1 = acc ++ [record] ∧
      (0 ≤ m.Data.Connection.Sensor.A →
        ∃ t : CivilTime, t.valid ∧ t.toUnix = m.Data.Connection.Sensor.A ∧
          record.fields.lookup "timestamp" = some (FieldValue.string t.format) ∧
          (m.Data.Connection.Sensor.A < 253402300800 →
            1970 ≤ t.year ∧ t.year ≤ 9999 ∧ t.format.length = 29)) ∧
      (m.Data.Connection.Sensor.A = 1661751913 →
        record.fields.lookup "timestamp" =
          some (FieldValue.string "2022-08-29 05:45:13 +0000 UTC")) := by
  obtain ⟨patientId, l0, sent0, m, hc, hg, hacc⟩ := Gather_success h
  refine ⟨patientId, l0, sent0, m, _, hc, hg, hacc, fun h0 => ?_, fun ha => ?_⟩
  · obtain ⟨hv, hu⟩ := unixToCivil_spec m.Data.Connection.Sensor.A
    refine ⟨unixToCivil m.Data.Connection.Sensor.A, hv, hu, rfl, fun hlt => ?_⟩
    obtain ⟨y0, y1⟩ := year_bounds_of_toUnix _ hv (by rw [hu]; exact h0) (by rw [hu]; exact hlt)
    exact ⟨y0, y1, format_length _ (by omega) y1 hv⟩
  · have e : unixUTCString 1661751913 = "2022-08-29 05:45:13 +0000 UTC" := by decide
    show some (FieldValue.string (unixUTCString m.Data.Connection.Sensor.A)) = _
    rw [ha, e]

theorem Gather_timestamp_utc_witness :
    ∃ patientId l0 sent0 m record,
      getLibreLinkUpConnection
          (scriptedEnv [ok200 "connections.json", ok200 "measurements.json"]) 2
          testCollector [] = some (patientId, none, l0, sent0) ∧
      callApi (scriptedEnv [ok200 "connections.json", ok200 "measurements.json"]) 2
          ("/llu/connections/" ++ patientId ++ "/graph") "GET" none true
          testUnmarshalMeasurements zeroMeasurements l0 sent0 =
        some (none, m, testCollector,
          [⟨buildRequest "/llu/connections" "GET" none true testCollector,
              ok200 "connections.json"⟩,
           ⟨buildRequest ("/llu/connections/" ++ testPatientId ++ "/graph") "GET" none true
              testCollector, ok200 "measurements.json"⟩]) ∧
      [(⟨"librelinkup",
          gatherFields { Data := { Connection := testConnection testPatientId "Jane" } },
          gatherTags { Data := { Connection := testConnection testPatientId "Jane" } }⟩ :
          Metric)] = [] ++ [record] ∧
      (0 ≤ m.Data.Connection.Sensor.A →
        ∃ t : CivilTime, t.valid ∧ t.toUnix = m.Data.Connection.Sensor.A ∧
          record.fields.lookup "timestamp" = some (FieldValue.string t.format) ∧
          (m.Data.Connection.Sensor.A < 253402300800 →
            1970 ≤ t.year ∧ t.year ≤ 9999 ∧ t.format.length = 29)) ∧
      (m.Data.Connection.Sensor.A = 1661751913 →
        record.fields.lookup "timestamp" =
          some (FieldValue.string "2022-08-29 05:45:13 +0000 UTC")) :=
  Gather_timestamp_utc
    (scriptedEnv [ok200 "connections.json", ok200 "measurements.json"]) 2 testCollector [] []
    testCollector
    [⟨buildRequest "/llu/connections" "GET" none true testCollector,
        ok200 "connections.json"⟩,
     ⟨buildRequest ("/llu/connections/" ++ testPatientId ++ "/graph") "GET" none true
        testCollector, ok200 "measurements.json"⟩]
    [⟨"librelinkup",
      gatherFields { Data := { Connection := testConnection testPatientId "Jane" } },
      gatherTags { Data := { Connection := testConnection testPatientId "Jane" } }⟩]
    (by decide)

/-! ## The mmol/L field -/

/-- `floorLog2 fuel n` is the exponent of the greatest power of two that does
not exceed `n`, given fuel `n` or more. -/
theorem floorLog2_spec (fuel : Nat) :
    ∀ n : Nat, n ≤ fuel → 1 ≤ n →
      2 ^ floorLog2 fuel n ≤ n ∧ n < 2 ^ (floorLog2 fuel n + 1) := by
  induction fuel with
  | zero => intro n h0 h1; omega
  | succ f ih =>
    intro n hf h1
    unfold floorLog2
    by_cases h2 : n < 2
    · rw [if_pos h2]
      have : n = 1 := by omega
      subst this
      simp
    · rw [if_neg h2]
      obtain ⟨a, b⟩ := ih (n / 2) (by omega) (by omega)
      rw [pow_succ, pow_succ]
      constructor <;> omega

/-- The fraction that `scaleDown` returns is `n / d` divided by `2 ^ e`. -/
theorem scaleDown_ratio (n d : Nat) (e : Int) (hd : 0 < d) :
    0 < (scaleDown n d e).2 ∧
    ((scaleDown n d e).1 : ℚ) / ((scaleDown n d e).2 : ℚ) = (n : ℚ) / (d : ℚ) / (2 : ℚ) ^ e := by
  have hdq : (0 : ℚ) < d := by exact_mod_cast hd
  unfold scaleDown
  by_cases he : 0 ≤ e
  · rw [if_pos he]
    obtain ⟨k, rfl⟩ := Int.eq_ofNat_of_zero_le he
    refine ⟨by positivity, ?_⟩
    simp only [Int.toNat_ofNat, Nat.cast_mul, Nat.cast_pow, Nat.cast_ofNat, zpow_natCast]
    rw [div_div]
  · rw [if_neg he]
    obtain ⟨k, hk⟩ : ∃ k : Nat, -e = (k : Int) := Int.eq_ofNat_of_zero_le (by omega)
    have he' : e = -(k : Int) := by omega
    refine ⟨hd, ?_⟩
    rw [hk, he']
    simp only [Int.toNat_ofNat, Nat.cast_mul, Nat.cast_pow, Nat.cast_ofNat, zpow_neg,
      zpow_natCast]
    field_simp

/-- The exponent `floorLog2Ratio` returns is that of the greatest power of two
that does not exceed `n / d`. -/
theorem floorLog2Ratio_spec (n d : Nat) (hn : 0 < n) (hd : 0 < d) :
    (2 : ℚ) ^ floorLog2Ratio n d ≤ (n : ℚ) / d ∧
    (n : ℚ) / d < (2 : ℚ) ^ (floorLog2Ratio n d + 1) := by
  have hdq : (0 : ℚ) < d := by exact_mod_cast hd
  obtain ⟨na, nb⟩ := floorLog2_spec n n le_rfl hn
  obtain ⟨da, db⟩ := floorLog2_spec d d le_rfl hd
  have na' : (2 : ℚ) ^ (floorLog2 n n) ≤ n := by exact_mod_cast na
  have nb' : (n : ℚ) < 2 ^ (floorLog2 n n + 1) := by exact_mod_cast nb
  have da' : (2 : ℚ) ^ (floorLog2 d d) ≤ d := by exact_mod_cast da
  have db' : (d : ℚ) < 2 ^ (floorLog2 d d + 1) := by exact_mod_cast db
  unfold floorLog2Ratio
  simp only
  generalize floorLog2 n n = a at na' nb' ⊢
  generalize floorLog2 d d = b at da' db' ⊢
  have h2 : (0 : ℚ) < 2 := by norm_num
  have hlo : (2 : ℚ) ^ ((a : Int) - b - 1) < (n : ℚ) / d := by
    rw [lt_div_iff₀ hdq]
    have e : (2 : ℚ) ^ ((a : Int) - b - 1) = 2 ^ a / 2 ^ (b + 1) := by
      rw [show (a : Int) - b - 1 = (a : Int) - ((b + 1 : Nat) : Int) by push_cast; ring,
        zpow_sub₀ (by norm_num), zpow_natCast, zpow_natCast]
    rw [e, div_mul_eq_mul_div, div_lt_iff₀ (by positivity)]
    calc (2 : ℚ) ^ a * d < 2 ^ a * 2 ^ (b + 1) := by
          apply mul_lt_mul_of_pos_left db' (by positivity)
      _ ≤ n * 2 ^ (b + 1) := by
          apply mul_le_mul_of_nonneg_right na' (by positivity)
  have hhi : (n : ℚ) / d < (2 : ℚ) ^ ((a : Int) - b + 1) := by
    rw [div_lt_iff₀ hdq]
    have e : (2 : ℚ) ^ ((a : Int) - b + 1) = 2 ^ (a + 1) / 2 ^ b := by
      rw [show (a : Int) - b + 1 = ((a + 1 : Nat) : Int) - (b : Int) by push_cast; ring,
        zpow_sub₀ (by norm_num), zpow_natCast, zpow_natCast]
    rw [e, div_mul_eq_mul_div, lt_div_iff₀ (by positivity)]
    calc (n : ℚ) * 2 ^ b < 2 ^ (a + 1) * 2 ^ b := by
          apply mul_lt_mul_of_pos_right nb' (by positivity)
      _ ≤ 2 ^ (a + 1) * d := by
          apply mul_le_mul_of_nonneg_left da' (by positivity)
  obtain ⟨sp, sr⟩ := scaleDown_ratio n d ((a : Int) - (b : Int)) hd
  have spq : (0 : ℚ) < ((scaleDown n d ((a : Int) - (b : Int))).2 : ℚ) := by exact_mod_cast sp
  have hpow : (0 : ℚ) < (2 : ℚ) ^ ((a : Int) - (b : Int)) := by positivity
  by_cases ht : (scaleDown n d ((a : Int) - (b : Int))).2 ≤ (scaleDown n d ((a : Int) - (b : Int))).1
  · rw [if_pos ht]
    refine ⟨?_, hhi⟩
    have h1 : (1 : ℚ) ≤ ((scaleDown n d ((a : Int) - (b : Int))).1 : ℚ) /
        ((scaleDown n d ((a : Int) - (b : Int))).2 : ℚ) := by
      rw [le_div_iff₀ spq, one_mul]
      exact_mod_cast ht
    rw [sr, le_div_iff₀ hpow, one_mul] at h1
    exact h1
  · rw [if_neg ht]
    refine ⟨le_of_lt hlo, ?_⟩
    have h1 : ((scaleDown n d ((a : Int) - (b : Int))).1 : ℚ) /
        ((scaleDown n d ((a : Int) - (b : Int))).2 : ℚ) < 1 := by
      rw [div_lt_iff₀ spq, one_mul]
      exact_mod_cast not_le.1 ht
    rw [sr, div_lt_iff₀ hpow, one_mul] at h1
    rw [show (a : Int) - b - 1 + 1 = (a : Int) - b by ring]
    exact h1


/-- `roundHalfEven n d` is within one half of `n / d`. -/
theorem roundHalfEven_spec (n d : Nat) (hd : 0 < d) :
    |((roundHalfEven n d : Nat) : ℚ) - (n : ℚ) / d| ≤ 1 / 2 := by
  have hdq : (0 : ℚ) < d := by exact_mod_cast hd
  have hq : (d : ℚ) * ((n / d : Nat) : ℚ) + ((n % d : Nat) : ℚ) = n := by
    exact_mod_cast Nat.div_add_mod n d
  have hn : (n : ℚ) / d = ((n / d : Nat) : ℚ) + ((n % d : Nat) : ℚ) / d := by
    field_simp
    linarith
  have hr : n % d < d := Nat.mod_lt n hd
  have hrq : ((n % d : Nat) : ℚ) < d := by exact_mod_cast hr
  have hr0 : (0 : ℚ) ≤ ((n % d : Nat) : ℚ) := by positivity
  rw [hn]
  unfold roundHalfEven
  have key1 : 2 * (n % d) < d → ((n % d : Nat) : ℚ) / d ≤ 1 / 2 := fun h => by
    rw [div_le_iff₀ hdq]
    have : ((2 * (n % d) : Nat) : ℚ) < d := by exact_mod_cast h
    push_cast at this
    linarith
  have key2 : d < 2 * (n % d) → 1 / 2 ≤ ((n % d : Nat) : ℚ) / d := fun h => by
    rw [le_div_iff₀ hdq]
    have : (d : ℚ) < ((2 * (n % d) : Nat) : ℚ) := by exact_mod_cast h
    push_cast at this
    linarith
  have key3 : ((n % d : Nat) : ℚ) / d < 1 := by
    rw [div_lt_iff₀ hdq]
    linarith
  have key0 : (0 : ℚ) ≤ ((n % d : Nat) : ℚ) / d := by positivity
  by_cases h1 : 2 * (n % d) < d
  · rw [if_pos h1, abs_le]
    have := key1 h1
    constructor <;> linarith
  · rw [if_neg h1]
    by_cases h2 : d < 2 * (n % d)
    · rw [if_pos h2, abs_le]
      have := key2 h2
      push_cast
      constructor <;> linarith
    · rw [if_neg h2]
      have he : 2 * (n % d) = d := by omega
      have hhalf : ((n % d : Nat) : ℚ) / d = 1 / 2 := by
        rw [div_eq_iff hdq.ne']
        have : ((2 * (n % d) : Nat) : ℚ) = d := by exact_mod_cast he
        push_cast at this
        linarith
      rw [hhalf]
      split_ifs
      · rw [abs_le]
        constructor <;> linarith
      · rw [abs_le]
        push_cast
        constructor <;> linarith


/-- What `roundBinary` returns for a positive fraction `n / d`: a finite datum
with the sign asked for, at most half a unit in the last place away from
`n / d`, with a significand of at most `p` bits that is normalized unless the
exponent is the least one; or the infinity of that sign, when `n / d` is not
below the overflow threshold `(2 ^ p - 1/2) * 2 ^ emax`. -/
theorem roundBinary_spec (p : Nat) (emin emax : Int) (neg : Bool) (n d : Nat)
    (hp : 1 ≤ p) (hmm : emin ≤ emax) (hn : 0 < n) (hd : 0 < d) :
    (∃ m e, roundBinary p emin emax neg n d = BinaryFloat.finite neg m e ∧
      |(m : ℚ) * (2 : ℚ) ^ e - (n : ℚ) / d| ≤ (2 : ℚ) ^ e / 2 ∧
      m < 2 ^ p ∧ emin ≤ e ∧ e ≤ emax ∧ (2 ^ (p - 1) ≤ m ∨ e = emin)) ∨
    (roundBinary p emin emax neg n d = BinaryFloat.inf neg ∧
      ((2 : ℚ) ^ p - 1 / 2) * (2 : ℚ) ^ emax ≤ (n : ℚ) / d) := by
  have hdq : (0 : ℚ) < d := by exact_mod_cast hd
  have hnq : (0 : ℚ) < n := by exact_mod_cast hn
  obtain ⟨hr1, hr2⟩ := floorLog2Ratio_spec n d hn hd
  unfold roundBinary
  rw [if_neg hn.ne']
  simp only
  generalize floorLog2Ratio n d = r at hr1 hr2 ⊢
  generalize he : max (r - ((p : Int) - 1)) emin = e
  have he1 : r - ((p : Int) - 1) ≤ e := by rw [← he]; exact le_max_left _ _
  have he2 : emin ≤ e := by rw [← he]; exact le_max_right _ _
  have he3 : e = r - ((p : Int) - 1) ∨ e = emin := by
    rw [← he]
    rcases max_choice (r - ((p : Int) - 1)) emin with h | h
    · exact Or.inl h
    · exact Or.inr h
  obtain ⟨sp, sr⟩ := scaleDown_ratio n d e hd
  have hm := roundHalfEven_spec (scaleDown n d e).1 (scaleDown n d e).2 sp
  rw [sr] at hm
  generalize roundHalfEven (scaleDown n d e).1 (scaleDown n d e).2 = m at hm ⊢
  have h2e : (0 : ℚ) < (2 : ℚ) ^ e := by positivity
  have one_le_two : (1 : ℚ) ≤ 2 := by norm_num
  -- the scaled fraction lies below `2 ^ p`
  have hy_lt : (n : ℚ) / d / (2 : ℚ) ^ e < (2 : ℚ) ^ p := by
    rw [div_lt_iff₀ h2e]
    calc (n : ℚ) / d < (2 : ℚ) ^ (r + 1) := hr2
      _ ≤ (2 : ℚ) ^ ((p : Int) + e) := zpow_le_zpow_right₀ one_le_two (by omega)
      _ = (2 : ℚ) ^ p * (2 : ℚ) ^ e := by
          rw [zpow_add₀ (by norm_num), zpow_natCast]
  have hm_le : m ≤ 2 ^ p := by
    have h1 : (m : ℚ) < ((2 ^ p + 1 : Nat) : ℚ) := by
      push_cast
      have := (abs_le.1 hm).2
      linarith
    have : m < 2 ^ p + 1 := by exact_mod_cast h1
    omega
  have herr : |(m : ℚ) * (2 : ℚ) ^ e - (n : ℚ) / d| ≤ (2 : ℚ) ^ e / 2 := by
    have e1 : (m : ℚ) * (2 : ℚ) ^ e - (n : ℚ) / d =
        ((m : ℚ) - (n : ℚ) / d / (2 : ℚ) ^ e) * (2 : ℚ) ^ e := by
      field_simp
      ring
    rw [e1, abs_mul, abs_of_pos h2e]
    calc |(m : ℚ) - (n : ℚ) / d / (2 : ℚ) ^ e| * (2 : ℚ) ^ e ≤ 1 / 2 * (2 : ℚ) ^ e :=
          mul_le_mul_of_nonneg_right hm h2e.le
      _ = (2 : ℚ) ^ e / 2 := by ring
  by_cases hc : m = 2 ^ p
  · -- the rounding carried into the next binade
    simp only [hc, if_true]
    by_cases ho : emax < e + 1
    · right
      rw [if_pos ho]
      refine ⟨rfl, ?_⟩
      have hlow : (2 : ℚ) ^ p - 1 / 2 ≤ (n : ℚ) / d / (2 : ℚ) ^ e := by
        have := (abs_le.1 hm).2
        rw [hc] at this
        push_cast at this
        linarith
      have hpos : (0 : ℚ) ≤ (2 : ℚ) ^ p - 1 / 2 := by
        have : (1 : ℚ) ≤ (2 : ℚ) ^ p := one_le_pow₀ one_le_two
        linarith
      rw [le_div_iff₀ h2e] at hlow
      calc ((2 : ℚ) ^ p - 1 / 2) * (2 : ℚ) ^ emax
          ≤ ((2 : ℚ) ^ p - 1 / 2) * (2 : ℚ) ^ e :=
            mul_le_mul_of_nonneg_left (zpow_le_zpow_right₀ one_le_two (by omega)) hpos
        _ ≤ (n : ℚ) / d := hlow
    · left
      rw [if_neg ho]
      refine ⟨_, _, rfl, ?_, ?_, by omega, by omega, Or.inl le_rfl⟩
      · have e2 : ((2 ^ (p - 1) : Nat) : ℚ) * (2 : ℚ) ^ (e + 1) = ((2 ^ p : Nat) : ℚ) * (2 : ℚ) ^ e := by
          obtain ⟨k, rfl⟩ : ∃ k, p = k + 1 := ⟨p - 1, by omega⟩
          have hk : k + 1 - 1 = k := by omega
          rw [zpow_add_one₀ (by norm_num), hk]
          push_cast
          ring
        rw [e2, ← hc]
        calc |(m : ℚ) * (2 : ℚ) ^ e - (n : ℚ) / d| ≤ (2 : ℚ) ^ e / 2 := herr
          _ ≤ (2 : ℚ) ^ (e + 1) / 2 := by
              apply div_le_div_of_nonneg_right _ (by norm_num)
              exact zpow_le_zpow_right₀ one_le_two (by omega)
      · exact Nat.pow_lt_pow_right (by norm_num) (by omega)
  · simp only [hc, if_false]
    by_cases ho : emax < e
    · right
      rw [if_pos ho]
      refine ⟨rfl, ?_⟩
      have hee : e = r - ((p : Int) - 1) := by
        rcases he3 with h | h
        · exact h
        · omega
      calc ((2 : ℚ) ^ p - 1 / 2) * (2 : ℚ) ^ emax
          ≤ (2 : ℚ) ^ p * (2 : ℚ) ^ emax := by
            apply mul_le_mul_of_nonneg_right _ (by positivity)
            linarith
        _ = (2 : ℚ) ^ ((p : Int) + emax) := by
            rw [zpow_add₀ (by norm_num), zpow_natCast]
        _ ≤ (2 : ℚ) ^ r := zpow_le_zpow_right₀ one_le_two (by omega)
        _ ≤ (n : ℚ) / d := hr1
    · left
      rw [if_neg ho]
      refine ⟨m, e, rfl, herr, by omega, he2, by omega, ?_⟩
      rcases he3 with h | h
      · left
        -- the scaled fraction is at least `2 ^ (p - 1)`
        have hy_ge : ((2 ^ (p - 1) : Nat) : ℚ) ≤ (n : ℚ) / d / (2 : ℚ) ^ e := by
          rw [le_div_iff₀ h2e]
          calc ((2 ^ (p - 1) : Nat) : ℚ) * (2 : ℚ) ^ e
              = (2 : ℚ) ^ (((p - 1 : Nat) : Int) + e) := by
                rw [zpow_add₀ (by norm_num), zpow_natCast]
                push_cast
                rfl
            _ ≤ (2 : ℚ) ^ r := zpow_le_zpow_right₀ one_le_two (by omega)
            _ ≤ (n : ℚ) / d := hr1
        have h1 : ((2 ^ (p - 1) : Nat) : ℚ) < (m : ℚ) + 1 := by
          have := (abs_le.1 hm).1
          linarith
        have : 2 ^ (p - 1) < m + 1 := by exact_mod_cast h1
        omega
      · exact Or.inr h


/-- An integer other than one within one half of `y` is at least one half away
from `y`. -/
theorem nat_nearest (m M : Nat) (y : ℚ) (h : |(m : ℚ) - y| ≤ 1 / 2) (hne : M ≠ m) :
    1 / 2 ≤ |(M : ℚ) - y| := by
  have h1 : (1 : ℚ) ≤ |(M : ℚ) - (m : ℚ)| := by
    rcases Nat.lt_or_gt_of_ne hne with hlt | hgt
    · have : (M : ℚ) + 1 ≤ (m : ℚ) := by exact_mod_cast hlt
      rw [abs_sub_comm, abs_of_nonneg (by linarith)]
      linarith
    · have : (m : ℚ) + 1 ≤ (M : ℚ) := by exact_mod_cast hgt
      rw [abs_of_nonneg (by linarith)]
      linarith
  have h2 : |(M : ℚ) - (m : ℚ)| ≤ |(M : ℚ) - y| + |(m : ℚ) - y| := by
    have := abs_sub_le (M : ℚ) y (m : ℚ)
    rwa [abs_sub_comm y (m : ℚ)] at this
  linarith

/-- The distance of `m * 2 ^ e` from `x` in units of `2 ^ e`. -/
theorem scaled_abs (m : Nat) (e : Int) (x : ℚ) :
    |(m : ℚ) * (2 : ℚ) ^ e - x| = |(m : ℚ) - x / (2 : ℚ) ^ e| * (2 : ℚ) ^ e := by
  have h2e : (0 : ℚ) < (2 : ℚ) ^ e := by positivity
  have e1 : (m : ℚ) * (2 : ℚ) ^ e - x = ((m : ℚ) - x / (2 : ℚ) ^ e) * (2 : ℚ) ^ e := by
    field_simp
  rw [e1, abs_mul, abs_of_pos h2e]

/-- A nearest integer `m` to `x / 2 ^ e`, even on a tie, gives a nearest number
of the format to `x`, provided that `e` is the least exponent or `x` is not
below `2 ^ (p - 1 + e)`. -/
theorem nearest_of_scaled (p : Nat) (emin : Int) (x : ℚ) (m : Nat) (e : Int) (hp : 1 ≤ p)
    (he : emin ≤ e)
    (hnorm : e = emin ∨ (2 : ℚ) ^ ((p : Int) - 1 + e) ≤ x)
    (hm : |(m : ℚ) - x / (2 : ℚ) ^ e| ≤ 1 / 2)
    (heven : |(m : ℚ) - x / (2 : ℚ) ^ e| = 1 / 2 → m % 2 = 0) :
    (∀ (m2 : Nat) (e2 : Int), m2 < 2 ^ p → emin ≤ e2 →
      |(m : ℚ) * (2 : ℚ) ^ e - x| ≤ |(m2 : ℚ) * (2 : ℚ) ^ e2 - x|) ∧
    (∀ (m2 : Nat) (e2 : Int), m2 < 2 ^ p → emin ≤ e2 →
      (m2 : ℚ) * (2 : ℚ) ^ e2 ≠ (m : ℚ) * (2 : ℚ) ^ e →
      |(m2 : ℚ) * (2 : ℚ) ^ e2 - x| = |(m : ℚ) * (2 : ℚ) ^ e - x| → m % 2 = 0) := by
  have h2e : (0 : ℚ) < (2 : ℚ) ^ e := by positivity
  have one_le_two : (1 : ℚ) ≤ 2 := by norm_num
  -- multiples of `2 ^ e`
  have hmult : ∀ M : Nat, M ≠ m →
      (2 : ℚ) ^ e / 2 ≤ |(M : ℚ) * (2 : ℚ) ^ e - x| := fun M hne => by
    rw [scaled_abs M e x]
    have := nat_nearest m M _ hm hne
    calc (2 : ℚ) ^ e / 2 = 1 / 2 * (2 : ℚ) ^ e := by ring
      _ ≤ |(M : ℚ) - x / (2 : ℚ) ^ e| * (2 : ℚ) ^ e := mul_le_mul_of_nonneg_right this h2e.le
  have hself : |(m : ℚ) * (2 : ℚ) ^ e - x| ≤ (2 : ℚ) ^ e / 2 := by
    rw [scaled_abs m e x]
    calc |(m : ℚ) - x / (2 : ℚ) ^ e| * (2 : ℚ) ^ e ≤ 1 / 2 * (2 : ℚ) ^ e :=
          mul_le_mul_of_nonneg_right hm h2e.le
      _ = (2 : ℚ) ^ e / 2 := by ring
  have hle : ∀ M : Nat, |(m : ℚ) * (2 : ℚ) ^ e - x| ≤ |(M : ℚ) * (2 : ℚ) ^ e - x| := fun M => by
    by_cases hne : M = m
    · rw [hne]
    · exact le_trans hself (hmult M hne)
  -- a datum of a greater or equal exponent is a multiple of `2 ^ e`
  have hup : ∀ (m2 : Nat) (e2 : Int), e ≤ e2 →
      ∃ M : Nat, (m2 : ℚ) * (2 : ℚ) ^ e2 = (M : ℚ) * (2 : ℚ) ^ e := fun m2 e2 h => by
    obtain ⟨k, hk⟩ : ∃ k : Nat, e2 - e = (k : Int) := Int.eq_ofNat_of_zero_le (by omega)
    refine ⟨m2 * 2 ^ k, ?_⟩
    have : e2 = (k : Int) + e := by omega
    rw [this, zpow_add₀ (by norm_num), zpow_natCast]
    push_cast
    ring
  -- a datum of a smaller exponent lies strictly farther
  have hdown : ∀ (m2 : Nat) (e2 : Int), m2 < 2 ^ p → emin ≤ e2 → e2 < e →
      |(m : ℚ) * (2 : ℚ) ^ e - x| < |(m2 : ℚ) * (2 : ℚ) ^ e2 - x| := fun m2 e2 hm2 h1 h2 => by
    have hx : (2 : ℚ) ^ ((p : Int) - 1 + e) ≤ x := by
      rcases hnorm with h | h
      · omega
      · exact h
    have hm2q : (m2 : ℚ) < (2 : ℚ) ^ p := by exact_mod_cast hm2
    have h2e2 : (0 : ℚ) < (2 : ℚ) ^ e2 := by positivity
    have hlt : (m2 : ℚ) * (2 : ℚ) ^ e2 < (2 : ℚ) ^ ((p : Int) - 1 + e) := by
      calc (m2 : ℚ) * (2 : ℚ) ^ e2 < (2 : ℚ) ^ p * (2 : ℚ) ^ e2 :=
            mul_lt_mul_of_pos_right hm2q h2e2
        _ = (2 : ℚ) ^ ((p : Int) + e2) := by
            rw [zpow_add₀ (by norm_num), zpow_natCast]
        _ ≤ (2 : ℚ) ^ ((p : Int) - 1 + e) := zpow_le_zpow_right₀ one_le_two (by omega)
    have hB : (2 : ℚ) ^ ((p : Int) - 1 + e) = ((2 ^ (p - 1) : Nat) : ℚ) * (2 : ℚ) ^ e := by
      have : (p : Int) - 1 = ((p - 1 : Nat) : Int) := by omega
      rw [this, zpow_add₀ (by norm_num), zpow_natCast]
      push_cast
      rfl
    have h3 := hle (2 ^ (p - 1))
    rw [← hB] at h3
    have h4 : |(2 : ℚ) ^ ((p : Int) - 1 + e) - x| = x - (2 : ℚ) ^ ((p : Int) - 1 + e) := by
      rw [abs_sub_comm, abs_of_nonneg (by linarith)]
    have h5 : |(m2 : ℚ) * (2 : ℚ) ^ e2 - x| = x - (m2 : ℚ) * (2 : ℚ) ^ e2 := by
      rw [abs_sub_comm, abs_of_nonneg (by linarith)]
    rw [h5]
    rw [h4] at h3
    linarith
  refine ⟨fun m2 e2 hm2 h1 => ?_, fun m2 e2 hm2 h1 hne heq => ?_⟩
  · by_cases h : e ≤ e2
    · obtain ⟨M, hM⟩ := hup m2 e2 h
      rw [hM]
      exact hle M
    · exact le_of_lt (hdown m2 e2 hm2 h1 (by omega))
  · by_cases h : e ≤ e2
    · obtain ⟨M, hM⟩ := hup m2 e2 h
      rw [hM] at hne heq
      have hMm : M ≠ m := fun hc => hne (by rw [hc])
      have h6 := hmult M hMm
      rw [heq] at h6
      have h7 : |(m : ℚ) * (2 : ℚ) ^ e - x| = (2 : ℚ) ^ e / 2 := le_antisymm hself h6
      rw [scaled_abs m e x] at h7
      apply heven
      have : |(m : ℚ) - x / (2 : ℚ) ^ e| * (2 : ℚ) ^ e = 1 / 2 * (2 : ℚ) ^ e := by
        rw [h7]; ring
      exact mul_right_cancel₀ h2e.ne' this
    · have := hdown m2 e2 hm2 h1 (by omega)
      rw [heq] at this
      exact absurd this (lt_irrefl _)

/-- On a tie `roundHalfEven` returns the even neighbour. -/
theorem roundHalfEven_even (n d : Nat) (hd : 0 < d)
    (h : |((roundHalfEven n d : Nat) : ℚ) - (n : ℚ) / d| = 1 / 2) :
    roundHalfEven n d % 2 = 0 := by
  have hdq : (0 : ℚ) < d := by exact_mod_cast hd
  have hq : (d : ℚ) * ((n / d : Nat) : ℚ) + ((n % d : Nat) : ℚ) = n := by
    exact_mod_cast Nat.div_add_mod n d
  have hn : (n : ℚ) / d = ((n / d : Nat) : ℚ) + ((n % d : Nat) : ℚ) / d := by
    field_simp
    linarith
  have hr : n % d < d := Nat.mod_lt n hd
  have hrq : ((n % d : Nat) : ℚ) < d := by exact_mod_cast hr
  have key3 : ((n % d : Nat) : ℚ) / d < 1 := by
    rw [div_lt_iff₀ hdq]
    linarith
  have key0 : (0 : ℚ) ≤ ((n % d : Nat) : ℚ) / d := by positivity
  rw [hn] at h
  unfold roundHalfEven at h ⊢
  by_cases h1 : 2 * (n % d) < d
  · exfalso
    rw [if_pos h1] at h
    have : ((n % d : Nat) : ℚ) / d < 1 / 2 := by
      rw [div_lt_iff₀ hdq]
      have : ((2 * (n % d) : Nat) : ℚ) < d := by exact_mod_cast h1
      push_cast at this
      linarith
    rw [abs_sub_comm, abs_of_nonneg (by linarith)] at h
    linarith
  · rw [if_neg h1] at h ⊢
    by_cases h2 : d < 2 * (n % d)
    · exfalso
      rw [if_pos h2] at h
      have : 1 / 2 < ((n % d : Nat) : ℚ) / d := by
        rw [lt_div_iff₀ hdq]
        have : (d : ℚ) < ((2 * (n % d) : Nat) : ℚ) := by exact_mod_cast h2
        push_cast at this
        linarith
      push_cast at h
      rw [abs_of_nonneg (by linarith)] at h
      linarith
    · rw [if_neg h2]
      split_ifs with h3
      · exact h3
      · omega

/-- A finite result of `roundBinary` for a positive fraction is a nearest number
of the format, and the one with the even significand on a tie. -/
theorem roundBinary_nearest_pos (p : Nat) (emin emax : Int) (neg : Bool) (n d : Nat)
    (hp : 2 ≤ p) (hn : 0 < n) (hd : 0 < d) (m : Nat) (e : Int)
    (hres : roundBinary p emin emax neg n d = BinaryFloat.finite neg m e) :
    (∀ (m2 : Nat) (e2 : Int), m2 < 2 ^ p → emin ≤ e2 →
      |(m : ℚ) * (2 : ℚ) ^ e - (n : ℚ) / d| ≤ |(m2 : ℚ) * (2 : ℚ) ^ e2 - (n : ℚ) / d|) ∧
    (∀ (m2 : Nat) (e2 : Int), m2 < 2 ^ p → emin ≤ e2 →
      (m2 : ℚ) * (2 : ℚ) ^ e2 ≠ (m : ℚ) * (2 : ℚ) ^ e →
      |(m2 : ℚ) * (2 : ℚ) ^ e2 - (n : ℚ) / d| = |(m : ℚ) * (2 : ℚ) ^ e - (n : ℚ) / d| →
      m % 2 = 0) := by
  obtain ⟨hr1, hr2⟩ := floorLog2Ratio_spec n d hn hd
  unfold roundBinary at hres
  rw [if_neg hn.ne'] at hres
  simp only at hres
  generalize floorLog2Ratio n d = r at hr1 hr2 hres
  generalize he : max (r - ((p : Int) - 1)) emin = e0 at hres
  have he2 : emin ≤ e0 := by rw [← he]; exact le_max_right _ _
  have he3 : e0 = r - ((p : Int) - 1) ∨ e0 = emin := by
    rw [← he]
    rcases max_choice (r - ((p : Int) - 1)) emin with h | h
    · exact Or.inl h
    · exact Or.inr h
  obtain ⟨sp, sr⟩ := scaleDown_ratio n d e0 hd
  have hm := roundHalfEven_spec (scaleDown n d e0).1 (scaleDown n d e0).2 sp
  have hev := roundHalfEven_even (scaleDown n d e0).1 (scaleDown n d e0).2 sp
  rw [sr] at hm hev
  generalize roundHalfEven (scaleDown n d e0).1 (scaleDown n d e0).2 = m0 at hm hev hres
  have hnorm : e0 = emin ∨ (2 : ℚ) ^ ((p : Int) - 1 + e0) ≤ (n : ℚ) / d := by
    rcases he3 with h | h
    · right
      have : (p : Int) - 1 + e0 = r := by omega
      rw [this]
      exact hr1
    · exact Or.inl h
  have key := nearest_of_scaled p emin ((n : ℚ) / d) m0 e0 (by omega) he2 hnorm hm hev
  by_cases hc : m0 = 2 ^ p
  · simp only [hc, if_true] at hres
    by_cases ho : emax < e0 + 1
    · rw [if_pos ho] at hres
      exact absurd hres (by simp)
    · rw [if_neg ho] at hres
      injection hres with _ h1 h2
      have e2 : (m : ℚ) * (2 : ℚ) ^ e = (m0 : ℚ) * (2 : ℚ) ^ e0 := by
        rw [← h1, ← h2, hc]
        obtain ⟨k, rfl⟩ : ∃ k, p = k + 1 := ⟨p - 1, by omega⟩
        have hk : k + 1 - 1 = k := by omega
        rw [zpow_add_one₀ (by norm_num), hk]
        push_cast
        ring
      have hpar : m % 2 = 0 := by
        rw [← h1]
        obtain ⟨k, rfl⟩ : ∃ k, p = k + 2 := ⟨p - 2, by omega⟩
        have hk : k + 2 - 1 = k + 1 := by omega
        rw [hk, Nat.pow_succ]
        exact Nat.mul_mod_left _ _
      rw [e2]
      exact ⟨key.1, fun _ _ _ _ _ _ => hpar⟩
  · simp only [hc, if_false] at hres
    by_cases ho : emax < e0
    · rw [if_pos ho] at hres
      exact absurd hres (by simp)
    · rw [if_neg ho] at hres
      injection hres with _ h1 h2
      rw [← h1, ← h2]
      exact key

/-- The function `roundBinary` rounds to nearest, ties to even: its result is
the datum `isRoundedTo` describes, or the infinity of the sign asked for when
`n / d` is not below the overflow threshold `(2 ^ p - 1/2) * 2 ^ emax`. -/
theorem roundBinary_nearest (p : Nat) (emin emax : Int) (neg : Bool) (n d : Nat)
    (hp : 2 ≤ p) (hmm : emin ≤ emax) (hd : 0 < d) :
    (∃ m e, roundBinary p emin emax neg n d = BinaryFloat.finite neg m e ∧
      isRoundedTo p emin emax ((n : ℚ) / d) m e) ∨
    (roundBinary p emin emax neg n d = BinaryFloat.inf neg ∧
      ((2 : ℚ) ^ p - 1 / 2) * (2 : ℚ) ^ emax ≤ (n : ℚ) / d) := by
  by_cases hn : n = 0
  · left
    subst hn
    refine ⟨0, emin, by simp [roundBinary], ⟨Nat.pow_pos (by norm_num), le_rfl, hmm, Or.inr rfl⟩,
      ?_, fun m2 e2 _ _ => ?_, fun _ _ _ _ _ _ => rfl⟩
    · simp only [Nat.cast_zero, zero_mul, zero_div, sub_zero, abs_zero]
      positivity
    · simp only [Nat.cast_zero, zero_mul, zero_div, sub_zero, abs_zero]
      exact abs_nonneg _
  · have hpos : 0 < n := Nat.pos_of_ne_zero hn
    rcases roundBinary_spec p emin emax neg n d (by omega) hmm hpos hd with
      ⟨m, e, hr, herr, hcan⟩ | hinf
    · left
      obtain ⟨h1, h2⟩ := roundBinary_nearest_pos p emin emax neg n d hp hpos hd m e hr
      exact ⟨m, e, hr, hcan, herr, h1, h2⟩
    · exact Or.inr hinf

/-- A datum of a smaller exponent lies below every normalized datum. -/
theorem lower_exponent_lt (p : Nat) (m m2 : Nat) (e e2 : Int) (hp : 1 ≤ p) (hm2 : m2 < 2 ^ p)
    (he : e2 < e) (hm : 2 ^ (p - 1) ≤ m) :
    (m2 : ℚ) * (2 : ℚ) ^ e2 < (m : ℚ) * (2 : ℚ) ^ e := by
  have one_le_two : (1 : ℚ) ≤ 2 := by norm_num
  have hm2q : (m2 : ℚ) < (2 : ℚ) ^ p := by exact_mod_cast hm2
  have hmq : ((2 ^ (p - 1) : Nat) : ℚ) ≤ (m : ℚ) := by exact_mod_cast hm
  have h2e : (0 : ℚ) < (2 : ℚ) ^ e := by positivity
  have h2e2 : (0 : ℚ) < (2 : ℚ) ^ e2 := by positivity
  calc (m2 : ℚ) * (2 : ℚ) ^ e2 < (2 : ℚ) ^ p * (2 : ℚ) ^ e2 :=
        mul_lt_mul_of_pos_right hm2q h2e2
    _ = (2 : ℚ) ^ ((p : Int) + e2) := by
        rw [zpow_add₀ (by norm_num), zpow_natCast]
    _ ≤ (2 : ℚ) ^ (((p - 1 : Nat) : Int) + e) := zpow_le_zpow_right₀ one_le_two (by omega)
    _ = ((2 ^ (p - 1) : Nat) : ℚ) * (2 : ℚ) ^ e := by
        rw [zpow_add₀ (by norm_num), zpow_natCast]
        push_cast
        rfl
    _ ≤ (m : ℚ) * (2 : ℚ) ^ e := mul_le_mul_of_nonneg_right hmq h2e.le

/-- Of two data that `x` rounds to, neither is the greater. -/
theorem isRoundedTo_value_le (p : Nat) (emin emax : Int) (x : ℚ) (m m2 : Nat) (e e2 : Int)
    (hp : 1 ≤ p) (h : isRoundedTo p emin emax x m e) (h2 : isRoundedTo p emin emax x m2 e2) :
    (m2 : ℚ) * (2 : ℚ) ^ e2 ≤ (m : ℚ) * (2 : ℚ) ^ e := by
  by_contra hlt
  rw [not_le] at hlt
  obtain ⟨⟨hm, hemin, _, hnorm⟩, _, hnear, htie⟩ := h
  obtain ⟨⟨hm2, hemin2, _, _⟩, _, hnear2, htie2⟩ := h2
  have h2e : (0 : ℚ) < (2 : ℚ) ^ e := by positivity
  have hab : |(m2 : ℚ) * (2 : ℚ) ^ e2 - x| = |(m : ℚ) * (2 : ℚ) ^ e - x| :=
    le_antisymm (hnear2 m e hm hemin) (hnear m2 e2 hm2 hemin2)
  have hmeven : m % 2 = 0 := htie m2 e2 hm2 hemin2 hlt.ne' hab
  have hm2even : m2 % 2 = 0 := htie2 m e hm hemin hlt.ne hab.symm
  -- `x` is the midpoint
  have hx : (m : ℚ) * (2 : ℚ) ^ e < x ∧ x - (m : ℚ) * (2 : ℚ) ^ e =
      (m2 : ℚ) * (2 : ℚ) ^ e2 - x := by
    rcases abs_eq_abs.1 hab with h | h
    · linarith
    · constructor <;> linarith
  have hpow : 2 ^ p % 2 = 0 := by
    obtain ⟨k, rfl⟩ : ∃ k, p = k + 1 := ⟨p - 1, by omega⟩
    rw [Nat.pow_succ]
    exact Nat.mul_mod_left _ _
  have hm1 : m + 1 < 2 ^ p := by omega
  have hc := hnear (m + 1) e hm1 hemin
  rw [abs_sub_comm ((m : ℚ) * (2 : ℚ) ^ e) x, abs_of_pos (by linarith)] at hc
  have hc2 : (m2 : ℚ) * (2 : ℚ) ^ e2 ≤ ((m + 1 : Nat) : ℚ) * (2 : ℚ) ^ e := by
    by_contra hcon
    rw [not_le] at hcon
    have hstep : (m : ℚ) * (2 : ℚ) ^ e < ((m + 1 : Nat) : ℚ) * (2 : ℚ) ^ e := by
      push_cast
      linarith
    rcases le_or_lt x (((m + 1 : Nat) : ℚ) * (2 : ℚ) ^ e) with h | h
    · rw [abs_of_nonneg (by linarith)] at hc
      linarith
    · rw [abs_sub_comm, abs_of_pos (by linarith)] at hc
      linarith
  by_cases hee : e ≤ e2
  · obtain ⟨k, hk⟩ : ∃ k : Nat, e2 - e = (k : Int) := Int.eq_ofNat_of_zero_le (by omega)
    have he2 : e2 = (k : Int) + e := by omega
    have hM : (m2 : ℚ) * (2 : ℚ) ^ e2 = ((m2 * 2 ^ k : Nat) : ℚ) * (2 : ℚ) ^ e := by
      rw [he2, zpow_add₀ (by norm_num), zpow_natCast]
      push_cast
      ring
    rw [hM] at hlt hc2
    have h1 : (m : ℚ) < ((m2 * 2 ^ k : Nat) : ℚ) := lt_of_mul_lt_mul_right hlt h2e.le
    have h2 : ((m2 * 2 ^ k : Nat) : ℚ) ≤ ((m + 1 : Nat) : ℚ) := le_of_mul_le_mul_right hc2 h2e
    have h1n : m < m2 * 2 ^ k := by exact_mod_cast h1
    have h2n : m2 * 2 ^ k ≤ m + 1 := by exact_mod_cast h2
    have hpar : (m2 * 2 ^ k) % 2 = 0 := by
      rw [Nat.mul_mod, hm2even]
      simp
    omega
  · have hmn : 2 ^ (p - 1) ≤ m := by
      rcases hnorm with h | h
      · exact h
      · omega
    have := lower_exponent_lt p m m2 e e2 hp hm2 (by omega) hmn
    linarith

/-- A fraction rounds to one datum only. -/
theorem isRoundedTo_unique (p : Nat) (emin emax : Int) (x : ℚ) (m m2 : Nat) (e e2 : Int)
    (hp : 1 ≤ p) (h : isRoundedTo p emin emax x m e) (h2 : isRoundedTo p emin emax x m2 e2) :
    m = m2 ∧ e = e2 := by
  have hv : (m : ℚ) * (2 : ℚ) ^ e = (m2 : ℚ) * (2 : ℚ) ^ e2 :=
    le_antisymm (isRoundedTo_value_le p emin emax x m2 m e2 e hp h2 h)
      (isRoundedTo_value_le p emin emax x m m2 e e2 hp h h2)
  obtain ⟨⟨hm, hemin, _, hnorm⟩, _, _, _⟩ := h
  obtain ⟨⟨hm2, hemin2, _, hnorm2⟩, _, _, _⟩ := h2
  have hee : e = e2 := by
    rcases lt_trichotomy e e2 with hlt | heq | hgt
    · exfalso
      have hmn : 2 ^ (p - 1) ≤ m2 := by
        rcases hnorm2 with h | h
        · exact h
        · omega
      have := lower_exponent_lt p m2 m e2 e hp hm hlt hmn
      linarith
    · exact heq
    · exfalso
      have hmn : 2 ^ (p - 1) ≤ m := by
        rcases hnorm with h | h
        · exact h
        · omega
      have := lower_exponent_lt p m m2 e e2 hp hm2 hgt hmn
      linarith
  refine ⟨?_, hee⟩
  rw [hee] at hv
  have h2e : (0 : ℚ) < (2 : ℚ) ^ e2 := by positivity
  have : (m : ℚ) = (m2 : ℚ) := mul_right_cancel₀ h2e.ne' hv
  exact_mod_cast this


/-- The constant 0.0555 as a `float32`: `14898168 * 2 ^ (-28)`, at most half a
unit in the last place away from 555/10000. -/
theorem float32OfConst_555 :
    float32OfConst 555 10000 = BinaryFloat.finite false 14898168 (-28) ∧
    |(14898168 : ℚ) * (2 : ℚ) ^ (-28 : Int) - 555 / 10000| ≤ (2 : ℚ) ^ (-28 : Int) / 2 := by
  refine ⟨by decide, ?_⟩
  rw [abs_le]
  constructor <;> norm_num

/-- The conversion `float32(v)` of a 64-bit integer is a finite datum, with the
sign of `v`, at most half a unit in the last place away from `v`. -/
theorem float32OfInt_spec (v : Int) (hv : v.natAbs < 2 ^ 63) :
    ∃ m e, float32OfInt v = BinaryFloat.finite (decide (v < 0)) m e ∧
      |(m : ℚ) * (2 : ℚ) ^ e - (v.natAbs : ℚ)| ≤ (2 : ℚ) ^ e / 2 ∧ m < 2 ^ 24 ∧
      (m : ℚ) * (2 : ℚ) ^ e ≤ 2 * (v.natAbs : ℚ) ∧ (v ≠ 0 → 0 < m) := by
  unfold float32OfInt roundFloat32
  by_cases h0 : v.natAbs = 0
  · refine ⟨0, -149, ?_, ?_, by norm_num, ?_, fun hne => absurd (Int.natAbs_eq_zero.1 h0) hne⟩
    · simp [roundBinary, h0]
    · rw [h0]
      simp only [Nat.cast_zero, zero_mul, sub_zero, abs_zero]
      positivity
    · rw [h0]
      simp
  · have hpos : 0 < v.natAbs := Nat.pos_of_ne_zero h0
    have hvq : (v.natAbs : ℚ) < 2 ^ 63 := by exact_mod_cast hv
    have hv1 : (1 : ℚ) ≤ (v.natAbs : ℚ) := by exact_mod_cast hpos
    rcases roundBinary_spec 24 (-149) 104 (decide (v < 0)) v.natAbs 1 (by norm_num)
      (by norm_num) hpos (by norm_num) with ⟨m, e, hr, herr, hm, he1, he2, hnorm⟩ | ⟨_, hover⟩
    · simp only [Nat.cast_one, div_one] at herr
      have h2e : (0 : ℚ) < (2 : ℚ) ^ e := by positivity
      have hmpos : 0 < m := by
        rcases hnorm with h | h
        · have : 0 < 2 ^ (24 - 1) := by norm_num
          omega
        · by_contra hm0
          have hm0' : m = 0 := by omega
          rw [hm0', h] at herr
          simp only [Nat.cast_zero, zero_mul, zero_sub, abs_neg] at herr
          rw [abs_of_pos (by linarith)] at herr
          have : (2 : ℚ) ^ (-149 : Int) / 2 < 1 := by
            rw [div_lt_iff₀ (by norm_num), zpow_neg]
            have : (1 : ℚ) ≤ (2 : ℚ) ^ (149 : Int) := by
              exact one_le_zpow₀ (by norm_num) (by norm_num)
            have hinv : ((2 : ℚ) ^ (149 : Int))⁻¹ ≤ 1 := inv_le_one_of_one_le₀ this
            linarith
          linarith
      refine ⟨m, e, hr, herr, hm, ?_, fun _ => hmpos⟩
      have hm1 : (1 : ℚ) ≤ (m : ℚ) := by exact_mod_cast hmpos
      have h1 := (abs_le.1 herr).2
      have h3 : (2 : ℚ) ^ e ≤ (m : ℚ) * (2 : ℚ) ^ e := by
        calc (2 : ℚ) ^ e = 1 * (2 : ℚ) ^ e := by ring
          _ ≤ (m : ℚ) * (2 : ℚ) ^ e := mul_le_mul_of_nonneg_right hm1 h2e.le
      linarith
    · exfalso
      simp only [Nat.cast_one, div_one] at hover
      have : (2 : ℚ) ^ 63 ≤ ((2 : ℚ) ^ 24 - 1 / 2) * (2 : ℚ) ^ (104 : Int) := by
        norm_num
      linarith


/-- The `mmol_l` value of a 64-bit integer `v` is a finite `float32`: the
binary32 datum nearest to the exact product of `float32(v)` and the binary32
constant `14898168 * 2 ^ (-28)` nearest to 0.0555, with the sign of `v`. -/
theorem mmol_l_correctly_rounded (v : Int) (hv : v.natAbs < 2 ^ 63) :
    ∃ m e m1 e1,
      float32OfInt v = BinaryFloat.finite (decide (v < 0)) m e ∧
      |(m : ℚ) * (2 : ℚ) ^ e - (v.natAbs : ℚ)| ≤ (2 : ℚ) ^ e / 2 ∧
      mulFloat32 (float32OfInt v) (float32OfConst 555 10000) =
        BinaryFloat.finite (decide (v < 0)) m1 e1 ∧
      |(m1 : ℚ) * (2 : ℚ) ^ e1 - (m : ℚ) * (2 : ℚ) ^ e * (14898168 * (2 : ℚ) ^ (-28 : Int))| ≤
        (2 : ℚ) ^ e1 / 2 ∧
      m1 < 2 ^ 24 := by
  obtain ⟨m, e, hf, herr, hm, hle, hpos⟩ := float32OfInt_spec v hv
  have hvq : (v.natAbs : ℚ) < 2 ^ 63 := by exact_mod_cast hv
  have h2e : (0 : ℚ) < (2 : ℚ) ^ e := by positivity
  rw [hf, float32OfConst_555.1]
  have hb : ∀ b : Bool, (b != false) = b := by decide
  unfold mulFloat32 mulRounded
  simp only [hb]
  obtain ⟨sp, sr⟩ := scaleDown_ratio (m * 14898168) 1 (-(e + -28)) (by norm_num)
  have hval : ((m * 14898168 : Nat) : ℚ) / ((1 : Nat) : ℚ) / (2 : ℚ) ^ (-(e + -28)) =
      (m : ℚ) * (2 : ℚ) ^ e * (14898168 * (2 : ℚ) ^ (-28 : Int)) := by
    rw [zpow_neg, zpow_add₀ (by norm_num)]
    push_cast
    field_simp
    ring
  rw [hval] at sr
  by_cases hm0 : m = 0
  · subst hm0
    refine ⟨0, e, 0, -149, rfl, herr, ?_, ?_, by norm_num⟩
    · have hz : (scaleDown (0 * 14898168) 1 (-(e + -28))).1 = 0 := by
        unfold scaleDown
        split_ifs <;> simp
      simp only [roundFloat32, roundBinary, hz, if_true]
    · simp only [Nat.cast_zero, zero_mul, sub_zero, abs_zero]
      positivity
  · have hmpos : 0 < m := Nat.pos_of_ne_zero hm0
    have hnum : 0 < (scaleDown (m * 14898168) 1 (-(e + -28))).1 := by
      by_contra hc
      have hz : (scaleDown (m * 14898168) 1 (-(e + -28))).1 = 0 := by omega
      rw [hz] at sr
      simp only [Nat.cast_zero, zero_div] at sr
      have : (0 : ℚ) < (m : ℚ) * (2 : ℚ) ^ e * (14898168 * (2 : ℚ) ^ (-28 : Int)) := by
        have : (0 : ℚ) < (m : ℚ) := by exact_mod_cast hmpos
        positivity
      linarith
    rcases roundBinary_spec 24 (-149) 104 (decide (v < 0))
      (scaleDown (m * 14898168) 1 (-(e + -28))).1 (scaleDown (m * 14898168) 1 (-(e + -28))).2
      (by norm_num) (by norm_num) hnum sp with ⟨m1, e1, hr, herr1, hm1, -, -, -⟩ | ⟨_, hover⟩
    · rw [sr] at herr1
      exact ⟨m, e, m1, e1, rfl, herr, hr, herr1, hm1⟩
    · exfalso
      rw [sr] at hover
      have hc : (14898168 : ℚ) * (2 : ℚ) ^ (-28 : Int) ≤ 1 := by norm_num
      have h1 : (m : ℚ) * (2 : ℚ) ^ e * (14898168 * (2 : ℚ) ^ (-28 : Int)) ≤
          (m : ℚ) * (2 : ℚ) ^ e * 1 :=
        mul_le_mul_of_nonneg_left hc (by positivity)
      have h2 : (2 : ℚ) ^ 64 ≤ ((2 : ℚ) ^ 24 - 1 / 2) * (2 : ℚ) ^ (104 : Int) := by
        norm_num
      linarith

/-- The constant 0.0555 as a `float32` is 555/10000 rounded to single
precision. -/
theorem float32OfConst_555_nearest :
    float32OfConst 555 10000 = BinaryFloat.finite false 14898168 (-28) ∧
    nearestFloat32 (555 / 10000) 14898168 (-28) := by
  refine ⟨float32OfConst_555.1, ?_⟩
  have hd : roundBinary 24 (-149) 104 false 555 10000 = BinaryFloat.finite false 14898168 (-28) :=
    float32OfConst_555.1
  rcases roundBinary_nearest 24 (-149) 104 false 555 10000 (by norm_num) (by norm_num)
    (by norm_num) with ⟨m, e, hr, hn⟩ | ⟨hinf, _⟩
  · rw [hd] at hr
    injection hr with _ h1 h2
    rw [← h1, ← h2] at hn
    simp only [Nat.cast_ofNat] at hn
    exact hn
  · rw [hd] at hinf
    exact absurd hinf (by simp)

/-- The conversion `float32(v)` of a 64-bit integer is finite, has the sign
of `v`, and is `|v|` rounded to single precision. -/
theorem float32OfInt_nearest (v : Int) (hv : v.natAbs ≤ 2 ^ 63) :
    ∃ m e, float32OfInt v = BinaryFloat.finite (decide (v < 0)) m e ∧
      nearestFloat32 (v.natAbs : ℚ) m e := by
  have hvq : (v.natAbs : ℚ) ≤ 2 ^ 63 := by exact_mod_cast hv
  rcases roundBinary_nearest 24 (-149) 104 (decide (v < 0)) v.natAbs 1 (by norm_num)
    (by norm_num) (by norm_num) with ⟨m, e, hr, hn⟩ | ⟨_, hover⟩
  · simp only [Nat.cast_one, div_one] at hn
    exact ⟨m, e, hr, hn⟩
  · exfalso
    simp only [Nat.cast_one, div_one] at hover
    have : (2 : ℚ) ^ 63 < ((2 : ℚ) ^ 24 - 1 / 2) * (2 : ℚ) ^ (104 : Int) := by
      norm_num
    linarith

/-- Rounding to single precision at most doubles a number. -/
theorem nearestFloat32_le (x : ℚ) (m : Nat) (e : Int) (hx : 0 ≤ x) (h : nearestFloat32 x m e) :
    (m : ℚ) * (2 : ℚ) ^ e ≤ 2 * x := by
  have h0 := h.2.2.1 0 (-149) (by norm_num) le_rfl
  simp only [Nat.cast_zero, zero_mul, zero_sub, abs_neg] at h0
  rw [abs_of_nonneg hx] at h0
  have := (abs_le.1 h0).2
  linarith

/-- The `float32` product of a finite datum of at most `2 ^ 64` and the
constant is finite and is the exact product rounded to single precision. -/
theorem mulFloat32_const_nearest (s : Bool) (m : Nat) (e : Int)
    (hle : (m : ℚ) * (2 : ℚ) ^ e ≤ 2 ^ 64) :
    ∃ m1 e1,
      mulFloat32 (BinaryFloat.finite s m e) (BinaryFloat.finite false 14898168 (-28)) =
        BinaryFloat.finite s m1 e1 ∧
      nearestFloat32 ((m : ℚ) * (2 : ℚ) ^ e * (14898168 * (2 : ℚ) ^ (-28 : Int))) m1 e1 := by
  have h2e : (0 : ℚ) < (2 : ℚ) ^ e := by positivity
  have hb : ∀ b : Bool, (b != false) = b := by decide
  unfold mulFloat32 mulRounded
  simp only [hb]
  obtain ⟨sp, sr⟩ := scaleDown_ratio (m * 14898168) 1 (-(e + -28)) (by norm_num)
  have hval : ((m * 14898168 : Nat) : ℚ) / ((1 : Nat) : ℚ) / (2 : ℚ) ^ (-(e + -28)) =
      (m : ℚ) * (2 : ℚ) ^ e * (14898168 * (2 : ℚ) ^ (-28 : Int)) := by
    rw [zpow_neg, zpow_add₀ (by norm_num)]
    push_cast
    field_simp
    ring
  rw [hval] at sr
  rcases roundBinary_nearest 24 (-149) 104 s
    (scaleDown (m * 14898168) 1 (-(e + -28))).1 (scaleDown (m * 14898168) 1 (-(e + -28))).2
    (by norm_num) (by norm_num) sp with ⟨m1, e1, hr, hn⟩ | ⟨_, hover⟩
  · rw [sr] at hn
    exact ⟨m1, e1, hr, hn⟩
  · exfalso
    rw [sr] at hover
    have hc : (14898168 : ℚ) * (2 : ℚ) ^ (-28 : Int) ≤ 1 := by norm_num
    have h1 : (m : ℚ) * (2 : ℚ) ^ e * (14898168 * (2 : ℚ) ^ (-28 : Int)) ≤
        (m : ℚ) * (2 : ℚ) ^ e * 1 :=
      mul_le_mul_of_nonneg_left hc (by positivity)
    have h2 : (2 : ℚ) ^ 64 < ((2 : ℚ) ^ 24 - 1 / 2) * (2 : ℚ) ^ (104 : Int) := by
      norm_num
    linarith

/-- The `mmol_l` value of a 64-bit integer `v`: `float32(v)` is `|v|` rounded to
single precision, and the value is the exact product of `float32(v)` and the
`float32` constant, rounded to single precision; both carry the sign of `v`. -/
theorem mmol_l_nearest (v : Int) (hv : v.natAbs ≤ 2 ^ 63) :
    ∃ mv ev mr er,
      float32OfInt v = BinaryFloat.finite (decide (v < 0)) mv ev ∧
      nearestFloat32 (v.natAbs : ℚ) mv ev ∧
      mulFloat32 (float32OfInt v) (float32OfConst 555 10000) =
        BinaryFloat.finite (decide (v < 0)) mr er ∧
      nearestFloat32 ((mv : ℚ) * (2 : ℚ) ^ ev * (14898168 * (2 : ℚ) ^ (-28 : Int))) mr er := by
  obtain ⟨mv, ev, hf, hn⟩ := float32OfInt_nearest v hv
  have hvq : (v.natAbs : ℚ) ≤ 2 ^ 63 := by exact_mod_cast hv
  have hle := nearestFloat32_le _ mv ev (by positivity) hn
  obtain ⟨mr, er, hp, hpn⟩ := mulFloat32_const_nearest (decide (v < 0)) mv ev (by linarith)
  refine ⟨mv, ev, mr, er, hf, hn, ?_, hpn⟩
  rw [hf, float32OfConst_555.1]
  exact hp

set_option maxRecDepth 8192 in
/-- The `float64` product of 222 and 0.0555. -/
theorem float64_product_222 :
    mulFloat64 (roundFloat64 false 222 1) (roundFloat64 false 555 10000) =
      BinaryFloat.finite false 6936106376103985 (-49) := by
  decide

set_option maxRecDepth 8192 in
/-- The `float64` product of 16777217 and 0.0555. -/
theorem float64_product_16777217 :
    mulFloat64 (roundFloat64 false 16777217 1) (roundFloat64 false 555 10000) =
      BinaryFloat.finite false 7998393414951371 (-33) := by
  decide

/-- The `float64` product of 16777217 and 0.0555, rounded to single precision. -/
theorem float32_of_float64_product_16777217 :
    roundFloat32 false (scaleDown 7998393414951371 1 33).1 (scaleDown 7998393414951371 1 33).2 =
      BinaryFloat.finite false 14898169 (-4) := by
  decide

/-- C9. After a `Gather` call that returns no error the `mmol_l` field is a
`float32`: the binary32 product of `float32(v)`, for the integer mg/dL value
`v` of the measurements that the graph call decoded, and of the constant
0.0555 rounded to binary32, which is `14898168 * 2 ^ (-28)`. For every 64-bit
`v`, `float32(v)` is `|v|` rounded to single precision and the field is the
exact product of `float32(v)` and that constant rounded to single precision
(to nearest, ties to even, in canonical form), both with the sign of `v`.
For `v = 222` the field is `float32(12.321)`, that is `12919505 * 2 ^ (-20)`,
a number the `float64` product of 222 and 0.0555 is not. For `v = 16777217`,
which `float32` cannot hold, `float32(v)` is `2 ^ 24` and the field is
`14898168 * 2 ^ (-4)`, whereas the `float64` product rounded to single
precision is `14898169 * 2 ^ (-4)`. -/
theorem Gather_mmol_l_single_precision (env : Env) (fuel : Nat) (l : LibreLinkUp)
    (sent : Trace) (acc : Accumulator) (l1 : LibreLinkUp) (sent1 : Trace) (acc1 : Accumulator)
    (h : Gather env fuel l sent acc = some (none, l1, sent1, acc1)) :
    ∃ patientId l0 sent0 m record,
      getLibreLinkUpConnection env fuel l sent = some (patientId, none, l0, sent0) ∧
      callApi env fuel ("/llu/connections/" ++ patientId ++ "/graph") "GET" none true
        env.unmarshalMeasurements zeroMeasurements l0 sent0 = some (none, m, l1, sent1) ∧
      acc1 = acc ++ [record] ∧
      record.fields.lookup "mmol_l" = some (FieldValue.float32
        (mulFloat32 (float32OfInt m.Data.Connection.GlucoseMeasurement.ValueInMgPerDl)
          (float32OfConst 555 10000))) ∧
      (float32OfConst 555 10000 = BinaryFloat.finite false 14898168 (-28) ∧
        nearestFloat32 (555 / 10000) 14898168 (-28)) ∧
      (m.Data.Connection.GlucoseMeasurement.ValueInMgPerDl.natAbs ≤ 2 ^ 63 →
        ∃ mv ev mr er,
          float32OfInt m.Data.Connection.GlucoseMeasurement.ValueInMgPerDl =
            BinaryFloat.finite
              (decide (m.Data.Connection.GlucoseMeasurement.ValueInMgPerDl < 0)) mv ev ∧
          nearestFloat32 (m.Data.Connection.GlucoseMeasurement.ValueInMgPerDl.natAbs : ℚ) mv ev ∧
          record.fields.lookup "mmol_l" = some (FieldValue.float32
            (BinaryFloat.finite
              (decide (m.Data.Connection.GlucoseMeasurement.ValueInMgPerDl < 0)) mr er)) ∧
          nearestFloat32 ((mv : ℚ) * (2 : ℚ) ^ ev * (14898168 * (2 : ℚ) ^ (-28 : Int))) mr er) ∧
      (m.Data.Connection.GlucoseMeasurement.ValueInMgPerDl = 222 →
        record.fields.lookup "mmol_l" = some (FieldValue.float32 (float32OfConst 12321 1000)) ∧
        float32OfConst 12321 1000 = BinaryFloat.finite false 12919505 (-20) ∧
        mulFloat64 (roundFloat64 false 222 1) (roundFloat64 false 555 10000) =
          BinaryFloat.finite false 6936106376103985 (-49) ∧
        (12919505 : ℚ) * (2 : ℚ) ^ (-20 : Int) ≠ 6936106376103985 * (2 : ℚ) ^ (-49 : Int)) ∧
      (m.Data.Connection.GlucoseMeasurement.ValueInMgPerDl = 16777217 →
        float32OfInt 16777217 = BinaryFloat.finite false 8388608 1 ∧
        record.fields.lookup "mmol_l" =
          some (FieldValue.float32 (BinaryFloat.finite false 14898168 (-4))) ∧
        mulFloat64 (roundFloat64 false 16777217 1) (roundFloat64 false 555 10000) =
          BinaryFloat.finite false 7998393414951371 (-33) ∧
        roundFloat32 false (scaleDown 7998393414951371 1 33).1
            (scaleDown 7998393414951371 1 33).2 =
          BinaryFloat.finite false 14898169 (-4)) := by
  obtain ⟨patientId, l0, sent0, m, hc, hg, hacc⟩ := Gather_success h
  have e : mulFloat32 (float32OfInt 222) (float32OfConst 555 10000) =
      float32OfConst 12321 1000 := by
    decide
  have e2 : mulFloat32 (float32OfInt 16777217) (float32OfConst 555 10000) =
      BinaryFloat.finite false 14898168 (-4) := by
    decide
  have hlook : (gatherFields m).lookup "mmol_l" = some (FieldValue.float32
      (mulFloat32 (float32OfInt m.Data.Connection.GlucoseMeasurement.ValueInMgPerDl)
        (float32OfConst 555 10000))) := rfl
  refine ⟨patientId, l0, sent0, m, _, hc, hg, hacc, hlook, float32OfConst_555_nearest,
    fun hv => ?_, fun hv => ⟨?_, by decide, float64_product_222, by norm_num⟩,
    fun hv => ⟨by decide, ?_, float64_product_16777217, float32_of_float64_product_16777217⟩⟩
  · obtain ⟨mv, ev, mr, er, h1, h2, h3, h4⟩ := mmol_l_nearest _ hv
    exact ⟨mv, ev, mr, er, h1, h2, by rw [hlook, h3], h4⟩
  · rw [hlook, hv, e]
  · rw [hlook, hv, e2]

theorem Gather_mmol_l_single_precision_witness :
    (∃ record,
      Gather (scriptedEnv [ok200 "connections.json", ok200 "measurements.json"]) 1
          testCollector [] [] =
        some (none, testCollector,
          [⟨buildRequest "/llu/connections" "GET" none true testCollector,
              ok200 "connections.json"⟩,
           ⟨buildRequest ("/llu/connections/" ++ testPatientId ++ "/graph") "GET" none true
              testCollector, ok200 "measurements.json"⟩], [record]) ∧
      record.fields.lookup "mg_dl" = some (FieldValue.int 222) ∧
      record.fields.lookup "mmol_l" =
        some (FieldValue.float32 (BinaryFloat.finite false 12919505 (-20)))) ∧
    (∃ record,
      Gather (scriptedEnv [ok200 "connections.json", ok200 "measurements-high.json"]) 1
          testCollector [] [] =
        some (none, testCollector,
          [⟨buildRequest "/llu/connections" "GET" none true testCollector,
              ok200 "connections.json"⟩,
           ⟨buildRequest ("/llu/connections/" ++ testPatientId ++ "/graph") "GET" none true
              testCollector, ok200 "measurements-high.json"⟩], [record]) ∧
      record.fields.lookup "mg_dl" = some (FieldValue.int 16777217) ∧
      record.fields.lookup "mmol_l" =
        some (FieldValue.float32 (BinaryFloat.finite false 14898168 (-4)))) := by
  constructor
  · obtain ⟨patientId, l0, sent0, m, record, hc, hg, hacc, -, -, -, h222, -⟩ :=
      Gather_mmol_l_single_precision
        (scriptedEnv [ok200 "connections.json", ok200 "measurements.json"]) 1 testCollector [] []
        testCollector
        [⟨buildRequest "/llu/connections" "GET" none true testCollector,
            ok200 "connections.json"⟩,
         ⟨buildRequest ("/llu/connections/" ++ testPatientId ++ "/graph") "GET" none true
            testCollector, ok200 "measurements.json"⟩]
        [⟨"librelinkup",
          gatherFields { Data := { Connection := testConnection testPatientId "Jane" } },
          gatherTags { Data := { Connection := testConnection testPatientId "Jane" } }⟩]
        (by decide)
    have hc0 : getLibreLinkUpConnection
        (scriptedEnv [ok200 "connections.json", ok200 "measurements.json"]) 1 testCollector [] =
        some (testPatientId, none, testCollector,
          [⟨buildRequest "/llu/connections" "GET" none true testCollector,
              ok200 "connections.json"⟩]) := by decide
    have hp := hc.symm.trans hc0
    simp only [Option.some.injEq, Prod.mk.injEq, true_and] at hp
    obtain ⟨hp1, hp2, hp3⟩ := hp
    subst hp1 hp2 hp3
    have hg0 : callApi (scriptedEnv [ok200 "connections.json", ok200 "measurements.json"]) 1
        ("/llu/connections/" ++ testPatientId ++ "/graph") "GET" none true
        (scriptedEnv [ok200 "connections.json", ok200 "measurements.json"]).unmarshalMeasurements
        zeroMeasurements testCollector
        [⟨buildRequest "/llu/connections" "GET" none true testCollector,
            ok200 "connections.json"⟩] =
        some (none, { Data := { Connection := testConnection testPatientId "Jane" } },
          testCollector,
          [⟨buildRequest "/llu/connections" "GET" none true testCollector,
              ok200 "connections.json"⟩,
           ⟨buildRequest ("/llu/connections/" ++ testPatientId ++ "/graph") "GET" none true
              testCollector, ok200 "measurements.json"⟩]) := by decide
    have hm := hg.symm.trans hg0
    simp only [Option.some.injEq, Prod.mk.injEq, true_and, and_true] at hm
    subst hm
    have hr : [(⟨"librelinkup",
          gatherFields { Data := { Connection := testConnection testPatientId "Jane" } },
          gatherTags { Data := { Connection := testConnection testPatientId "Jane" } }⟩ :
          Metric)] = [record] := hacc
    refine ⟨record, ?_, ?_, ?_⟩
    · rw [← hr]
      decide
    · injection hr with h1 _
      rw [← h1]
      rfl
    · rw [(h222 rfl).1, (h222 rfl).2.1]
  · obtain ⟨patientId, l0, sent0, m, record, hc, hg, hacc, -, -, -, -, hhigh⟩ :=
      Gather_mmol_l_single_precision
        (scriptedEnv [ok200 "connections.json", ok200 "measurements-high.json"]) 1 testCollector [] []
        testCollector
        [⟨buildRequest "/llu/connections" "GET" none true testCollector,
            ok200 "connections.json"⟩,
         ⟨buildRequest ("/llu/connections/" ++ testPatientId ++ "/graph") "GET" none true
            testCollector, ok200 "measurements-high.json"⟩]
        [⟨"librelinkup",
          gatherFields { Data := { Connection :=
            { testConnection testPatientId "Jane" with
              GlucoseMeasurement := { ValueInMgPerDl := 16777217 } } } },
          gatherTags { Data := { Connection :=
            { testConnection testPatientId "Jane" with
              GlucoseMeasurement := { ValueInMgPerDl := 16777217 } } } }⟩]
        (by decide)
    have hc0 : getLibreLinkUpConnection
        (scriptedEnv [ok200 "connections.json", ok200 "measurements-high.json"]) 1 testCollector [] =
        some (testPatientId, none, testCollector,
          [⟨buildRequest "/llu/connections" "GET" none true testCollector,
              ok200 "connections.json"⟩]) := by decide
    have hp := hc.symm.trans hc0
    simp only [Option.some.injEq, Prod.mk.injEq, true_and] at hp
    obtain ⟨hp1, hp2, hp3⟩ := hp
    subst hp1 hp2 hp3
    have hg0 : callApi (scriptedEnv [ok200 "connections.json", ok200 "measurements-high.json"]) 1
        ("/llu/connections/" ++ testPatientId ++ "/graph") "GET" none true
        (scriptedEnv [ok200 "connections.json", ok200 "measurements-high.json"]).unmarshalMeasurements
        zeroMeasurements testCollector
        [⟨buildRequest "/llu/connections" "GET" none true testCollector,
            ok200 "connections.json"⟩] =
        some (none, { Data := { Connection :=
            { testConnection testPatientId "Jane" with
              GlucoseMeasurement := { ValueInMgPerDl := 16777217 } } } },
          testCollector,
          [⟨buildRequest "/llu/connections" "GET" none true testCollector,
              ok200 "connections.json"⟩,
           ⟨buildRequest ("/llu/connections/" ++ testPatientId ++ "/graph") "GET" none true
              testCollector, ok200 "measurements-high.json"⟩]) := by decide
    have hm := hg.symm.trans hg0
    simp only [Option.some.injEq, Prod.mk.injEq, true_and, and_true] at hm
    subst hm
    have hr : [(⟨"librelinkup",
          gatherFields { Data := { Connection :=
            { testConnection testPatientId "Jane" with
              GlucoseMeasurement := { ValueInMgPerDl := 16777217 } } } },
          gatherTags { Data := { Connection :=
            { testConnection testPatientId "Jane" with
              GlucoseMeasurement := { ValueInMgPerDl := 16777217 } } } }⟩ :
          Metric)] = [record] := hacc
    refine ⟨record, ?_, ?_, ?_⟩
    · rw [← hr]
      decide
    · injection hr with h1 _
      rw [← h1]
      rfl
    · exact (hhigh rfl).2.1

/-! ## The stored session -/

theorem sessionStep_refl (env : Env) (l : LibreLinkUp) (sent : Trace) :
    sessionStep env l sent l sent :=
  ⟨[], by simp, Or.inl rfl⟩

theorem sessionStep_trans {env : Env} {l l1 l2 : LibreLinkUp} {sent sent1 sent2 : Trace}
    (h1 : sessionStep env l sent l1 sent1) (h2 : sessionStep env l1 sent1 l2 sent2) :
    sessionStep env l sent l2 sent2 := by
  obtain ⟨ext1, e1, s1⟩ := h1
  obtain ⟨ext2, e2, s2⟩ := h2
  refine ⟨ext1 ++ ext2, by rw [e2, e1, List.append_assoc], ?_⟩
  rcases s2 with s2 | ⟨hz, x, hx, hst⟩
  · rcases s1 with s1 | ⟨hz, x, hx, hst⟩
    · exact Or.inl (s2.trans s1)
    · right
      rw [s2]
      exact ⟨hz, x, List.mem_append_left _ hx, hst⟩
  · exact Or.inr ⟨hz, x, List.mem_append_right _ hx, hst⟩

/-- A step after one more exchange at the front of the extension. -/
theorem sessionStep_cons {env : Env} {l l1 : LibreLinkUp} {sent sent1 : Trace} (x : Exchange)
    (h : sessionStep env l (sent ++ [x]) l1 sent1) : sessionStep env l sent l1 sent1 := by
  obtain ⟨ext, e, s⟩ := h
  refine ⟨[x] ++ ext, by rw [e, List.append_assoc], ?_⟩
  rcases s with s | ⟨hz, y, hy, hst⟩
  · exact Or.inl s
  · exact Or.inr ⟨hz, y, List.mem_append_right _ hy, hst⟩

theorem decodeBody_none {τ : Type} (unmarshal : String → τ → τ × Option String) (b : Body)
    (target : τ) (h : (decodeBody unmarshal b target).1 = none) :
    b.readError = none ∧
      unmarshal b.bytes target = ((decodeBody unmarshal b target).2, none) := by
  unfold decodeBody at h ⊢
  rcases hr : b.readError with _ | e
  · rw [hr] at h
    simp only at h ⊢
    exact ⟨trivial, Prod.ext rfl h⟩
  · rw [hr] at h
    simp at h

/-- What `login` does to the stored session. -/
theorem login_sessionStep (env : Env) (fuel : Nat) :
    ∀ (email password : String) (l : LibreLinkUp) (sent : Trace) (err : Option String)
      (l1 : LibreLinkUp) (sent1 : Trace),
      login env fuel email password l sent = some (err, l1, sent1) →
      sessionStep env l sent l1 sent1 := by
  induction fuel with
  | zero => intro _ _ _ _ _ _ _ h; simp [login] at h
  | succ n ih =>
    intro email password l sent err l1 sent1 h
    obtain ⟨n1, cerr, session, l2, hn, hc, hres⟩ := login_cases h
    have hn1 : n1 = n := by omega
    subst hn1
    -- the exchange of this login, when its body was decoded
    have stored : ∀ (code : Nat) (b : Body) (ext : Trace),
        cerr = (decodeBody env.unmarshalSession b zeroSession).1 →
        session = (decodeBody env.unmarshalSession b zeroSession).2 →
        cerr = none →
        storedByLogin env
          ⟨buildRequest "/llu/auth/login" "POST" (loginValues email password) false l,
            Response.http code b⟩ session := by
      intro code b ext h1 h2 h3
      obtain ⟨hr, hu⟩ := decodeBody_none env.unmarshalSession b zeroSession (h1 ▸ h3)
      rw [← h2] at hu
      exact ⟨rfl, ⟨l.ApiUrl, rfl⟩, code, b, rfl, hr, hu⟩
    rcases callApiWith_cases hc with ⟨e, _, hce, _, hl, hs⟩ | ⟨_, hrest⟩
    · subst hl hs
      rcases hres with ⟨m, _, _, hl1⟩ | ⟨hn0, _, _, _⟩ | ⟨hn0, _, _, _⟩
      · rw [hl1]; exact sessionStep_refl env _ _
      · rw [hn0] at hce; exact absurd hce (by simp)
      · rw [hn0] at hce; exact absurd hce (by simp)
    · rcases hrest with ⟨e, _, hce, _, hl, hs⟩ | ⟨code, b, _, _, hce, hse, hl, hs⟩ |
        ⟨b, rerr, _, hre, hsub⟩
      · subst hl
        rcases hres with ⟨m, _, _, hl1⟩ | ⟨hn0, _, _, _⟩ | ⟨hn0, _, _, _⟩
        · rw [hl1]; exact ⟨_, hs, Or.inl rfl⟩
        · rw [hn0] at hce; exact absurd hce (by simp)
        · rw [hn0] at hce; exact absurd hce (by simp)
      · subst hl
        rcases hres with ⟨m, _, _, hl1⟩ | ⟨hn0, hz, _, hl1⟩ | ⟨_, _, _, hl1⟩
        · rw [hl1]; exact ⟨_, hs, Or.inl rfl⟩
        · rw [hl1]
          exact ⟨_, hs, Or.inr ⟨hz, _, List.mem_singleton.2 rfl, stored code b [] hce hse hn0⟩⟩
        · rw [hl1]; exact ⟨_, hs, Or.inl rfl⟩
      · have hin := sessionStep_cons _ (ih _ _ _ _ _ _ _ hre)
        rcases hres with ⟨m, _, _, hl1⟩ | ⟨hn0, hz, _, hl1⟩ | ⟨_, _, _, hl1⟩
        · rw [hl1]; exact hin
        · obtain ⟨ext, hext, -⟩ := hin
          obtain ⟨-, ext2, hext2⟩ := login_frame env _ _ _ _ _ _ _ _ hre
          rcases hsub with ⟨m, _, hm, _⟩ | ⟨_, hce, hse⟩
          · rw [hn0] at hm; exact absurd hm (by simp)
          · rw [hl1]
            refine ⟨[_] ++ ext2, by rw [hext2, List.append_assoc], Or.inr ⟨hz, _,
              List.mem_append_left _ (List.mem_singleton.2 rfl), stored 400 b [] hce hse hn0⟩⟩
        · rw [hl1]; exact hin


/-- What `callApi` does to the stored session. -/
theorem callApi_sessionStep {τ : Type} {env : Env} {fuel : Nat} {endpoint method : String}
    {body : Option (List (String × String))} {authenticated : Bool}
    {unmarshal : String → τ → τ × Option String} {target : τ} {l : LibreLinkUp} {sent : Trace}
    {err : Option String} {t : τ} {l1 : LibreLinkUp} {sent1 : Trace}
    (h : callApi env fuel endpoint method body authenticated unmarshal target l sent
      = some (err, t, l1, sent1)) :
    sessionStep env l sent l1 sent1 := by
  rcases callApiWith_cases h with ⟨e, _, _, _, hl, hs⟩ | ⟨_, hrest⟩
  · rw [hl, hs]; exact sessionStep_refl env _ _
  · rcases hrest with ⟨e, _, _, _, hl, hs⟩ | ⟨code, b, _, _, _, _, hl, hs⟩ |
      ⟨b, rerr, _, hre, _⟩
    · rw [hl]; exact ⟨_, hs, Or.inl rfl⟩
    · rw [hl]; exact ⟨_, hs, Or.inl rfl⟩
    · exact sessionStep_cons _ (login_sessionStep env fuel _ _ _ _ _ _ _ hre)

/-- With a stored session of status 0, a result of `getLibreLinkUpConnection`
comes with the result of its connections call. -/
theorem getLibreLinkUpConnection_calls {env : Env} {fuel : Nat} {l : LibreLinkUp}
    {sent : Trace} {id : String} {err : Option String} {l1 : LibreLinkUp} {sent1 : Trace}
    (hs : l.session.Status = 0)
    (h : getLibreLinkUpConnection env fuel l sent = some (id, err, l1, sent1)) :
    ∃ cerr connection, callApi env fuel "/llu/connections" "GET" none true
      env.unmarshalConnection zeroConnection l sent = some (cerr, connection, l1, sent1) := by
  unfold getLibreLinkUpConnection at h
  rw [if_pos hs] at h
  split at h
  · exact absurd h (by simp)
  · rename_i cerr t l2 sent2 hc
    simp only [Option.some.injEq, Prod.mk.injEq] at h
    obtain ⟨-, -, h3, h4⟩ := h
    subst h3 h4
    exact ⟨_, _, hc⟩
  · rename_i connection l2 sent2 hc
    have : l2 = l1 ∧ sent2 = sent1 := by
      split_ifs at h
      all_goals
        first
          | (simp only [Option.some.injEq, Prod.mk.injEq] at h
             exact ⟨h.2.2.1, h.2.2.2⟩)
          | (by_cases hq : (connectionLoop l2.PatientId connection.Data).1 = ""
             · rw [if_pos hq] at h
               simp only [Option.some.injEq, Prod.mk.injEq] at h
               exact ⟨h.2.2.1, h.2.2.2⟩
             · rw [if_neg hq] at h
               simp only [Option.some.injEq, Prod.mk.injEq] at h
               exact ⟨h.2.2.1, h.2.2.2⟩)
    obtain ⟨h3, h4⟩ := this
    subst h3 h4
    exact ⟨_, _, hc⟩

/-- What `Gather` does to the stored session. -/
theorem Gather_sessionStep {env : Env} {fuel : Nat} {l : LibreLinkUp} {sent : Trace}
    {acc : Accumulator} {err : Option String} {l1 : LibreLinkUp} {sent1 : Trace}
    {acc1 : Accumulator}
    (h : Gather env fuel l sent acc = some (err, l1, sent1, acc1)) :
    sessionStep env l sent l1 sent1 := by
  have conn : ∀ {id cerr l0 sent0}, getLibreLinkUpConnection env fuel l sent
      = some (id, cerr, l0, sent0) → sessionStep env l sent l0 sent0 := by
    intro id cerr l0 sent0 hc
    rcases getLibreLinkUpConnection_state hc with ⟨hl, hs⟩ | ⟨_, _, hcall⟩
    · rw [hl, hs]; exact sessionStep_refl env _ _
    · exact callApi_sessionStep hcall
  have hgm : ∃ m e, getGlucoseMeasurements env fuel l sent = some (m, e, l1, sent1) := by
    rcases Gather_cases h with ⟨m, e, hg, _, _⟩ | ⟨m, hg, _, _⟩
    · exact ⟨m, _, hg⟩
    · exact ⟨m, _, hg⟩
  obtain ⟨m, e, hg⟩ := hgm
  rcases getGlucoseMeasurements_cases hg with ⟨_, _, _, hl, hs⟩ | ⟨_, id, cerr, hc, _, _⟩ |
    ⟨_, id, l0, sent0, hc, hrest⟩
  · rw [hl, hs]; exact sessionStep_refl env _ _
  · exact conn hc
  · rcases hrest with ⟨gerr, t, hcall, _, _⟩ | ⟨hcall, _⟩
    · exact sessionStep_trans (conn hc) (callApi_sessionStep hcall)
    · exact sessionStep_trans (conn hc) (callApi_sessionStep hcall)

/-- What `Init` does to the stored session. -/
theorem Init_sessionStep {env : Env} {fuel : Nat} {l : LibreLinkUp} {sent : Trace}
    {err : Option String} {l1 : LibreLinkUp} {sent1 : Trace}
    (h : Init env fuel l sent = some (err, l1, sent1)) :
    sessionStep env l sent l1 sent1 := by
  obtain ⟨ext, hext, hs⟩ := login_sessionStep env fuel l.Email l.Password
    { l with ApiUrl := getRegionalApiUrl l } sent err l1 sent1 h
  exact ⟨ext, hext, hs⟩

/-- The stored session of a reachable state is the zero value or a session of
status 0 that a login exchange of the trace carried. -/
theorem Reachable.session {env : Env} {l : LibreLinkUp} {sent : Trace}
    (h : Reachable env l sent) :
    l.session = zeroSession ∨
      (l.session.Status = 0 ∧ ∃ x ∈ sent, storedByLogin env x l.session) := by
  have step : ∀ {l sent l1 sent1},
      (l.session = zeroSession ∨
        (l.session.Status = 0 ∧ ∃ x ∈ sent, storedByLogin env x l.session)) →
      sessionStep env l sent l1 sent1 →
      (l1.session = zeroSession ∨
        (l1.session.Status = 0 ∧ ∃ x ∈ sent1, storedByLogin env x l1.session)) := by
    intro l sent l1 sent1 hinv hstep
    obtain ⟨ext, hext, hs⟩ := hstep
    rcases hs with hs | ⟨hz, x, hx, hst⟩
    · rw [hs, hext]
      rcases hinv with hinv | ⟨hz, x, hx, hst⟩
      · exact Or.inl hinv
      · exact Or.inr ⟨hz, x, List.mem_append_left _ hx, hst⟩
    · rw [hext]
      exact Or.inr ⟨hz, x, List.mem_append_right _ hx, hst⟩
  induction h with
  | input config => exact Or.inl rfl
  | init fuel before call ih => exact step ih (Init_sessionStep call)
  | gather fuel acc before call ih => exact step ih (Gather_sessionStep call)
  | login fuel email password before call ih =>
    exact step ih (login_sessionStep env fuel _ _ _ _ _ _ _ call)


/-- The branches that a stored session of non-zero status selects. -/
theorem status_ne_zero_branches (env : Env) (fuel : Nat) (l : LibreLinkUp) (sent : Trace)
    (hs : l.session.Status ≠ 0) :
    getGlucoseMeasurements env fuel l sent =
      some (zeroMeasurements,
        some "error getting glucose measurement from the llu backend: login status != 0",
        l, sent) ∧
    getLibreLinkUpConnection env fuel l sent = some ("", some invalidLoginCredentials, l, sent) := by
  unfold getGlucoseMeasurements getLibreLinkUpConnection
  rw [if_neg hs, if_neg hs]
  exact ⟨rfl, rfl⟩

/-- The bearer token of an authenticated request is the token of the stored
session. -/
theorem buildRequest_authorization (endpoint method : String)
    (body : Option (List (String × String))) (l : LibreLinkUp) :
    (buildRequest endpoint method body true l).header.lookup "Authorization" =
      some ("Bearer " ++ l.session.Data.AuthTicket.Token) := by
  rfl

/-- A `callApi` whose request can be built and that returns has sent that
request first. -/
theorem callApi_first_exchange {τ : Type} {env : Env} {fuel : Nat} {endpoint method : String}
    {body : Option (List (String × String))} {authenticated : Bool}
    {unmarshal : String → τ → τ × Option String} {target : τ} {l : LibreLinkUp} {sent : Trace}
    {err : Option String} {t : τ} {l1 : LibreLinkUp} {sent1 : Trace}
    (hreq : env.newRequestError method (l.ApiUrl ++ endpoint) = none)
    (h : callApi env fuel endpoint method body authenticated unmarshal target l sent
      = some (err, t, l1, sent1)) :
    ∃ resp ext,
      sent1 = sent ++ [⟨buildRequest endpoint method body authenticated l, resp⟩] ++ ext := by
  rcases callApiWith_cases h with ⟨e, he, _⟩ | ⟨_, hrest⟩
  · rw [hreq] at he
    exact absurd he (by simp)
  · rcases hrest with ⟨e, _, _, _, _, hs⟩ | ⟨code, b, _, _, _, _, _, hs⟩ |
      ⟨b, rerr, _, hre, _⟩
    · exact ⟨_, [], by rw [hs, List.append_nil]⟩
    · exact ⟨_, [], by rw [hs, List.append_nil]⟩
    · obtain ⟨-, ext, hext⟩ := login_frame env fuel _ _ _ _ _ _ _ hre
      exact ⟨_, ext, hext⟩

/-- With a stored session of status 0 and a connections request that can be
built, a `Gather` call that returns has sent the connections request first. -/
theorem Gather_first_exchange {env : Env} {fuel : Nat} {l : LibreLinkUp} {sent : Trace}
    {acc : Accumulator} {err : Option String} {l1 : LibreLinkUp} {sent1 : Trace}
    {acc1 : Accumulator}
    (hs : l.session.Status = 0)
    (hreq : env.newRequestError "GET" (l.ApiUrl ++ "/llu/connections") = none)
    (h : Gather env fuel l sent acc = some (err, l1, sent1, acc1)) :
    ∃ resp ext,
      sent1 = sent ++ [⟨buildRequest "/llu/connections" "GET" none true l, resp⟩] ++ ext := by
  have conn : ∀ {id cerr l0 sent0}, getLibreLinkUpConnection env fuel l sent
      = some (id, cerr, l0, sent0) →
      ∃ resp ext,
        sent0 = sent ++ [⟨buildRequest "/llu/connections" "GET" none true l, resp⟩] ++ ext := by
    intro id cerr l0 sent0 hc
    obtain ⟨aerr, c, hcall⟩ := getLibreLinkUpConnection_calls hs hc
    exact callApi_first_exchange hreq hcall
  have hgm : ∃ m e, getGlucoseMeasurements env fuel l sent = some (m, e, l1, sent1) := by
    rcases Gather_cases h with ⟨m, e, hg, _, _⟩ | ⟨m, hg, _, _⟩
    · exact ⟨m, _, hg⟩
    · exact ⟨m, _, hg⟩
  obtain ⟨m, e, hg⟩ := hgm
  have graph : ∀ {id l0 sent0 gerr t}, getLibreLinkUpConnection env fuel l sent
      = some (id, none, l0, sent0) →
      callApi env fuel ("/llu/connections/" ++ id ++ "/graph") "GET" none true
        env.unmarshalMeasurements zeroMeasurements l0 sent0 = some (gerr, t, l1, sent1) →
      ∃ resp ext,
        sent1 = sent ++ [⟨buildRequest "/llu/connections" "GET" none true l, resp⟩] ++ ext := by
    intro id l0 sent0 gerr t hc hcall
    obtain ⟨resp, ext, hext⟩ := conn hc
    obtain ⟨ext2, hext2⟩ := (callApi_frame hcall).2
    exact ⟨resp, ext ++ ext2, by rw [hext2, hext, List.append_assoc]⟩
  rcases getGlucoseMeasurements_cases hg with ⟨hne, _⟩ | ⟨_, id, cerr, hc, _, _⟩ |
    ⟨_, id, l0, sent0, hc, hrest⟩
  · exact absurd hs hne
  · exact conn hc
  · rcases hrest with ⟨gerr, t, hcall, _, _⟩ | ⟨hcall, _⟩
    · exact graph hc hcall
    · exact graph hc hcall

/-- C11. In every state reachable from a collector built by `LibreLinkUpInput`
through calls of `Init`, `Gather` and `login`, with any backend, the stored
session has status 0: it is the zero value or a session of status 0 that a
login exchange of the trace carried. So a result of `getGlucoseMeasurements`
comes from its status-0 branch, with a result of `getLibreLinkUpConnection`
that comes from its connections call, neither status error being returned;
and a `Gather` call that returns has sent, when the request can be built, the
connections request with the bearer token of the stored session, which is
empty as long as the stored session is the zero value. -/
theorem reachable_session_status_zero (env : Env) (l : LibreLinkUp) (sent : Trace)
    (h : Reachable env l sent) :
    l.session.Status = 0 ∧
    (l.session = zeroSession ∨ ∃ x ∈ sent, storedByLogin env x l.session) ∧
    (∀ fuel m err l2 sent2,
      getGlucoseMeasurements env fuel l sent = some (m, err, l2, sent2) →
      ∃ id cerr l1 sent1 aerr connection,
        getLibreLinkUpConnection env fuel l sent = some (id, cerr, l1, sent1) ∧
        callApi env fuel "/llu/connections" "GET" none true env.unmarshalConnection
          zeroConnection l sent = some (aerr, connection, l1, sent1)) ∧
    (∀ fuel acc err l2 sent2 acc2,
      Gather env fuel l sent acc = some (err, l2, sent2, acc2) →
      env.newRequestError "GET" (l.ApiUrl ++ "/llu/connections") = none →
      ∃ resp ext,
        sent2 = sent ++ [⟨buildRequest "/llu/connections" "GET" none true l, resp⟩] ++ ext ∧
        (buildRequest "/llu/connections" "GET" none true l).header.lookup "Authorization" =
          some ("Bearer " ++ l.session.Data.AuthTicket.Token) ∧
        (l.session = zeroSession →
          (buildRequest "/llu/connections" "GET" none true l).header.lookup "Authorization" =
            some "Bearer ")) := by
  have hinv := h.session
  have hs : l.session.Status = 0 := by
    rcases hinv with hz | ⟨hs, _⟩
    · rw [hz]; rfl
    · exact hs
  refine ⟨hs, ?_, ?_, ?_⟩
  · rcases hinv with hz | ⟨_, x, hx, hst⟩
    · exact Or.inl hz
    · exact Or.inr ⟨x, hx, hst⟩
  · intro fuel m err l2 sent2 hg
    have conn : ∀ {id cerr l1 sent1}, getLibreLinkUpConnection env fuel l sent
        = some (id, cerr, l1, sent1) →
        ∃ id cerr l1 sent1 aerr connection,
          getLibreLinkUpConnection env fuel l sent = some (id, cerr, l1, sent1) ∧
          callApi env fuel "/llu/connections" "GET" none true env.unmarshalConnection
            zeroConnection l sent = some (aerr, connection, l1, sent1) := by
      intro id cerr l1 sent1 hc
      obtain ⟨aerr, c, hcall⟩ := getLibreLinkUpConnection_calls hs hc
      exact ⟨id, cerr, l1, sent1, aerr, c, hc, hcall⟩
    rcases getGlucoseMeasurements_cases hg with ⟨hne, _⟩ | ⟨_, id, cerr, hc, _, _⟩ |
      ⟨_, id, l0, sent0, hc, _⟩
    · exact absurd hs hne
    · exact conn hc
    · exact conn hc
  · intro fuel acc err l2 sent2 acc2 hg hreq
    obtain ⟨resp, ext, hext⟩ := Gather_first_exchange hs hreq hg
    refine ⟨resp, ext, hext, buildRequest_authorization _ _ _ _, fun hz => ?_⟩
    rw [buildRequest_authorization, hz]
    rfl


theorem reachable_session_status_zero_witness :
    Reachable (scriptedEnv [ok200 "session.json", ok200 "connections.json",
        ok200 "measurements.json"])
      { testCollector with
        Region := "EU", ApiUrl := "https://api-eu.libreview.io",
        session := testSession "token-1" }
      [⟨buildRequest "/llu/auth/login" "POST" (loginValues "" "") false
          { testCollector with Region := "EU", ApiUrl := "https://api-eu.libreview.io" },
          ok200 "session.json"⟩,
       ⟨buildRequest "/llu/connections" "GET" none true
          { testCollector with
            Region := "EU", ApiUrl := "https://api-eu.libreview.io",
            session := testSession "token-1" },
          ok200 "connections.json"⟩,
       ⟨buildRequest ("/llu/connections/" ++ testPatientId ++ "/graph") "GET" none true
          { testCollector with
            Region := "EU", ApiUrl := "https://api-eu.libreview.io",
            session := testSession "token-1" },
          ok200 "measurements.json"⟩] ∧
    (testSession "token-1").Status = 0 ∧
    ∃ resp ext,
      [(⟨buildRequest "/llu/connections" "GET" none true testCollector,
          ok200 "connections-0.json"⟩ : Exchange)] =
        [] ++ [⟨buildRequest "/llu/connections" "GET" none true testCollector, resp⟩] ++ ext ∧
      (buildRequest "/llu/connections" "GET" none true testCollector).header.lookup
          "Authorization" = some ("Bearer " ++ testCollector.session.Data.AuthTicket.Token) ∧
      (testCollector.session = zeroSession →
        (buildRequest "/llu/connections" "GET" none true testCollector).header.lookup
          "Authorization" = some "Bearer ") := by
  have r0 : Reachable (scriptedEnv [ok200 "session.json", ok200 "connections.json",
      ok200 "measurements.json"]) { testCollector with Region := "EU" } [] :=
    Reachable.input { testCollector with Region := "EU" }
  have r1 := Reachable.init 1 r0 (by decide :
    Init (scriptedEnv [ok200 "session.json", ok200 "connections.json",
        ok200 "measurements.json"]) 1 { testCollector with Region := "EU" } [] =
      some (none,
        { testCollector with
          Region := "EU", ApiUrl := "https://api-eu.libreview.io",
          session := testSession "token-1" },
        [⟨buildRequest "/llu/auth/login" "POST" (loginValues "" "") false
          { testCollector with Region := "EU", ApiUrl := "https://api-eu.libreview.io" },
          ok200 "session.json"⟩]))
  have r2 := Reachable.gather 0 [] r1 (by decide :
    Gather (scriptedEnv [ok200 "session.json", ok200 "connections.json",
        ok200 "measurements.json"]) 0
      { testCollector with
        Region := "EU", ApiUrl := "https://api-eu.libreview.io",
        session := testSession "token-1" }
      [⟨buildRequest "/llu/auth/login" "POST" (loginValues "" "") false
        { testCollector with Region := "EU", ApiUrl := "https://api-eu.libreview.io" },
        ok200 "session.json"⟩] [] =
      some (none,
        { testCollector with
          Region := "EU", ApiUrl := "https://api-eu.libreview.io",
          session := testSession "token-1" },
        [⟨buildRequest "/llu/auth/login" "POST" (loginValues "" "") false
            { testCollector with Region := "EU", ApiUrl := "https://api-eu.libreview.io" },
            ok200 "session.json"⟩,
         ⟨buildRequest "/llu/connections" "GET" none true
            { testCollector with
              Region := "EU", ApiUrl := "https://api-eu.libreview.io",
              session := testSession "token-1" },
            ok200 "connections.json"⟩,
         ⟨buildRequest ("/llu/connections/" ++ testPatientId ++ "/graph") "GET" none true
            { testCollector with
              Region := "EU", ApiUrl := "https://api-eu.libreview.io",
              session := testSession "token-1" },
            ok200 "measurements.json"⟩],
        [⟨"librelinkup",
          gatherFields { Data := { Connection := testConnection testPatientId "Jane" } },
          gatherTags { Data := { Connection := testConnection testPatientId "Jane" } }⟩]))
  have fresh : Reachable (scriptedEnv [ok200 "connections-0.json"]) testCollector [] :=
    Reachable.input testCollector
  exact ⟨r2, (reachable_session_status_zero _ _ _ r2).1,
    (reachable_session_status_zero _ _ _ fresh).2.2.2 0 []
      (some "error getting connections: no LibreLinkUp connection found") testCollector
      [⟨buildRequest "/llu/connections" "GET" none true testCollector,
        ok200 "connections-0.json"⟩] [] (by decide) rfl⟩

end librelinkup
